import Mathlib

/-!
# Key-event to command resolution (session/internal/keymap.cc)

A shallow embedding of the key encoder (GetKey, MaybeGetKeyStub), of the
per-context binding tables and of the rule-table loader
(KeyMapManager::LoadStreamWithErrors), followed by the theorems that settle
the properties claimed about them.

Machine integers are natural numbers; every uint32 / uint64 operation that can
overflow is reduced modulo 2^32 / 2^64 explicitly.
-/

namespace mozc
namespace keymap

/-! ## Key events and the key encoder -/

/-- Key is an alias of uint64 in the source. -/
abbrev Key := Nat

/-- The protobuf message commands::KeyEvent, restricted to the fields read by
keymap.cc.  An optional field is an Option (has_x is isSome), the repeated
field modifier_keys is a list.  key_code and modifiers are uint32 fields,
special_key and modifier_keys hold enumerator values; a field holds the
number the accessor returns, in the range of its type. -/
structure KeyEvent where
  key_code : Option Nat
  modifiers : Option Nat
  special_key : Option Nat
  modifier_keys : List Nat
  deriving DecidableEq, Repr

/-- A default-constructed (cleared) commands::KeyEvent: no field is set. -/
def KeyEvent.empty : KeyEvent := ⟨none, none, none, []⟩

/-- Modelled from the spec: the enumerator commands::KeyEvent::NO_SPECIALKEY is
declared in commands.proto, which is not among the sources; the spec resolves
the special-key code to 0 when no special key is set. -/
def NO_SPECIALKEY : Nat := 0

/-- GetModifiers (keymap.cc:56): the explicit combined mask when present,
otherwise the OR of the individual modifier codes (a uint32 accumulator; the
OR of uint32 values cannot overflow). -/
def GetModifiers (key_event : KeyEvent) : Nat :=
  match key_event.modifiers with
  | some m => m
  | none => key_event.modifier_keys.foldl (fun modifiers k => modifiers ||| k) 0

/-- GetKey (keymap.cc:69).  The C++ function returns false and leaves the
output untouched on failure; here failure is none.  The shifts and sums are
uint64 operations, reduced modulo 2^64. -/
def GetKey (key_event : KeyEvent) : Option Key :=
  let modifier_keys : Key := GetModifiers key_event
  let special_key : Key :=
    match key_event.special_key with
    | some s => s
    | none => NO_SPECIALKEY
  let key_code : Key :=
    match key_event.key_code with
    | some c => c
    | none => 0
  if 0 < key_code ∧ key_code ≤ 32 then
    none
  else
    some ((((modifier_keys <<< 48) % 2 ^ 64 + (special_key <<< 32) % 2 ^ 64) % 2 ^ 64
      + key_code) % 2 ^ 64)

/-- The stub key event built inside MaybeGetKeyStub (keymap.cc:106): a fresh
event whose only field is special_key = ASCII.  The enumerator
commands::KeyEvent::ASCII is declared in commands.proto, which is not among
the sources, so its value is a parameter. -/
def stub_key_event (ASCII : Nat) : KeyEvent :=
  { KeyEvent.empty with special_key := some ASCII }

/-- MaybeGetKeyStub (keymap.cc:91): the fallback key of a key event without
modifiers and without special key whose code point is above 32. -/
def MaybeGetKeyStub (ASCII : Nat) (key_event : KeyEvent) : Option Key :=
  if GetModifiers key_event ≠ 0 then
    none
  else if key_event.special_key.isSome then
    none
  else
    match key_event.key_code with
    | none => none
    | some c =>
      if c ≤ 32 then none
      else GetKey (stub_key_event ASCII)

/-! ## Ordered maps and sets

std::map and std::set are kept as lists ordered by key without duplicate
keys, so that two equal containers are equal lists. -/

/-- The strict order std::map uses on its keys. -/
class MapKey (K : Type) where
  less : K → K → Bool

instance : MapKey Nat := ⟨fun a b => decide (a < b)⟩

/-- Lexicographic comparison of two character sequences by code unit. -/
def lessChars : List Char → List Char → Bool
  | [], [] => false
  | [], _ :: _ => true
  | _ :: _, [] => false
  | a :: as, b :: bs =>
    if a.toNat < b.toNat then true
    else if b.toNat < a.toNat then false
    else lessChars as bs

instance : MapKey String := ⟨fun a b => lessChars a.data b.data⟩

/-- The container std::map<K, V>. -/
abbrev Map (K V : Type) := List (K × V)

/-- The call m.find(k): the mapped value, none for m.end(). -/
def Map.find {K V : Type} [DecidableEq K] (m : Map K V) (k : K) : Option V :=
  match m with
  | [] => none
  | (k1, v1) :: rest => if k = k1 then some v1 else Map.find rest k

/-- The assignment m[k] = v: insert, or overwrite the value of an existing key. -/
def Map.insert {K V : Type} [DecidableEq K] [MapKey K] (m : Map K V) (k : K) (v : V) :
    Map K V :=
  match m with
  | [] => [(k, v)]
  | (k1, v1) :: rest =>
    if k = k1 then (k, v) :: rest
    else if MapKey.less k k1 then (k, v) :: (k1, v1) :: rest
    else (k1, v1) :: Map.insert rest k v

/-- The call s.insert(k) on a std::set<uint64>. -/
def setInsert (s : List Nat) (k : Nat) : List Nat :=
  match s with
  | [] => [k]
  | k1 :: rest =>
    if k = k1 then k1 :: rest
    else if k < k1 then k :: k1 :: rest
    else k1 :: setInsert rest k

/-! ## Binding tables (KeyMap) -/

/-- Modelled from the spec: the class template KeyMap<T> is defined in
session/internal/keymap-inl.h, which is not among the sources.  A binding
table is a mapping from canonical Key to command code. -/
structure KeyMap (T : Type) where
  keymap_ : Map Key T

/-- Modelled from the spec: KeyMap<T>::Clear (keymap-inl.h, not among the
sources) removes all rules. -/
def KeyMap.Clear {T : Type} (_km : KeyMap T) : KeyMap T := ⟨[]⟩

/-- Modelled from the spec: KeyMap<T>::AddRule (keymap-inl.h, not among the
sources) encodes the descriptor with GetKey; if encoding fails the call is a
silent no-op, otherwise it upserts Key -> code, overwriting any prior entry
for that Key. -/
def KeyMap.AddRule {T : Type} (km : KeyMap T) (key_event : KeyEvent) (command : T) :
    KeyMap T :=
  match GetKey key_event with
  | none => km
  | some key => ⟨km.keymap_.insert key command⟩

/-- Modelled from the spec: KeyMap<T>::GetCommand (keymap-inl.h, not among the
sources) encodes the exact Key and returns its command if present in the
mapping; else it attempts MaybeGetKeyStub and, if that succeeds and the stub
Key is present in the mapping, returns that command; else nothing is found. -/
def KeyMap.GetCommand {T : Type} (ASCII : Nat) (km : KeyMap T) (key_event : KeyEvent) :
    Option T :=
  let exact : Option T :=
    match GetKey key_event with
    | none => none
    | some key => km.keymap_.find key
  match exact with
  | some command => some command
  | none =>
    match MaybeGetKeyStub ASCII key_event with
    | none => none
    | some key => km.keymap_.find key

/-! ## Command vocabularies

The enumerations DirectInputState::Commands, PrecompositionState::Commands,
CompositionState::Commands and ConversionState::Commands are declared in
session/internal/keymap.h, which is not among the sources; each is given here
with the enumerators keymap.cc names, in the order InitCommandData first
mentions them. -/

namespace DirectInputState

inductive Commands where
  | IME_ON
  | INPUT_MODE_HIRAGANA
  | INPUT_MODE_FULL_KATAKANA
  | INPUT_MODE_HALF_KATAKANA
  | INPUT_MODE_FULL_ALPHANUMERIC
  | INPUT_MODE_HALF_ALPHANUMERIC
  deriving DecidableEq, Repr

end DirectInputState

namespace PrecompositionState

inductive Commands where
  | IME_OFF
  | IME_ON
  | INSERT_CHARACTER
  | INSERT_SPACE
  | INSERT_ALTERNATE_SPACE
  | INSERT_HALF_SPACE
  | INSERT_FULL_SPACE
  | TOGGLE_ALPHANUMERIC_MODE
  | INPUT_MODE_HIRAGANA
  | INPUT_MODE_FULL_KATAKANA
  | INPUT_MODE_HALF_KATAKANA
  | INPUT_MODE_FULL_ALPHANUMERIC
  | INPUT_MODE_HALF_ALPHANUMERIC
  | LAUNCH_CONFIG_DIALOG
  | LAUNCH_DICTIONARY_TOOL
  | LAUNCH_WORD_REGISTER_DIALOG
  | REVERT
  | UNDO
  | ABORT
  deriving DecidableEq, Repr

end PrecompositionState

namespace CompositionState

inductive Commands where
  | IME_OFF
  | IME_ON
  | INSERT_CHARACTER
  | DEL
  | BACKSPACE
  | INSERT_HALF_SPACE
  | INSERT_FULL_SPACE
  | CANCEL
  | MOVE_CURSOR_LEFT
  | MOVE_CURSOR_RIGHT
  | MOVE_CURSOR_TO_BEGINNING
  | MOVE_MOVE_CURSOR_TO_END
  | COMMIT
  | COMMIT_FIRST_SUGGESTION
  | CONVERT
  | CONVERT_WITHOUT_HISTORY
  | PREDICT_AND_CONVERT
  | CONVERT_TO_HIRAGANA
  | CONVERT_TO_FULL_KATAKANA
  | CONVERT_TO_HALF_KATAKANA
  | CONVERT_TO_HALF_WIDTH
  | CONVERT_TO_FULL_ALPHANUMERIC
  | CONVERT_TO_HALF_ALPHANUMERIC
  | SWITCH_KANA_TYPE
  | DISPLAY_AS_HIRAGANA
  | DISPLAY_AS_FULL_KATAKANA
  | DISPLAY_AS_HALF_KATAKANA
  | TRANSLATE_HALF_WIDTH
  | TRANSLATE_FULL_ASCII
  | TRANSLATE_HALF_ASCII
  | TOGGLE_ALPHANUMERIC_MODE
  | INPUT_MODE_HIRAGANA
  | INPUT_MODE_FULL_KATAKANA
  | INPUT_MODE_HALF_KATAKANA
  | INPUT_MODE_FULL_ALPHANUMERIC
  | INPUT_MODE_HALF_ALPHANUMERIC
  | ABORT
  deriving DecidableEq, Repr

end CompositionState

namespace ConversionState

inductive Commands where
  | IME_OFF
  | IME_ON
  | INSERT_CHARACTER
  | INSERT_HALF_SPACE
  | INSERT_FULL_SPACE
  | CANCEL
  | SEGMENT_FOCUS_LEFT
  | SEGMENT_FOCUS_RIGHT_OR_COMMIT
  | SEGMENT_FOCUS_RIGHT
  | SEGMENT_FOCUS_FIRST
  | SEGMENT_FOCUS_LAST
  | SEGMENT_WIDTH_EXPAND
  | SEGMENT_WIDTH_SHRINK
  | CONVERT_NEXT
  | CONVERT_PREV
  | CONVERT_NEXT_PAGE
  | CONVERT_PREV_PAGE
  | PREDICT_AND_CONVERT
  | COMMIT
  | COMMIT_SEGMENT
  | CONVERT_TO_HIRAGANA
  | CONVERT_TO_FULL_KATAKANA
  | CONVERT_TO_HALF_KATAKANA
  | CONVERT_TO_HALF_WIDTH
  | CONVERT_TO_FULL_ALPHANUMERIC
  | CONVERT_TO_HALF_ALPHANUMERIC
  | SWITCH_KANA_TYPE
  | TOGGLE_ALPHANUMERIC_MODE
  | DISPLAY_AS_HIRAGANA
  | DISPLAY_AS_FULL_KATAKANA
  | DISPLAY_AS_HALF_KATAKANA
  | TRANSLATE_HALF_WIDTH
  | TRANSLATE_FULL_ASCII
  | TRANSLATE_HALF_ASCII
  | INPUT_MODE_HIRAGANA
  | INPUT_MODE_FULL_KATAKANA
  | INPUT_MODE_HALF_KATAKANA
  | INPUT_MODE_FULL_ALPHANUMERIC
  | INPUT_MODE_HALF_ALPHANUMERIC
  | REPORT_BUG
  | ABORT
  deriving DecidableEq, Repr

end ConversionState

instance : MapKey DirectInputState.Commands := ⟨fun a b => decide (a.toCtorIdx < b.toCtorIdx)⟩
instance : MapKey PrecompositionState.Commands := ⟨fun a b => decide (a.toCtorIdx < b.toCtorIdx)⟩
instance : MapKey CompositionState.Commands := ⟨fun a b => decide (a.toCtorIdx < b.toCtorIdx)⟩
instance : MapKey ConversionState.Commands := ⟨fun a b => decide (a.toCtorIdx < b.toCtorIdx)⟩

/-! ## The manager -/

/-- The enumeration config::Config::SessionKeymap (config.proto, not among the
sources), with the enumerators keymap.cc names; UNKNOWN stands for any other
value of the underlying integer, which the switch of GetKeyMapFileName sends
to its default label. -/
inductive SessionKeymap where
  | NONE
  | CUSTOM
  | ATOK
  | MSIME
  | KOTOERI
  | UNKNOWN (value : Int)
  deriving DecidableEq, Repr

/-- What keymap.cc takes from outside: the collaborators it calls and the
preprocessor symbols it tests.  KeyParser::ParseKey, KeyEventNormalizer::ToUint64,
Util::ChopReturns and Util::SplitStringUsing are defined in files that are not
among the sources, and so is the enumerator commands::KeyEvent::ASCII; the
theorems hold for every behaviour of these. -/
structure Env where
  /-- The enumerator commands::KeyEvent::ASCII. -/
  ASCII : Nat
  /-- KeyParser::ParseKey applied to a fresh key event (its bool result is
  never read by keymap.cc). -/
  ParseKey : String → KeyEvent
  /-- KeyEventNormalizer::ToUint64; none when it returns false. -/
  ToUint64 : KeyEvent → Option Nat
  /-- Util::ChopReturns. -/
  ChopReturns : String → String
  /-- Util::SplitStringUsing(str, delimiters, output). -/
  SplitStringUsing : String → String → List String
  /-- NO_LOGGING is defined (release build). -/
  NO_LOGGING : Bool
  /-- _DEBUG is defined (debug build). -/
  _DEBUG : Bool
  /-- OS_WINDOWS is defined. -/
  OS_WINDOWS : Bool
  /-- OS_MACOSX is defined. -/
  OS_MACOSX : Bool
  /-- ConfigFileStream::Open: the text of the stream it returns, none when it
  returns NULL (the resource cannot be opened). -/
  Open : String → Option String
  /-- ConfigFileStream::GetFileName. -/
  GetFileName : String → String
  /-- Whether an OutputFileStream on the named file opens (tests true). -/
  OutputFileStream : String → Bool

/-- The data members of KeyMapManager (declared in keymap.h; the names are
those keymap.cc uses). -/
structure KeyMapManager where
  keymap_ : SessionKeymap
  keymap_direct_ : KeyMap DirectInputState.Commands
  keymap_precomposition_ : KeyMap PrecompositionState.Commands
  keymap_composition_ : KeyMap CompositionState.Commands
  keymap_conversion_ : KeyMap ConversionState.Commands
  keymap_suggestion_ : KeyMap CompositionState.Commands
  keymap_prediction_ : KeyMap ConversionState.Commands
  ime_on_off_keys_ : List Nat
  command_direct_map_ : Map String DirectInputState.Commands
  command_precomposition_map_ : Map String PrecompositionState.Commands
  command_composition_map_ : Map String CompositionState.Commands
  command_conversion_map_ : Map String ConversionState.Commands
  reverse_command_direct_map_ : Map DirectInputState.Commands String
  reverse_command_precomposition_map_ : Map PrecompositionState.Commands String
  reverse_command_composition_map_ : Map CompositionState.Commands String
  reverse_command_conversion_map_ : Map ConversionState.Commands String

/-- The fields of config::Config (config.proto, not among the sources) that
keymap.cc reads or writes. -/
structure Config where
  session_keymap : SessionKeymap
  custom_keymap_table : String
  deriving DecidableEq, Repr

/-- The state outside the manager that keymap.cc reads or changes: the
configuration held by config::ConfigHandler, and a record of the calls made
to the outside (oldest first), so that "nothing is read" and "nothing is
written" are statements about this state. -/
structure World where
  /-- What ConfigHandler::GetConfig returns and GET_CONFIG reads. -/
  config : Config
  /-- The arguments of the ConfigHandler::SetConfig calls made so far. -/
  SetConfig_calls : List Config
  /-- The names passed to ConfigFileStream::Open so far. -/
  Open_calls : List String
  /-- The files written through an OutputFileStream so far: name and text. -/
  written_files : List (String × String)
  deriving DecidableEq, Repr

/-- A std::ostringstream: the character sequence of its buffer up to the high
mark, and the put position. -/
structure ostringstream where
  buf : List Char
  pptr : Nat
  deriving DecidableEq, Repr

/-- The constructor ostringstream(str) with the default open mode (out, not
ate): the buffer holds the characters of str and the put position is at the
beginning of the buffer. -/
def ostringstream.ofString (str : String) : ostringstream :=
  ⟨str.data, 0⟩

/-- The insertion oss << s: the characters of s are stored from the put
position on, over the characters already there, and the put position moves
past them. -/
def ostringstream.put (oss : ostringstream) (s : String) : ostringstream :=
  ⟨oss.buf.take oss.pptr ++ s.data ++ oss.buf.drop (oss.pptr + s.data.length),
    oss.pptr + s.data.length⟩

/-- The insertion oss << endl: a line feed (the flush has no effect on a
string buffer). -/
def ostringstream.endl (oss : ostringstream) : ostringstream :=
  oss.put "\n"

/-- The call oss.str(): the buffer up to the high mark. -/
def ostringstream.str (oss : ostringstream) : String :=
  String.mk oss.buf

namespace KeyMapManager

/-- The state of a freshly constructed object before the constructor body
runs: keymap_ is NONE and every container is empty (keymap.cc:116). -/
def initial : KeyMapManager :=
  { keymap_ := SessionKeymap.NONE
    keymap_direct_ := ⟨[]⟩
    keymap_precomposition_ := ⟨[]⟩
    keymap_composition_ := ⟨[]⟩
    keymap_conversion_ := ⟨[]⟩
    keymap_suggestion_ := ⟨[]⟩
    keymap_prediction_ := ⟨[]⟩
    ime_on_off_keys_ := []
    command_direct_map_ := []
    command_precomposition_map_ := []
    command_composition_map_ := []
    command_conversion_map_ := []
    reverse_command_direct_map_ := []
    reverse_command_precomposition_map_ := []
    reverse_command_composition_map_ := []
    reverse_command_conversion_map_ := [] }

/-- KeyMapManager::RegisterDirectCommand (keymap.cc:447). -/
def RegisterDirectCommand (m : KeyMapManager) (command_string : String)
    (command : DirectInputState.Commands) : KeyMapManager :=
  { m with
    command_direct_map_ := m.command_direct_map_.insert command_string command
    reverse_command_direct_map_ := m.reverse_command_direct_map_.insert command command_string }

/-- KeyMapManager::RegisterPrecompositionCommand (keymap.cc:453). -/
def RegisterPrecompositionCommand (m : KeyMapManager) (command_string : String)
    (command : PrecompositionState.Commands) : KeyMapManager :=
  { m with
    command_precomposition_map_ := m.command_precomposition_map_.insert command_string command
    reverse_command_precomposition_map_ :=
      m.reverse_command_precomposition_map_.insert command command_string }

/-- KeyMapManager::RegisterCompositionCommand (keymap.cc:459). -/
def RegisterCompositionCommand (m : KeyMapManager) (command_string : String)
    (command : CompositionState.Commands) : KeyMapManager :=
  { m with
    command_composition_map_ := m.command_composition_map_.insert command_string command
    reverse_command_composition_map_ :=
      m.reverse_command_composition_map_.insert command command_string }

/-- KeyMapManager::RegisterConversionCommand (keymap.cc:465). -/
def RegisterConversionCommand (m : KeyMapManager) (command_string : String)
    (command : ConversionState.Commands) : KeyMapManager :=
  { m with
    command_conversion_map_ := m.command_conversion_map_.insert command_string command
    reverse_command_conversion_map_ :=
      m.reverse_command_conversion_map_.insert command command_string }

/-- KeyMapManager::ParseCommandDirect (keymap.cc:736). -/
def ParseCommandDirect (m : KeyMapManager) (command_string : String) :
    Option DirectInputState.Commands :=
  m.command_direct_map_.find command_string

/-- KeyMapManager::ParseCommandPrecomposition (keymap.cc:747). -/
def ParseCommandPrecomposition (m : KeyMapManager) (command_string : String) :
    Option PrecompositionState.Commands :=
  m.command_precomposition_map_.find command_string

/-- KeyMapManager::ParseCommandComposition (keymap.cc:758). -/
def ParseCommandComposition (m : KeyMapManager) (command_string : String) :
    Option CompositionState.Commands :=
  m.command_composition_map_.find command_string

/-- KeyMapManager::ParseCommandConversion (keymap.cc:768). -/
def ParseCommandConversion (m : KeyMapManager) (command_string : String) :
    Option ConversionState.Commands :=
  m.command_conversion_map_.find command_string

/-- KeyMapManager::InitCommandData (keymap.cc:471).  The blocks under #ifdef
are applied when the corresponding symbol of the environment is set. -/
def InitCommandData (env : Env) (m : KeyMapManager) : KeyMapManager :=
  let m := m.RegisterDirectCommand "IMEOn" DirectInputState.Commands.IME_ON
  let m :=
    if env.OS_WINDOWS then
      m
        |>.RegisterDirectCommand "InputModeHiragana" DirectInputState.Commands.INPUT_MODE_HIRAGANA
        |>.RegisterDirectCommand "InputModeFullKatakana" DirectInputState.Commands.INPUT_MODE_FULL_KATAKANA
        |>.RegisterDirectCommand "InputModeHalfKatakana" DirectInputState.Commands.INPUT_MODE_HALF_KATAKANA
        |>.RegisterDirectCommand "InputModeFullAlphanumeric" DirectInputState.Commands.INPUT_MODE_FULL_ALPHANUMERIC
        |>.RegisterDirectCommand "InputModeHalfAlphanumeric" DirectInputState.Commands.INPUT_MODE_HALF_ALPHANUMERIC
    else m
  let m := m.RegisterPrecompositionCommand "IMEOff" PrecompositionState.Commands.IME_OFF
  let m := m.RegisterPrecompositionCommand "IMEOn" PrecompositionState.Commands.IME_ON
  let m := m.RegisterPrecompositionCommand "InsertCharacter" PrecompositionState.Commands.INSERT_CHARACTER
  let m := m.RegisterPrecompositionCommand "InsertSpace" PrecompositionState.Commands.INSERT_SPACE
  let m := m.RegisterPrecompositionCommand "InsertAlternateSpace" PrecompositionState.Commands.INSERT_ALTERNATE_SPACE
  let m := m.RegisterPrecompositionCommand "InsertHalfSpace" PrecompositionState.Commands.INSERT_HALF_SPACE
  let m := m.RegisterPrecompositionCommand "InsertFullSpace" PrecompositionState.Commands.INSERT_FULL_SPACE
  let m := m.RegisterPrecompositionCommand "ToggleAlphanumericMode" PrecompositionState.Commands.TOGGLE_ALPHANUMERIC_MODE
  let m :=
    if env.OS_WINDOWS then
      m
        |>.RegisterPrecompositionCommand "InputModeHiragana" PrecompositionState.Commands.INPUT_MODE_HIRAGANA
        |>.RegisterPrecompositionCommand "InputModeFullKatakana" PrecompositionState.Commands.INPUT_MODE_FULL_KATAKANA
        |>.RegisterPrecompositionCommand "InputModeHalfKatakana" PrecompositionState.Commands.INPUT_MODE_HALF_KATAKANA
        |>.RegisterPrecompositionCommand "InputModeFullAlphanumeric" PrecompositionState.Commands.INPUT_MODE_FULL_ALPHANUMERIC
        |>.RegisterPrecompositionCommand "InputModeHalfAlphanumeric" PrecompositionState.Commands.INPUT_MODE_HALF_ALPHANUMERIC
    else m
  let m := m.RegisterPrecompositionCommand "LaunchConfigDialog" PrecompositionState.Commands.LAUNCH_CONFIG_DIALOG
  let m := m.RegisterPrecompositionCommand "LaunchDictionaryTool" PrecompositionState.Commands.LAUNCH_DICTIONARY_TOOL
  let m := m.RegisterPrecompositionCommand "LaunchWordRegisterDialog" PrecompositionState.Commands.LAUNCH_WORD_REGISTER_DIALOG
  let m := m.RegisterPrecompositionCommand "Revert" PrecompositionState.Commands.REVERT
  let m := m.RegisterPrecompositionCommand "Undo" PrecompositionState.Commands.UNDO
  let m :=
    if env._DEBUG then
      m
        |>.RegisterPrecompositionCommand "Abort" PrecompositionState.Commands.ABORT
    else m
  let m := m.RegisterCompositionCommand "IMEOff" CompositionState.Commands.IME_OFF
  let m := m.RegisterCompositionCommand "IMEOn" CompositionState.Commands.IME_ON
  let m := m.RegisterCompositionCommand "InsertCharacter" CompositionState.Commands.INSERT_CHARACTER
  let m := m.RegisterCompositionCommand "Delete" CompositionState.Commands.DEL
  let m := m.RegisterCompositionCommand "Backspace" CompositionState.Commands.BACKSPACE
  let m := m.RegisterCompositionCommand "InsertHalfSpace" CompositionState.Commands.INSERT_HALF_SPACE
  let m := m.RegisterCompositionCommand "InsertFullSpace" CompositionState.Commands.INSERT_FULL_SPACE
  let m := m.RegisterCompositionCommand "Cancel" CompositionState.Commands.CANCEL
  let m := m.RegisterCompositionCommand "MoveCursorLeft" CompositionState.Commands.MOVE_CURSOR_LEFT
  let m := m.RegisterCompositionCommand "MoveCursorRight" CompositionState.Commands.MOVE_CURSOR_RIGHT
  let m := m.RegisterCompositionCommand "MoveCursorToBeginning" CompositionState.Commands.MOVE_CURSOR_TO_BEGINNING
  let m := m.RegisterCompositionCommand "MoveCursorToEnd" CompositionState.Commands.MOVE_MOVE_CURSOR_TO_END
  let m := m.RegisterCompositionCommand "Commit" CompositionState.Commands.COMMIT
  let m := m.RegisterCompositionCommand "CommitFirstSuggestion" CompositionState.Commands.COMMIT_FIRST_SUGGESTION
  let m := m.RegisterCompositionCommand "Convert" CompositionState.Commands.CONVERT
  let m := m.RegisterCompositionCommand "ConvertWithoutHistory" CompositionState.Commands.CONVERT_WITHOUT_HISTORY
  let m := m.RegisterCompositionCommand "PredictAndConvert" CompositionState.Commands.PREDICT_AND_CONVERT
  let m := m.RegisterCompositionCommand "ConvertToHiragana" CompositionState.Commands.CONVERT_TO_HIRAGANA
  let m := m.RegisterCompositionCommand "ConvertToFullKatakana" CompositionState.Commands.CONVERT_TO_FULL_KATAKANA
  let m := m.RegisterCompositionCommand "ConvertToHalfKatakana" CompositionState.Commands.CONVERT_TO_HALF_KATAKANA
  let m := m.RegisterCompositionCommand "ConvertToHalfWidth" CompositionState.Commands.CONVERT_TO_HALF_WIDTH
  let m := m.RegisterCompositionCommand "ConvertToFullAlphanumeric" CompositionState.Commands.CONVERT_TO_FULL_ALPHANUMERIC
  let m := m.RegisterCompositionCommand "ConvertToHalfAlphanumeric" CompositionState.Commands.CONVERT_TO_HALF_ALPHANUMERIC
  let m := m.RegisterCompositionCommand "SwitchKanaType" CompositionState.Commands.SWITCH_KANA_TYPE
  let m := m.RegisterCompositionCommand "DisplayAsHiragana" CompositionState.Commands.DISPLAY_AS_HIRAGANA
  let m := m.RegisterCompositionCommand "DisplayAsFullKatakana" CompositionState.Commands.DISPLAY_AS_FULL_KATAKANA
  let m := m.RegisterCompositionCommand "DisplayAsHalfKatakana" CompositionState.Commands.DISPLAY_AS_HALF_KATAKANA
  let m := m.RegisterCompositionCommand "DisplayAsHalfWidth" CompositionState.Commands.TRANSLATE_HALF_WIDTH
  let m := m.RegisterCompositionCommand "DisplayAsFullAlphanumeric" CompositionState.Commands.TRANSLATE_FULL_ASCII
  let m := m.RegisterCompositionCommand "DisplayAsHalfAlphanumeric" CompositionState.Commands.TRANSLATE_HALF_ASCII
  let m := m.RegisterCompositionCommand "ToggleAlphanumericMode" CompositionState.Commands.TOGGLE_ALPHANUMERIC_MODE
  let m :=
    if env.OS_WINDOWS then
      m
        |>.RegisterCompositionCommand "InputModeHiragana" CompositionState.Commands.INPUT_MODE_HIRAGANA
        |>.RegisterCompositionCommand "InputModeFullKatakana" CompositionState.Commands.INPUT_MODE_FULL_KATAKANA
        |>.RegisterCompositionCommand "InputModeHalfKatakana" CompositionState.Commands.INPUT_MODE_HALF_KATAKANA
        |>.RegisterCompositionCommand "InputModeFullAlphanumeric" CompositionState.Commands.INPUT_MODE_FULL_ALPHANUMERIC
        |>.RegisterCompositionCommand "InputModeHalfAlphanumeric" CompositionState.Commands.INPUT_MODE_HALF_ALPHANUMERIC
    else m
  let m :=
    if env._DEBUG then
      m
        |>.RegisterCompositionCommand "Abort" CompositionState.Commands.ABORT
    else m
  let m := m.RegisterConversionCommand "IMEOff" ConversionState.Commands.IME_OFF
  let m := m.RegisterConversionCommand "IMEOn" ConversionState.Commands.IME_ON
  let m := m.RegisterConversionCommand "InsertCharacter" ConversionState.Commands.INSERT_CHARACTER
  let m := m.RegisterConversionCommand "InsertHalfSpace" ConversionState.Commands.INSERT_HALF_SPACE
  let m := m.RegisterConversionCommand "InsertFullSpace" ConversionState.Commands.INSERT_FULL_SPACE
  let m := m.RegisterConversionCommand "Cancel" ConversionState.Commands.CANCEL
  let m := m.RegisterConversionCommand "SegmentFocusLeft" ConversionState.Commands.SEGMENT_FOCUS_LEFT
  let m := m.RegisterConversionCommand "SegmentFocusRightOrCommit" ConversionState.Commands.SEGMENT_FOCUS_RIGHT_OR_COMMIT
  let m := m.RegisterConversionCommand "SegmentFocusRight" ConversionState.Commands.SEGMENT_FOCUS_RIGHT
  let m := m.RegisterConversionCommand "SegmentFocusFirst" ConversionState.Commands.SEGMENT_FOCUS_FIRST
  let m := m.RegisterConversionCommand "SegmentFocusLast" ConversionState.Commands.SEGMENT_FOCUS_LAST
  let m := m.RegisterConversionCommand "SegmentWidthExpand" ConversionState.Commands.SEGMENT_WIDTH_EXPAND
  let m := m.RegisterConversionCommand "SegmentWidthShrink" ConversionState.Commands.SEGMENT_WIDTH_SHRINK
  let m := m.RegisterConversionCommand "ConvertNext" ConversionState.Commands.CONVERT_NEXT
  let m := m.RegisterConversionCommand "ConvertPrev" ConversionState.Commands.CONVERT_PREV
  let m := m.RegisterConversionCommand "ConvertNextPage" ConversionState.Commands.CONVERT_NEXT_PAGE
  let m := m.RegisterConversionCommand "ConvertPrevPage" ConversionState.Commands.CONVERT_PREV_PAGE
  let m := m.RegisterConversionCommand "PredictAndConvert" ConversionState.Commands.PREDICT_AND_CONVERT
  let m := m.RegisterConversionCommand "Commit" ConversionState.Commands.COMMIT
  let m := m.RegisterConversionCommand "CommitOnlyFirstSegment" ConversionState.Commands.COMMIT_SEGMENT
  let m := m.RegisterConversionCommand "ConvertToHiragana" ConversionState.Commands.CONVERT_TO_HIRAGANA
  let m := m.RegisterConversionCommand "ConvertToFullKatakana" ConversionState.Commands.CONVERT_TO_FULL_KATAKANA
  let m := m.RegisterConversionCommand "ConvertToHalfKatakana" ConversionState.Commands.CONVERT_TO_HALF_KATAKANA
  let m := m.RegisterConversionCommand "ConvertToHalfWidth" ConversionState.Commands.CONVERT_TO_HALF_WIDTH
  let m := m.RegisterConversionCommand "ConvertToFullAlphanumeric" ConversionState.Commands.CONVERT_TO_FULL_ALPHANUMERIC
  let m := m.RegisterConversionCommand "ConvertToHalfAlphanumeric" ConversionState.Commands.CONVERT_TO_HALF_ALPHANUMERIC
  let m := m.RegisterConversionCommand "SwitchKanaType" ConversionState.Commands.SWITCH_KANA_TYPE
  let m := m.RegisterConversionCommand "ToggleAlphanumericMode" ConversionState.Commands.TOGGLE_ALPHANUMERIC_MODE
  let m := m.RegisterConversionCommand "DisplayAsHiragana" ConversionState.Commands.DISPLAY_AS_HIRAGANA
  let m := m.RegisterConversionCommand "DisplayAsFullKatakana" ConversionState.Commands.DISPLAY_AS_FULL_KATAKANA
  let m := m.RegisterConversionCommand "DisplayAsHalfKatakana" ConversionState.Commands.DISPLAY_AS_HALF_KATAKANA
  let m := m.RegisterConversionCommand "DisplayAsHalfWidth" ConversionState.Commands.TRANSLATE_HALF_WIDTH
  let m := m.RegisterConversionCommand "DisplayAsFullAlphanumeric" ConversionState.Commands.TRANSLATE_FULL_ASCII
  let m := m.RegisterConversionCommand "DisplayAsHalfAlphanumeric" ConversionState.Commands.TRANSLATE_HALF_ASCII
  let m :=
    if env.OS_WINDOWS then
      m
        |>.RegisterConversionCommand "InputModeHiragana" ConversionState.Commands.INPUT_MODE_HIRAGANA
        |>.RegisterConversionCommand "InputModeFullKatakana" ConversionState.Commands.INPUT_MODE_FULL_KATAKANA
        |>.RegisterConversionCommand "InputModeHalfKatakana" ConversionState.Commands.INPUT_MODE_HALF_KATAKANA
        |>.RegisterConversionCommand "InputModeFullAlphanumeric" ConversionState.Commands.INPUT_MODE_FULL_ALPHANUMERIC
        |>.RegisterConversionCommand "InputModeHalfAlphanumeric" ConversionState.Commands.INPUT_MODE_HALF_ALPHANUMERIC
    else m
  let m :=
    if !env.NO_LOGGING then
      m
        |>.RegisterConversionCommand "ReportBug" ConversionState.Commands.REPORT_BUG
    else m
  let m :=
    if env._DEBUG then
      m
        |>.RegisterConversionCommand "Abort" ConversionState.Commands.ABORT
    else m
  m

/-- GetNameInternal (keymap.cc:409): the name stored for a command in a
reverse map, none when the function returns false. -/
def GetNameInternal {T : Type} [DecidableEq T] (reverse_command_map : Map T String)
    (command : T) : Option String :=
  reverse_command_map.find command

/-- KeyMapManager::GetNameFromCommandDirect (keymap.cc:423). -/
def GetNameFromCommandDirect (m : KeyMapManager) (command : DirectInputState.Commands) :
    Option String :=
  GetNameInternal m.reverse_command_direct_map_ command

/-- KeyMapManager::GetNameFromCommandPrecomposition (keymap.cc:429). -/
def GetNameFromCommandPrecomposition (m : KeyMapManager)
    (command : PrecompositionState.Commands) : Option String :=
  GetNameInternal m.reverse_command_precomposition_map_ command

/-- KeyMapManager::GetNameFromCommandComposition (keymap.cc:435). -/
def GetNameFromCommandComposition (m : KeyMapManager) (command : CompositionState.Commands) :
    Option String :=
  GetNameInternal m.reverse_command_composition_map_ command

/-- KeyMapManager::GetNameFromCommandConversion (keymap.cc:441). -/
def GetNameFromCommandConversion (m : KeyMapManager) (command : ConversionState.Commands) :
    Option String :=
  GetNameInternal m.reverse_command_conversion_map_ command

/-- Whether every entry of a name-to-code map is mirrored in the code-to-name
map and every entry of the code-to-name map in the name-to-code map. -/
def mutuallyInverse {T : Type} [DecidableEq T] (command_map : Map String T)
    (reverse_command_map : Map T String) : Bool :=
  command_map.all (fun entry => decide (reverse_command_map.find entry.2 = some entry.1))
    && reverse_command_map.all (fun entry => decide (command_map.find entry.2 = some entry.1))

/-- KeyMapManager::GetCommandDirect (keymap.cc:690). -/
def GetCommandDirect (env : Env) (m : KeyMapManager) (key_event : KeyEvent) :
    Option DirectInputState.Commands :=
  m.keymap_direct_.GetCommand env.ASCII key_event

/-- KeyMapManager::GetCommandPrecomposition (keymap.cc:696). -/
def GetCommandPrecomposition (env : Env) (m : KeyMapManager) (key_event : KeyEvent) :
    Option PrecompositionState.Commands :=
  m.keymap_precomposition_.GetCommand env.ASCII key_event

/-- KeyMapManager::GetCommandComposition (keymap.cc:702). -/
def GetCommandComposition (env : Env) (m : KeyMapManager) (key_event : KeyEvent) :
    Option CompositionState.Commands :=
  m.keymap_composition_.GetCommand env.ASCII key_event

/-- KeyMapManager::GetCommandSuggestion (keymap.cc:708): the suggestion rule
first, then the composition rule. -/
def GetCommandSuggestion (env : Env) (m : KeyMapManager) (key_event : KeyEvent) :
    Option CompositionState.Commands :=
  match m.keymap_suggestion_.GetCommand env.ASCII key_event with
  | some command => some command
  | none => m.keymap_composition_.GetCommand env.ASCII key_event

/-- KeyMapManager::GetCommandConversion (keymap.cc:719). -/
def GetCommandConversion (env : Env) (m : KeyMapManager) (key_event : KeyEvent) :
    Option ConversionState.Commands :=
  m.keymap_conversion_.GetCommand env.ASCII key_event

/-- KeyMapManager::GetCommandPrediction (keymap.cc:725): the prediction rule
first, then the conversion rule. -/
def GetCommandPrediction (env : Env) (m : KeyMapManager) (key_event : KeyEvent) :
    Option ConversionState.Commands :=
  match m.keymap_prediction_.GetCommand env.ASCII key_event with
  | some command => some command
  | none => m.keymap_conversion_.GetCommand env.ASCII key_event

/-! ## The rule-table loader -/

/-- The strings successive std::getline calls produce on a stream holding the
given characters, up to and including the call that sets eofbit: the text cut
at every line feed (a text ending in a line feed yields a last, empty string). -/
def getlinesAux : List Char → List (List Char)
  | [] => [[]]
  | c :: cs =>
    if c = '\n' then [] :: getlinesAux cs
    else
      match getlinesAux cs with
      | [] => [[c]]
      | l :: ls => (c :: l) :: ls

/-- The lines of an input stream, the header line first. -/
def getlines (ifs : String) : List String :=
  (getlinesAux ifs.data).map String.mk

/-- The migration block of the loop body (keymap.cc:332-342): when the command
name is IMEOn or IMEOff and KeyEventNormalizer::ToUint64 succeeds on the
parsed key event, its key is inserted into ime_on_off_keys_. -/
def RecordIMEOnOffKey (env : Env) (m : KeyMapManager) (rules2 : String)
    (key_event : KeyEvent) : KeyMapManager :=
  if rules2 = "IMEOn" ∨ rules2 = "IMEOff" then
    match env.ToUint64 key_event with
    | some key => { m with ime_on_off_keys_ := setInsert m.ime_on_off_keys_ key }
    | none => m
  else m

/-- The context dispatch of the loop body (keymap.cc:344-392): the command
name is looked up in the vocabulary of the context the first field selects;
a known command is added as a rule for the parsed key event, an unknown one
appends the line to the error vector; a first field that selects no context
does nothing. -/
def AddRuleByContext (m : KeyMapManager) (errors : List String) (line rules0 rules2 : String)
    (key_event : KeyEvent) : KeyMapManager × List String :=
  if rules0 = "DirectInput" ∨ rules0 = "Direct" then
    match m.ParseCommandDirect rules2 with
    | some command =>
      ({ m with keymap_direct_ := m.keymap_direct_.AddRule key_event command }, errors)
    | none => (m, errors ++ [line])
  else if rules0 = "Precomposition" then
    match m.ParseCommandPrecomposition rules2 with
    | some command =>
      ({ m with keymap_precomposition_ :=
          m.keymap_precomposition_.AddRule key_event command }, errors)
    | none => (m, errors ++ [line])
  else if rules0 = "Composition" then
    match m.ParseCommandComposition rules2 with
    | some command =>
      ({ m with keymap_composition_ :=
          m.keymap_composition_.AddRule key_event command }, errors)
    | none => (m, errors ++ [line])
  else if rules0 = "Conversion" then
    match m.ParseCommandConversion rules2 with
    | some command =>
      ({ m with keymap_conversion_ :=
          m.keymap_conversion_.AddRule key_event command }, errors)
    | none => (m, errors ++ [line])
  else if rules0 = "Suggestion" then
    match m.ParseCommandComposition rules2 with
    | some command =>
      ({ m with keymap_suggestion_ :=
          m.keymap_suggestion_.AddRule key_event command }, errors)
    | none => (m, errors ++ [line])
  else if rules0 = "Prediction" then
    match m.ParseCommandConversion rules2 with
    | some command =>
      ({ m with keymap_prediction_ :=
          m.keymap_prediction_.AddRule key_event command }, errors)
    | none => (m, errors ++ [line])
  else
    (m, errors)

/-- The body of the while loop of LoadStreamWithErrors (keymap.cc:300-392),
applied to the string the getline call of that iteration produced.  The state
is the manager together with the caller's error vector; continue is the
unchanged state. -/
def LoadLine (env : Env) (st : KeyMapManager × List String) (line0 : String) :
    KeyMapManager × List String :=
  let line := env.ChopReturns line0
  if line = "" ∨ line.data.head? = some '#' then
    st
  else
    match env.SplitStringUsing line "\t" with
    | [rules0, rules1, rules2] =>
      if env.NO_LOGGING = true ∧ (rules2 = "Abort" ∨ rules2 = "ReportBug") then
        st
      else if env._DEBUG = false ∧ rules2 = "Abort" then
        st
      else
        let key_event := env.ParseKey rules1
        AddRuleByContext (RecordIMEOnOffKey env st.1 rules2 key_event) st.2 line rules0 rules2
          key_event
    | _ => st

/-- The rules appended after the loop (keymap.cc:395-404): the chord ASCII
bound to INSERT_CHARACTER in the Precomposition, Composition and Conversion
tables, then the chord Shift bound to INSERT_CHARACTER in the Composition
table. -/
def AddBaselineRules (env : Env) (m : KeyMapManager) : KeyMapManager :=
  let key_event := env.ParseKey "ASCII"
  let m := { m with keymap_precomposition_ :=
    m.keymap_precomposition_.AddRule key_event PrecompositionState.Commands.INSERT_CHARACTER }
  let m := { m with keymap_composition_ :=
    m.keymap_composition_.AddRule key_event CompositionState.Commands.INSERT_CHARACTER }
  let m := { m with keymap_conversion_ :=
    m.keymap_conversion_.AddRule key_event ConversionState.Commands.INSERT_CHARACTER }
  let key_event := env.ParseKey "Shift"
  { m with keymap_composition_ :=
    m.keymap_composition_.AddRule key_event CompositionState.Commands.INSERT_CHARACTER }

/-- KeyMapManager::LoadStreamWithErrors (keymap.cc:296): the first line is
read and dropped, the loop body runs on every later line, the baseline rules
are added and true is returned.  The result is the returned bool, the manager
and the error vector. -/
def LoadStreamWithErrors (env : Env) (m : KeyMapManager) (ifs : String)
    (errors : List String) : Bool × KeyMapManager × List String :=
  let st := (getlines ifs).tail.foldl (LoadLine env) (m, errors)
  (true, AddBaselineRules env st.1, st.2)

/-- KeyMapManager::LoadStream (keymap.cc:291): the load with a local, empty
error vector that is discarded. -/
def LoadStream (env : Env) (m : KeyMapManager) (ifs : String) : Bool × KeyMapManager :=
  let r := LoadStreamWithErrors env m ifs []
  (r.1, r.2.1)

/-- The six binding tables of a manager. -/
def tables (m : KeyMapManager) :
    KeyMap DirectInputState.Commands × KeyMap PrecompositionState.Commands
      × KeyMap CompositionState.Commands × KeyMap ConversionState.Commands
      × KeyMap CompositionState.Commands × KeyMap ConversionState.Commands :=
  (m.keymap_direct_, m.keymap_precomposition_, m.keymap_composition_,
    m.keymap_conversion_, m.keymap_suggestion_, m.keymap_prediction_)

/-- The four name-to-code vocabularies of a manager. -/
def vocabularies (m : KeyMapManager) :
    Map String DirectInputState.Commands × Map String PrecompositionState.Commands
      × Map String CompositionState.Commands × Map String ConversionState.Commands :=
  (m.command_direct_map_, m.command_precomposition_map_, m.command_composition_map_,
    m.command_conversion_map_)

/-- The eight registry maps of a manager: the four name-to-code vocabularies
and the four code-to-name maps. -/
def registries (m : KeyMapManager) :
    (Map String DirectInputState.Commands × Map String PrecompositionState.Commands
      × Map String CompositionState.Commands × Map String ConversionState.Commands)
      × Map DirectInputState.Commands String × Map PrecompositionState.Commands String
      × Map CompositionState.Commands String × Map ConversionState.Commands String :=
  (vocabularies m, m.reverse_command_direct_map_, m.reverse_command_precomposition_map_,
    m.reverse_command_composition_map_, m.reverse_command_conversion_map_)

/-- The vocabulary lookup the loader performs for a context token: whether the
command name is registered in the vocabulary of the context the token selects;
none when the token selects no context. -/
def registeredIn (m : KeyMapManager) (context command_string : String) : Option Bool :=
  if context = "DirectInput" ∨ context = "Direct" then
    some (m.ParseCommandDirect command_string).isSome
  else if context = "Precomposition" then
    some (m.ParseCommandPrecomposition command_string).isSome
  else if context = "Composition" then
    some (m.ParseCommandComposition command_string).isSome
  else if context = "Conversion" then
    some (m.ParseCommandConversion command_string).isSome
  else if context = "Suggestion" then
    some (m.ParseCommandComposition command_string).isSome
  else if context = "Prediction" then
    some (m.ParseCommandConversion command_string).isSome
  else
    none

/-- Whether the build-mode filter of the loader (keymap.cc:314-327) drops a
line naming this command before any vocabulary lookup. -/
def filteredByBuild (env : Env) (command_string : String) : Bool :=
  (env.NO_LOGGING && (command_string == "Abort" || command_string == "ReportBug"))
    || (!env._DEBUG && command_string == "Abort")

/-- Whether the loop body of the loader records the given key for a line: the
line is neither blank nor a comment, splits into three fields, passes the
build-mode filter, names IMEOn or IMEOff in its third field, and
KeyEventNormalizer::ToUint64 yields the key for the key event of its second
field. -/
def recordsIMEOnOffKey (env : Env) (line0 : String) (key : Nat) : Prop :=
  ∃ rules0 rules1 rules2,
    ¬ (env.ChopReturns line0 = "" ∨ (env.ChopReturns line0).data.head? = some '#')
    ∧ env.SplitStringUsing (env.ChopReturns line0) "\t" = [rules0, rules1, rules2]
    ∧ filteredByBuild env rules2 = false
    ∧ (rules2 = "IMEOn" ∨ rules2 = "IMEOff")
    ∧ env.ToUint64 (env.ParseKey rules1) = some key

/-! ## Contexts

The six tables hold commands of four different enumerations; a context and a
tagged command code give one way to speak of the table that a context token
selects. -/

/-- The six contexts that own a binding table. -/
inductive Context where
  | Direct
  | Precomposition
  | Composition
  | Conversion
  | Suggestion
  | Prediction
  deriving DecidableEq, Repr

/-- A command code together with the enumeration it belongs to. -/
inductive CommandCode where
  | direct (command : DirectInputState.Commands)
  | precomposition (command : PrecompositionState.Commands)
  | composition (command : CompositionState.Commands)
  | conversion (command : ConversionState.Commands)
  deriving DecidableEq, Repr

/-- The context whose table the first field of a rule line selects in the
dispatch of the loader (keymap.cc:344-392); none when no branch matches. -/
def contextOf (rules0 : String) : Option Context :=
  if rules0 = "DirectInput" ∨ rules0 = "Direct" then some Context.Direct
  else if rules0 = "Precomposition" then some Context.Precomposition
  else if rules0 = "Composition" then some Context.Composition
  else if rules0 = "Conversion" then some Context.Conversion
  else if rules0 = "Suggestion" then some Context.Suggestion
  else if rules0 = "Prediction" then some Context.Prediction
  else none

/-- The lookup of a Key in the mapping of a context's table. -/
def findIn (m : KeyMapManager) (context : Context) (key : Nat) : Option CommandCode :=
  match context with
  | Context.Direct => (m.keymap_direct_.keymap_.find key).map CommandCode.direct
  | Context.Precomposition =>
    (m.keymap_precomposition_.keymap_.find key).map CommandCode.precomposition
  | Context.Composition => (m.keymap_composition_.keymap_.find key).map CommandCode.composition
  | Context.Conversion => (m.keymap_conversion_.keymap_.find key).map CommandCode.conversion
  | Context.Suggestion => (m.keymap_suggestion_.keymap_.find key).map CommandCode.composition
  | Context.Prediction => (m.keymap_prediction_.keymap_.find key).map CommandCode.conversion

/-- KeyMap::GetCommand on the table of a context. -/
def GetCommandIn (env : Env) (m : KeyMapManager) (context : Context) (key_event : KeyEvent) :
    Option CommandCode :=
  match context with
  | Context.Direct => (m.keymap_direct_.GetCommand env.ASCII key_event).map CommandCode.direct
  | Context.Precomposition =>
    (m.keymap_precomposition_.GetCommand env.ASCII key_event).map CommandCode.precomposition
  | Context.Composition =>
    (m.keymap_composition_.GetCommand env.ASCII key_event).map CommandCode.composition
  | Context.Conversion =>
    (m.keymap_conversion_.GetCommand env.ASCII key_event).map CommandCode.conversion
  | Context.Suggestion =>
    (m.keymap_suggestion_.GetCommand env.ASCII key_event).map CommandCode.composition
  | Context.Prediction =>
    (m.keymap_prediction_.GetCommand env.ASCII key_event).map CommandCode.conversion

/-- The vocabulary lookup the loader makes for a context: Suggestion reads the
Composition vocabulary and Prediction the Conversion vocabulary. -/
def ParseCommandIn (m : KeyMapManager) (context : Context) (command_string : String) :
    Option CommandCode :=
  match context with
  | Context.Direct => (m.ParseCommandDirect command_string).map CommandCode.direct
  | Context.Precomposition =>
    (m.ParseCommandPrecomposition command_string).map CommandCode.precomposition
  | Context.Composition => (m.ParseCommandComposition command_string).map CommandCode.composition
  | Context.Conversion => (m.ParseCommandConversion command_string).map CommandCode.conversion
  | Context.Suggestion => (m.ParseCommandComposition command_string).map CommandCode.composition
  | Context.Prediction => (m.ParseCommandConversion command_string).map CommandCode.conversion

/-! ## Profiles and reloading -/

/-- The file-name constants of keymap.cc:51-54. -/
def kMSIMEKeyMapFile : String := "system://ms-ime.tsv"

def kATOKKeyMapFile : String := "system://atok.tsv"

def kKotoeriKeyMapFile : String := "system://kotoeri.tsv"

def kCustomKeyMapFile : String := "user://keymap.tsv"

/-- KeyMapManager::GetDefaultKeyMap (keymap.cc:274). -/
def GetDefaultKeyMap (env : Env) : SessionKeymap :=
  if env.OS_MACOSX then SessionKeymap.KOTOERI else SessionKeymap.MSIME

/-- KeyMapManager::GetKeyMapFileName (keymap.cc:247), a recursive function:
fuel bounds the depth of nested calls, and the result is none when the fuel
is used up before a return statement is reached.  A returned identifier is
the address of one of the four static arrays. -/
def GetKeyMapFileNameFuel (env : Env) : Nat → SessionKeymap → Option String
  | 0, _ => none
  | fuel + 1, keymap =>
    match keymap with
    | SessionKeymap.ATOK => some kATOKKeyMapFile
    | SessionKeymap.MSIME => some kMSIMEKeyMapFile
    | SessionKeymap.KOTOERI => some kKotoeriKeyMapFile
    | SessionKeymap.CUSTOM => some kCustomKeyMapFile
    | SessionKeymap.NONE => GetKeyMapFileNameFuel env fuel (GetDefaultKeyMap env)
    | SessionKeymap.UNKNOWN _ => GetKeyMapFileNameFuel env fuel (GetDefaultKeyMap env)

/-- The call GetKeyMapFileName(keymap) as the callers of keymap.cc make it: a
const char pointer, none standing for NULL.  The fuel 2 allows one nested
call, which is as deep as the recursion ever goes. -/
def GetKeyMapFileName (env : Env) (keymap : SessionKeymap) : Option String :=
  GetKeyMapFileNameFuel env 2 keymap

/-- KeyMapManager::LoadFile (keymap.cc:282): false when the stream cannot be
opened, otherwise the result of LoadStream on it. -/
def LoadFile (env : Env) (m : KeyMapManager) (filename : String) (w : World) :
    Bool × KeyMapManager × World :=
  let w := { w with Open_calls := w.Open_calls ++ [filename] }
  match env.Open filename with
  | none => (false, m, w)
  | some ifs =>
    let r := LoadStream env m ifs
    (r.1, r.2, w)

/-- The call LoadFile(p) on a const char pointer p.  A null pointer is outside
the contract of LoadFile and never arises (GetKeyMapFileName does not return
one); it is counted as a stream that cannot be opened. -/
def LoadFilePtr (env : Env) (m : KeyMapManager) (filename : Option String) (w : World) :
    Bool × KeyMapManager × World :=
  match filename with
  | some name => LoadFile env m name w
  | none => (false, m, w)

/-- The loop of CheckIMEOnOffKeymap (keymap.cc:147-155) over ime_on_off_keys_:
false as soon as a key is none of the three, true otherwise. -/
def need_to_be_migrated (key_on key_off key_eisu : Nat) : List Nat → Bool
  | [] => true
  | key :: rest =>
    if key ≠ key_on ∧ key ≠ key_off ∧ key ≠ key_eisu then false
    else need_to_be_migrated key_on key_off key_eisu rest

/-- The text CheckIMEOnOffKeymap builds in its ostringstream (keymap.cc:175-184)
from the custom keymap table of the configuration. -/
def migratedCustomKeymapTable (custom_keymap_table : String) : String :=
  let oss := ostringstream.ofString custom_keymap_table
  let oss := oss.endl
  let oss := (oss.put "DirectInput\tHankaku/Zenkaku\tIMEOn").endl
  let oss := (oss.put "DirectInput\tKanji\tIMEOn").endl
  let oss := (oss.put "Conversion\tHankaku/Zenkaku\tIMEOff").endl
  let oss := (oss.put "Conversion\tKanji\tIMEOff").endl
  let oss := (oss.put "Precomposition\tHankaku/Zenkaku\tIMEOff").endl
  let oss := (oss.put "Precomposition\tKanji\tIMEOff").endl
  let oss := (oss.put "Composition\tHankaku/Zenkaku\tIMEOff").endl
  let oss := (oss.put "Composition\tKanji\tIMEOff").endl
  oss.str

/-- The context token, chord and command name of the eight lines
CheckIMEOnOffKeymap writes into its stream (keymap.cc:177-184), in the order
written. -/
def migrationLineFields : List (String × String × String) :=
  [("DirectInput", "Hankaku/Zenkaku", "IMEOn"),
   ("DirectInput", "Kanji", "IMEOn"),
   ("Conversion", "Hankaku/Zenkaku", "IMEOff"),
   ("Conversion", "Kanji", "IMEOff"),
   ("Precomposition", "Hankaku/Zenkaku", "IMEOff"),
   ("Precomposition", "Kanji", "IMEOff"),
   ("Composition", "Hankaku/Zenkaku", "IMEOff"),
   ("Composition", "Kanji", "IMEOff")]

/-- A rule line: the three fields separated by tabs. -/
def ruleLine (fields : String × String × String) : String :=
  fields.1 ++ "\t" ++ fields.2.1 ++ "\t" ++ fields.2.2

/-- The eight AddRule calls of CheckIMEOnOffKeymap (keymap.cc:159-170). -/
def AddMigrationRules (env : Env) (m : KeyMapManager) : KeyMapManager :=
  let key_event_hankaku := env.ParseKey "Hankaku/Zenkaku"
  let key_event_kanji := env.ParseKey "Kanji"
  let m := { m with keymap_direct_ :=
    m.keymap_direct_.AddRule key_event_hankaku DirectInputState.Commands.IME_ON }
  let m := { m with keymap_precomposition_ :=
    m.keymap_precomposition_.AddRule key_event_hankaku PrecompositionState.Commands.IME_OFF }
  let m := { m with keymap_composition_ :=
    m.keymap_composition_.AddRule key_event_hankaku CompositionState.Commands.IME_OFF }
  let m := { m with keymap_conversion_ :=
    m.keymap_conversion_.AddRule key_event_hankaku ConversionState.Commands.IME_OFF }
  let m := { m with keymap_direct_ :=
    m.keymap_direct_.AddRule key_event_kanji DirectInputState.Commands.IME_ON }
  let m := { m with keymap_precomposition_ :=
    m.keymap_precomposition_.AddRule key_event_kanji PrecompositionState.Commands.IME_OFF }
  let m := { m with keymap_composition_ :=
    m.keymap_composition_.AddRule key_event_kanji CompositionState.Commands.IME_OFF }
  { m with keymap_conversion_ :=
    m.keymap_conversion_.AddRule key_event_kanji ConversionState.Commands.IME_OFF }

/-- KeyMapManager::CheckIMEOnOffKeymap (keymap.cc:124).  The three keys start
at 0 and keep that value when KeyEventNormalizer::ToUint64 fails. -/
def CheckIMEOnOffKeymap (env : Env) (m : KeyMapManager) (w : World) :
    KeyMapManager × World :=
  let key_on := (env.ToUint64 (env.ParseKey "ON")).getD 0
  let key_off := (env.ToUint64 (env.ParseKey "OFF")).getD 0
  let key_eisu := (env.ToUint64 (env.ParseKey "EISU")).getD 0
  if key_on = 0 ∨ key_off = 0 ∨ key_eisu = 0 then
    (m, w)
  else if need_to_be_migrated key_on key_off key_eisu m.ime_on_off_keys_ = true then
    let config : Config :=
      { w.config with
        custom_keymap_table := migratedCustomKeymapTable w.config.custom_keymap_table }
    (AddMigrationRules env m,
      { w with config := config, SetConfig_calls := w.SetConfig_calls ++ [config] })
  else
    (m, w)

/-- The copy of the custom keymap table that ReloadWithKeymap writes for
debugging unless NO_LOGGING is defined (keymap.cc:222-231). -/
def WriteDebugCopy (env : Env) (keymap_file : Option String) (custom_keymap_table : String)
    (w : World) : World :=
  if env.NO_LOGGING then w
  else
    match keymap_file with
    | none => w
    | some name =>
      let filename := env.GetFileName name
      if env.OutputFileStream filename then
        let ofs := ((ostringstream.ofString "").put
          "# This is a copy of keymap table for debugging.").endl
        let ofs := (ofs.put "# Nothing happens when you edit this file manually.").endl
        let ofs := ofs.put custom_keymap_table
        { w with written_files := w.written_files ++ [(filename, ofs.str)] }
      else w

/-- The state of the manager after ReloadWithKeymap has stored the new keymap
and cleared the six tables and ime_on_off_keys_ (keymap.cc:202-213). -/
def ClearKeymaps (m : KeyMapManager) (new_keymap : SessionKeymap) : KeyMapManager :=
  { m with
    keymap_ := new_keymap
    keymap_direct_ := m.keymap_direct_.Clear
    keymap_precomposition_ := m.keymap_precomposition_.Clear
    keymap_composition_ := m.keymap_composition_.Clear
    keymap_conversion_ := m.keymap_conversion_.Clear
    keymap_suggestion_ := m.keymap_suggestion_.Clear
    keymap_prediction_ := m.keymap_prediction_.Clear
    ime_on_off_keys_ := [] }

/-- KeyMapManager::ReloadWithKeymap (keymap.cc:194): the returned bool, the
manager and the outside state after the call. -/
def ReloadWithKeymap (env : Env) (m : KeyMapManager) (new_keymap : SessionKeymap)
    (w : World) : Bool × KeyMapManager × World :=
  if new_keymap = m.keymap_ ∧ new_keymap ≠ SessionKeymap.CUSTOM then
    (true, m, w)
  else
    let keymap_file := GetKeyMapFileName env new_keymap
    let m := ClearKeymaps m new_keymap
    if new_keymap = SessionKeymap.CUSTOM then
      let custom_keymap_table := w.config.custom_keymap_table
      if custom_keymap_table = "" then
        let default_keymapfile := GetKeyMapFileName env (GetDefaultKeyMap env)
        LoadFilePtr env m default_keymapfile w
      else
        let w := WriteDebugCopy env keymap_file custom_keymap_table w
        let result := LoadStream env m custom_keymap_table
        let checked := CheckIMEOnOffKeymap env result.2 w
        (result.1, checked.1, checked.2)
    else
      let first :=
        match keymap_file with
        | some name => LoadFile env m name w
        | none => (false, m, w)
      if first.1 = true then
        (true, first.2.1, first.2.2)
      else
        let default_keymapfile := GetKeyMapFileName env (GetDefaultKeyMap env)
        LoadFilePtr env first.2.1 default_keymapfile first.2.2

/-- KeyMapManager::Reload (keymap.cc:190). -/
def Reload (env : Env) (m : KeyMapManager) (w : World) : Bool × KeyMapManager × World :=
  ReloadWithKeymap env m w.config.session_keymap w

end KeyMapManager

/-! ## A concrete environment

Stand-ins for the collaborators, used only to evaluate the definitions at
concrete inputs. -/

/-- A stand-in for Util::ChopReturns: trailing carriage returns and line
feeds are removed. -/
def sampleChopReturns (line : String) : String :=
  String.mk (line.data.reverse.dropWhile (fun c => c == '\r' || c == '\n')).reverse

/-- Cuts a character sequence at every delimiter, dropping empty pieces; cur
is the piece being read, reversed. -/
def splitAux (delimiters : List Char) (cur : List Char) : List Char → List (List Char)
  | [] => if cur = [] then [] else [cur.reverse]
  | c :: cs =>
    if delimiters.contains c then
      if cur = [] then splitAux delimiters [] cs
      else cur.reverse :: splitAux delimiters [] cs
    else splitAux delimiters (c :: cur) cs

/-- A stand-in for Util::SplitStringUsing: the non-empty pieces between
delimiter characters. -/
def sampleSplitStringUsing (str delimiters : String) : List String :=
  (splitAux delimiters.data [] str.data).map String.mk

/-- One token of a chord for the stand-in parser: Ctrl, Alt and Shift add the
modifier codes 1, 2 and 4, ASCII sets the special key, ON, OFF, EISU,
Hankaku/Zenkaku and Kanji set the special key to the sample codes 2, 3, 46,
47 and 48, a single character sets the code point, anything else is ignored. -/
def sampleParseToken (ASCII : Nat) (key_event : KeyEvent) (token : String) : KeyEvent :=
  if token = "Ctrl" then { key_event with modifier_keys := key_event.modifier_keys ++ [1] }
  else if token = "Alt" then { key_event with modifier_keys := key_event.modifier_keys ++ [2] }
  else if token = "Shift" then { key_event with modifier_keys := key_event.modifier_keys ++ [4] }
  else if token = "ASCII" then { key_event with special_key := some ASCII }
  else if token = "ON" then { key_event with special_key := some 2 }
  else if token = "OFF" then { key_event with special_key := some 3 }
  else if token = "EISU" then { key_event with special_key := some 46 }
  else if token = "Hankaku/Zenkaku" then { key_event with special_key := some 47 }
  else if token = "Kanji" then { key_event with special_key := some 48 }
  else
    match token.data with
    | [c] => { key_event with key_code := some c.toNat }
    | _ => key_event

/-- A stand-in for KeyParser::ParseKey: the tokens of the chord, separated by
blanks, are applied to an empty key event. -/
def sampleParseKey (ASCII : Nat) (chord : String) : KeyEvent :=
  (sampleSplitStringUsing chord " ").foldl (sampleParseToken ASCII) KeyEvent.empty

/-- A stand-in for ConfigFileStream::Open: the MS-IME table is a header and
two rules, the Kotoeri table a header alone, nothing else can be opened. -/
def sampleOpen (name : String) : Option String :=
  if name = "system://ms-ime.tsv" then
    some "status\tkey\tcommand\nPrecomposition\tCtrl a\tIMEOn\nComposition\tb\tCancel\n"
  else if name = "system://kotoeri.tsv" then
    some "status\tkey\tcommand\n"
  else none

/-- A non-debug, non-release build on a platform other than Windows and Mac,
with the stand-in collaborators; KeyEventNormalizer::ToUint64 is taken to be
GetKey and the enumerator ASCII to be 66. -/
def sampleEnv : Env :=
  { ASCII := 66
    ParseKey := sampleParseKey 66
    ToUint64 := GetKey
    ChopReturns := sampleChopReturns
    SplitStringUsing := sampleSplitStringUsing
    NO_LOGGING := false
    _DEBUG := false
    OS_WINDOWS := false
    OS_MACOSX := false
    Open := sampleOpen
    GetFileName := fun name => name
    OutputFileStream := fun _ => true }

/-- The concrete environment with the three preprocessor symbols
InitCommandData tests set as given. -/
def flagsEnv (OS_WINDOWS DEBUG NO_LOGGING : Bool) : Env :=
  { sampleEnv with OS_WINDOWS := OS_WINDOWS, _DEBUG := DEBUG, NO_LOGGING := NO_LOGGING }

/-- The concrete environment in which no keymap file can be opened. -/
def sampleEnvNoFile : Env :=
  { sampleEnv with Open := fun _ => none }

/-- The manager after InitCommandData in the concrete environment, before any
table is loaded. -/
def sampleManager : KeyMapManager :=
  KeyMapManager.InitCommandData sampleEnv KeyMapManager.initial

/-- An outside state whose configuration selects the custom keymap with the
given custom table text, before any call to the outside has been made. -/
def sampleWorld (custom_keymap_table : String) : World :=
  { config := { session_keymap := SessionKeymap.CUSTOM
                custom_keymap_table := custom_keymap_table }
    SetConfig_calls := []
    Open_calls := []
    written_files := [] }

/-! ## Theorems -/

/-! ### Helper lemmas on the key layout -/

/-- With a 16-bit modifier mask, a 16-bit special-key code and a 32-bit code
point the uint64 sum of GetKey does not wrap. -/
theorem key_sum_no_wrap (M S C : Nat) (hM : M < 2 ^ 16) (hS : S < 2 ^ 16) (hC : C < 2 ^ 32) :
    (((M <<< 48) % 2 ^ 64 + (S <<< 32) % 2 ^ 64) % 2 ^ 64 + C) % 2 ^ 64
      = M * 2 ^ 48 + S * 2 ^ 32 + C := by
  simp only [Nat.shiftLeft_eq]
  omega

/-- On disjoint bit ranges the sum of the three fields is their bitwise OR. -/
theorem key_sum_eq_or (M S C : Nat) (hS : S < 2 ^ 16) (hC : C < 2 ^ 32) :
    M * 2 ^ 48 + S * 2 ^ 32 + C = (M <<< 48) ||| (S <<< 32) ||| C := by
  simp only [Nat.shiftLeft_eq]
  have h1 : M * 2 ^ 48 + S * 2 ^ 32 = M * 2 ^ 48 ||| S * 2 ^ 32 := by
    have h := Nat.mul_add_lt_is_or (show S * 2 ^ 32 < 2 ^ 48 by omega) M
    rw [Nat.mul_comm] at h
    exact h
  have h2 : (M * 2 ^ 48 + S * 2 ^ 32) + C = (M * 2 ^ 48 + S * 2 ^ 32) ||| C := by
    have h := Nat.mul_add_lt_is_or (show C < 2 ^ 32 by omega) (M * 2 ^ 16 + S)
    have e : 2 ^ 32 * (M * 2 ^ 16 + S) = M * 2 ^ 48 + S * 2 ^ 32 := by ring
    rw [e] at h
    exact h
  rw [← h1, ← h2]

/-- GetKey fails exactly on a code point in [1,32]. -/
theorem GetKey_eq_none_iff (ke : KeyEvent) :
    GetKey ke = none ↔ ∃ c, ke.key_code = some c ∧ 1 ≤ c ∧ c ≤ 32 := by
  unfold GetKey
  cases hk : ke.key_code with
  | none => simp
  | some c =>
    by_cases h : 0 < c ∧ c ≤ 32
    · simp only [h, and_self, if_true, true_iff]
      exact ⟨c, rfl, h.1, h.2⟩
    · simp only [h, if_false]
      constructor
      · intro hn
        cases hn
      · rintro ⟨c', hc', h1, h2⟩
        cases hc'
        exact absurd ⟨h1, h2⟩ h

/-- The value GetKey returns when it succeeds. -/
theorem GetKey_eq_some (ke : KeyEvent) (key : Nat) (h : GetKey ke = some key) :
    key = ((((GetModifiers ke <<< 48) % 2 ^ 64
      + (ke.special_key.getD NO_SPECIALKEY <<< 32) % 2 ^ 64) % 2 ^ 64
      + ke.key_code.getD 0) % 2 ^ 64) := by
  unfold GetKey at h
  have e1 : (match ke.special_key with | some s => s | none => NO_SPECIALKEY)
      = ke.special_key.getD NO_SPECIALKEY := by cases ke.special_key <;> rfl
  have e2 : (match ke.key_code with | some c => c | none => 0)
      = ke.key_code.getD 0 := by cases ke.key_code <;> rfl
  simp only [e1, e2] at h
  split at h
  · cases h
  · exact (Option.some.inj h).symm

/-- The stub key event always encodes. -/
theorem GetKey_stub_key_event (ASCII : Nat) :
    GetKey (stub_key_event ASCII) = some ((ASCII <<< 32) % 2 ^ 64) := by
  simp [GetKey, stub_key_event, KeyEvent.empty, GetModifiers]

/-- MaybeGetKeyStub succeeds exactly on an unmodified descriptor without
special key whose code point is above 32, and a successful call returns the
key of the stub key event. -/
theorem MaybeGetKeyStub_cases (ASCII : Nat) (ke : KeyEvent) :
    ((MaybeGetKeyStub ASCII ke).isSome = true ↔
        (GetModifiers ke = 0 ∧ ke.special_key = none
          ∧ ∃ c, ke.key_code = some c ∧ 32 < c))
      ∧ (MaybeGetKeyStub ASCII ke = none
          ∨ MaybeGetKeyStub ASCII ke = GetKey ⟨none, none, some ASCII, []⟩)
      ∧ (GetKey ⟨none, none, some ASCII, []⟩).isSome = true := by
  have hstub : GetKey ⟨none, none, some ASCII, []⟩ = some ((ASCII <<< 32) % 2 ^ 64) :=
    GetKey_stub_key_event ASCII
  have hstub2 : stub_key_event ASCII = ⟨none, none, some ASCII, []⟩ := rfl
  refine ⟨?_, ?_, by rw [hstub]; rfl⟩
  · unfold MaybeGetKeyStub
    by_cases hm : GetModifiers ke = 0
    · cases hs : ke.special_key with
      | some s => simp [hm]
      | none =>
        cases hk : ke.key_code with
        | none => simp [hm]
        | some c =>
          by_cases hc : c ≤ 32
          · simp [hm, hc]
          · simp [hm, hc, hstub2, hstub]
            omega
    · simp [hm]
  · unfold MaybeGetKeyStub
    rw [hstub2]
    split
    · exact Or.inl rfl
    · split
      · exact Or.inl rfl
      · split
        · exact Or.inl rfl
        · split
          · exact Or.inl rfl
          · exact Or.inr rfl

/-! ### Helper lemmas on maps, tables and the loader -/

open KeyMapManager

theorem Map.find_insert_self {K V : Type} [DecidableEq K] [MapKey K] (m : Map K V) (k : K) (v : V) :
    (m.insert k v).find k = some v := by
  induction m with
  | nil => simp [Map.insert, Map.find]
  | cons p rest ih =>
    obtain ⟨k1, v1⟩ := p
    unfold Map.insert
    by_cases h : k = k1
    · simp [h, Map.find]
    · by_cases hl : MapKey.less k k1 = true
      · simp [h, hl, Map.find]
      · simp [h, hl, Map.find, ih]

theorem Map.find_insert_other {K V : Type} [DecidableEq K] [MapKey K] (m : Map K V) (k k0 : K)
    (v : V) (hk : k0 ≠ k) : (m.insert k v).find k0 = m.find k0 := by
  induction m with
  | nil => simp [Map.insert, Map.find, hk]
  | cons p rest ih =>
    obtain ⟨k1, v1⟩ := p
    unfold Map.insert
    by_cases h : k = k1
    · subst h
      simp [Map.find, hk]
    · by_cases hl : MapKey.less k k1 = true
      · simp [h, hl, Map.find, hk]
      · simp [h, hl, Map.find, ih]

theorem RecordIMEOnOffKey_tables (env : Env) (m : KeyMapManager) (r2 : String) (ke : KeyEvent) :
    tables (RecordIMEOnOffKey env m r2 ke) = tables m
      ∧ vocabularies (RecordIMEOnOffKey env m r2 ke) = vocabularies m := by
  unfold RecordIMEOnOffKey
  split
  · split <;> exact ⟨rfl, rfl⟩
  · exact ⟨rfl, rfl⟩

theorem AddRuleByContext_congr (a b : KeyMapManager) (ea eb : List String)
    (line r0 r2 : String) (ke : KeyEvent)
    (h : tables a = tables b) (hv : vocabularies a = vocabularies b) :
    tables (AddRuleByContext a ea line r0 r2 ke).1 = tables (AddRuleByContext b eb line r0 r2 ke).1
      ∧ vocabularies (AddRuleByContext a ea line r0 r2 ke).1 = vocabularies a
      ∧ (AddRuleByContext a ea line r0 r2 ke).2 = ea ++ (AddRuleByContext a [] line r0 r2 ke).2
      ∧ (AddRuleByContext a [] line r0 r2 ke).2 = (AddRuleByContext b [] line r0 r2 ke).2 := by
  obtain ⟨k, d, p, c, v, s, pr, ime, cd, cp, cc, cv, rd, rp, rc, rv⟩ := a
  obtain ⟨k0, d0, p0, c0, v0, s0, pr0, ime0, cd0, cp0, cc0, cv0, rd0, rp0, rc0, rv0⟩ := b
  simp only [tables, vocabularies, Prod.mk.injEq] at h hv
  obtain ⟨rfl, rfl, rfl, rfl, rfl, rfl⟩ := h
  obtain ⟨rfl, rfl, rfl, rfl⟩ := hv
  unfold AddRuleByContext
  simp only [ParseCommandDirect, ParseCommandPrecomposition, ParseCommandComposition,
    ParseCommandConversion]
  split_ifs
  · cases Map.find cd r2 <;> simp [tables, vocabularies]
  · cases Map.find cp r2 <;> simp [tables, vocabularies]
  · cases Map.find cc r2 <;> simp [tables, vocabularies]
  · cases Map.find cv r2 <;> simp [tables, vocabularies]
  · cases Map.find cc r2 <;> simp [tables, vocabularies]
  · cases Map.find cv r2 <;> simp [tables, vocabularies]
  · simp [tables, vocabularies]

theorem LoadLine_of_malformed (env : Env) (st : KeyMapManager × List String) (line0 : String)
    (hs : (env.SplitStringUsing (env.ChopReturns line0) "\t").length ≠ 3) :
    LoadLine env st line0 = st := by
  unfold LoadLine
  by_cases h1 : env.ChopReturns line0 = "" ∨ (env.ChopReturns line0).data.head? = some '#'
  · simp only [h1, if_true]
  · simp only [h1, if_false]
    split
    · rename_i r0 r1 r2 hr
      rw [hr] at hs
      exact absurd rfl hs
    · rfl

theorem LoadLine_of_rule (env : Env) (st : KeyMapManager × List String)
    (line0 r0 r1 r2 : String)
    (h1 : ¬ (env.ChopReturns line0 = "" ∨ (env.ChopReturns line0).data.head? = some '#'))
    (hs : env.SplitStringUsing (env.ChopReturns line0) "\t" = [r0, r1, r2])
    (hb : filteredByBuild env r2 = false) :
    LoadLine env st line0
      = AddRuleByContext (RecordIMEOnOffKey env st.1 r2 (env.ParseKey r1)) st.2
          (env.ChopReturns line0) r0 r2 (env.ParseKey r1) := by
  have hb1 : ¬ (env.NO_LOGGING = true ∧ (r2 = "Abort" ∨ r2 = "ReportBug")) := by
    intro hc
    simp [filteredByBuild, hc.1] at hb
    rcases hc.2 with h | h
    · exact hb.1.1 h
    · exact hb.1.2 h
  have hb2 : ¬ (env._DEBUG = false ∧ r2 = "Abort") := by
    intro hc
    simp [filteredByBuild, hc.1, hc.2] at hb
  unfold LoadLine
  simp only [h1, if_false, hs, hb1, hb2]

theorem LoadLine_of_filtered (env : Env) (st : KeyMapManager × List String)
    (line0 r0 r1 r2 : String)
    (hs : env.SplitStringUsing (env.ChopReturns line0) "\t" = [r0, r1, r2])
    (hb : filteredByBuild env r2 = true) :
    LoadLine env st line0 = st := by
  simp only [filteredByBuild, Bool.or_eq_true, Bool.and_eq_true, beq_iff_eq,
    Bool.not_eq_true'] at hb
  unfold LoadLine
  simp only [hs]
  split_ifs with c0 c1 c2
  · rfl
  · rfl
  · rfl
  · rcases hb with h | h
    · exact absurd h c1
    · exact absurd h c2

theorem LoadLine_cases (env : Env) (line0 : String) :
    (∀ st, LoadLine env st line0 = st)
      ∨ ∃ r0 r1 r2, ∀ st, LoadLine env st line0
          = AddRuleByContext (RecordIMEOnOffKey env st.1 r2 (env.ParseKey r1)) st.2
              (env.ChopReturns line0) r0 r2 (env.ParseKey r1) := by
  by_cases h1 : env.ChopReturns line0 = "" ∨ (env.ChopReturns line0).data.head? = some '#'
  · left
    intro st
    unfold LoadLine
    simp only [h1, if_true]
  · by_cases hs : (env.SplitStringUsing (env.ChopReturns line0) "\t").length = 3
    · obtain ⟨r0, r1, r2, hr⟩ := List.length_eq_three.1 hs
      by_cases hb : filteredByBuild env r2 = false
      · right
        exact ⟨r0, r1, r2, fun st => LoadLine_of_rule env st line0 r0 r1 r2 h1 hr hb⟩
      · left
        exact fun st => LoadLine_of_filtered env st line0 r0 r1 r2 hr (by simpa using hb)
    · left
      exact fun st => LoadLine_of_malformed env st line0 hs

theorem LoadLine_congr (env : Env) (a b : KeyMapManager) (ea eb : List String) (line0 : String)
    (h : tables a = tables b) (hv : vocabularies a = vocabularies b) :
    tables (LoadLine env (a, ea) line0).1 = tables (LoadLine env (b, eb) line0).1
      ∧ vocabularies (LoadLine env (a, ea) line0).1 = vocabularies a
      ∧ (LoadLine env (a, ea) line0).2 = ea ++ (LoadLine env (a, []) line0).2
      ∧ (LoadLine env (a, []) line0).2 = (LoadLine env (b, []) line0).2 := by
  rcases LoadLine_cases env line0 with hskip | ⟨r0, r1, r2, hrule⟩
  · rw [hskip (a, ea), hskip (b, eb), hskip (a, []), hskip (b, [])]
    exact ⟨h, rfl, by simp, rfl⟩
  · simp only [hrule]
    obtain ⟨ht, hvoc⟩ := RecordIMEOnOffKey_tables env a r2 (env.ParseKey r1)
    obtain ⟨ht0, hvoc0⟩ := RecordIMEOnOffKey_tables env b r2 (env.ParseKey r1)
    have key := AddRuleByContext_congr _ _ ea eb (env.ChopReturns line0) r0 r2 (env.ParseKey r1)
      (ht.trans (h.trans ht0.symm)) (hvoc.trans (hv.trans hvoc0.symm))
    exact ⟨key.1, key.2.1.trans hvoc, key.2.2.1, key.2.2.2⟩

theorem foldl_LoadLine_congr (env : Env) (ls : List String) :
    ∀ (a b : KeyMapManager) (ea eb : List String),
      tables a = tables b → vocabularies a = vocabularies b →
      tables (ls.foldl (LoadLine env) (a, ea)).1 = tables (ls.foldl (LoadLine env) (b, eb)).1
        ∧ vocabularies (ls.foldl (LoadLine env) (a, ea)).1 = vocabularies a
        ∧ ∃ e, (ls.foldl (LoadLine env) (a, ea)).2 = ea ++ e
            ∧ (ls.foldl (LoadLine env) (b, eb)).2 = eb ++ e := by
  induction ls with
  | nil =>
    intro a b ea eb h _
    exact ⟨h, rfl, [], by simp, by simp⟩
  | cons l ls ih =>
    intro a b ea eb h hv
    obtain ⟨ht, hva, hea, hx⟩ := LoadLine_congr env a b ea eb l h hv
    obtain ⟨_, hvb, heb, _⟩ := LoadLine_congr env b a eb ea l h.symm hv.symm
    obtain ⟨it, iv, e, ie1, ie2⟩ := ih (LoadLine env (a, ea) l).1 (LoadLine env (b, eb) l).1
      (LoadLine env (a, ea) l).2 (LoadLine env (b, eb) l).2 ht (hva.trans (hv.trans hvb.symm))
    simp only [List.foldl_cons]
    refine ⟨it, iv.trans hva, (LoadLine env (a, []) l).2 ++ e, ?_, ?_⟩
    · rw [ie1, hea, List.append_assoc]
    · rw [ie2, heb, hx, List.append_assoc]

theorem registeredIn_congr (a b : KeyMapManager) (r0 r2 : String)
    (hv : vocabularies a = vocabularies b) : registeredIn a r0 r2 = registeredIn b r0 r2 := by
  simp only [vocabularies, Prod.mk.injEq] at hv
  obtain ⟨v1, v2, v3, v4⟩ := hv
  simp only [registeredIn, ParseCommandDirect, ParseCommandPrecomposition,
    ParseCommandComposition, ParseCommandConversion, v1, v2, v3, v4]

theorem AddRuleByContext_unregistered (m : KeyMapManager) (errors : List String)
    (line r0 r2 : String) (ke : KeyEvent) (hreg : registeredIn m r0 r2 = some false) :
    AddRuleByContext m errors line r0 r2 ke = (m, errors ++ [line]) := by
  unfold registeredIn at hreg
  unfold AddRuleByContext
  split_ifs at hreg ⊢
  · split
    · rename_i c hc
      rw [hc] at hreg
      cases hreg
    · rfl
  · split
    · rename_i c hc
      rw [hc] at hreg
      cases hreg
    · rfl
  · split
    · rename_i c hc
      rw [hc] at hreg
      cases hreg
    · rfl
  · split
    · rename_i c hc
      rw [hc] at hreg
      cases hreg
    · rfl
  · split
    · rename_i c hc
      rw [hc] at hreg
      cases hreg
    · rfl
  · split
    · rename_i c hc
      rw [hc] at hreg
      cases hreg
    · rfl

theorem AddBaselineRules_tables_congr (env : Env) (a b : KeyMapManager)
    (h : tables a = tables b) :
    tables (AddBaselineRules env a) = tables (AddBaselineRules env b) := by
  simp only [tables, Prod.mk.injEq] at h
  obtain ⟨t1, t2, t3, t4, t5, t6⟩ := h
  simp only [tables, AddBaselineRules, t1, t2, t3, t4, t5, t6]

theorem KeyMap.find_AddRule_self {T : Type} (km : KeyMap T) (d : KeyEvent) (c : T) (k : Nat)
    (hk : GetKey d = some k) : (km.AddRule d c).keymap_.find k = some c := by
  simp only [KeyMap.AddRule, hk]
  exact Map.find_insert_self _ _ _

theorem KeyMap.find_AddRule_other {T : Type} (km : KeyMap T) (d : KeyEvent) (c : T) (k : Nat)
    (hk : GetKey d ≠ some k) : (km.AddRule d c).keymap_.find k = km.keymap_.find k := by
  unfold KeyMap.AddRule
  cases hd : GetKey d with
  | none => rfl
  | some k1 =>
    have hne : k ≠ k1 := by
      intro e
      exact hk (by rw [hd, e])
    exact Map.find_insert_other _ _ _ _ hne

/-- The load on a stream whose lines are a header followed by ls. -/
theorem LoadStreamWithErrors_eq (env : Env) (m : KeyMapManager) (ifs : String)
    (errors : List String) (header : String) (ls : List String)
    (h : getlines ifs = header :: ls) :
    LoadStreamWithErrors env m ifs errors
      = (true, AddBaselineRules env (ls.foldl (LoadLine env) (m, errors)).1,
          (ls.foldl (LoadLine env) (m, errors)).2) := by
  simp only [LoadStreamWithErrors, h, List.tail_cons]

/-! ### Helper lemmas on lookups by context -/

theorem KeyMap.find_AddRule {T : Type} (km : KeyMap T) (d : KeyEvent) (c : T) (k : Nat) :
    (km.AddRule d c).keymap_.find k = if GetKey d = some k then some c else km.keymap_.find k := by
  split
  · rename_i h
    exact KeyMap.find_AddRule_self km d c k h
  · rename_i h
    exact KeyMap.find_AddRule_other km d c k h

theorem findIn_AddRuleByContext (m : KeyMapManager) (errors : List String)
    (line r0 r2 : String) (ke : KeyEvent) (ctx : Context) (k : Nat) :
    findIn (AddRuleByContext m errors line r0 r2 ke).1 ctx k
      = if contextOf r0 = some ctx ∧ GetKey ke = some k then
          (match ParseCommandIn m ctx r2 with
           | some code => some code
           | none => findIn m ctx k)
        else findIn m ctx k := by
  unfold AddRuleByContext contextOf
  split_ifs <;> cases ctx <;> (try split) <;>
    simp_all [findIn, ParseCommandIn, KeyMap.find_AddRule]

theorem findIn_congr (a b : KeyMapManager) (ctx : Context) (k : Nat)
    (h : tables a = tables b) : findIn a ctx k = findIn b ctx k := by
  simp only [tables, Prod.mk.injEq] at h
  obtain ⟨t1, t2, t3, t4, t5, t6⟩ := h
  cases ctx <;> simp only [findIn, t1, t2, t3, t4, t5, t6]

theorem GetCommandIn_congr (env : Env) (a b : KeyMapManager) (ctx : Context) (d : KeyEvent)
    (h : tables a = tables b) : GetCommandIn env a ctx d = GetCommandIn env b ctx d := by
  simp only [tables, Prod.mk.injEq] at h
  obtain ⟨t1, t2, t3, t4, t5, t6⟩ := h
  cases ctx <;> simp only [GetCommandIn, t1, t2, t3, t4, t5, t6]

theorem ParseCommandIn_congr (a b : KeyMapManager) (ctx : Context) (name : String)
    (h : vocabularies a = vocabularies b) : ParseCommandIn a ctx name = ParseCommandIn b ctx name := by
  simp only [vocabularies, Prod.mk.injEq] at h
  obtain ⟨v1, v2, v3, v4⟩ := h
  cases ctx <;>
    simp only [ParseCommandIn, ParseCommandDirect, ParseCommandPrecomposition,
      ParseCommandComposition, ParseCommandConversion, v1, v2, v3, v4]

theorem KeyMap.GetCommand_of_find {T : Type} (ASCII : Nat) (km : KeyMap T) (d : KeyEvent)
    (k : Nat) (c : T) (hk : GetKey d = some k) (hf : km.keymap_.find k = some c) :
    km.GetCommand ASCII d = some c := by
  simp only [KeyMap.GetCommand, hk, hf]

theorem GetCommandIn_of_findIn (env : Env) (m : KeyMapManager) (ctx : Context) (d : KeyEvent)
    (k : Nat) (code : CommandCode) (hk : GetKey d = some k) (hf : findIn m ctx k = some code) :
    GetCommandIn env m ctx d = some code := by
  cases ctx <;>
    simp only [findIn, Option.map_eq_some'] at hf <;>
    obtain ⟨c, hc, rfl⟩ := hf <;>
    simp only [GetCommandIn, KeyMap.GetCommand_of_find env.ASCII _ d k c hk hc, Option.map_some']

theorem LoadLine_cases_split (env : Env) (line0 : String) :
    (∀ st, LoadLine env st line0 = st)
      ∨ ∃ r0 r1 r2, env.SplitStringUsing (env.ChopReturns line0) "\t" = [r0, r1, r2]
          ∧ ∀ st, LoadLine env st line0
            = AddRuleByContext (RecordIMEOnOffKey env st.1 r2 (env.ParseKey r1)) st.2
                (env.ChopReturns line0) r0 r2 (env.ParseKey r1) := by
  by_cases h1 : env.ChopReturns line0 = "" ∨ (env.ChopReturns line0).data.head? = some '#'
  · left
    intro st
    unfold LoadLine
    simp only [h1, if_true]
  · by_cases hs : (env.SplitStringUsing (env.ChopReturns line0) "\t").length = 3
    · obtain ⟨r0, r1, r2, hr⟩ := List.length_eq_three.1 hs
      by_cases hb : filteredByBuild env r2 = false
      · right
        exact ⟨r0, r1, r2, hr, fun st => LoadLine_of_rule env st line0 r0 r1 r2 h1 hr hb⟩
      · left
        exact fun st => LoadLine_of_filtered env st line0 r0 r1 r2 hr (by simpa using hb)
    · left
      exact fun st => LoadLine_of_malformed env st line0 hs

theorem findIn_LoadLine (env : Env) (st : KeyMapManager × List String) (line0 : String)
    (ctx : Context) (k : Nat) :
    findIn (LoadLine env st line0).1 ctx k = findIn st.1 ctx k
      ∨ ((∃ r0 r1 r2, env.SplitStringUsing (env.ChopReturns line0) "\t" = [r0, r1, r2]
            ∧ contextOf r0 = some ctx ∧ GetKey (env.ParseKey r1) = some k)
          ∧ (findIn (LoadLine env st line0).1 ctx k).isSome = true) := by
  rcases LoadLine_cases_split env line0 with hskip | ⟨r0, r1, r2, hr, hrule⟩
  · left
    rw [hskip]
  · rw [hrule, findIn_AddRuleByContext]
    have hrec : findIn (RecordIMEOnOffKey env st.1 r2 (env.ParseKey r1)) ctx k = findIn st.1 ctx k :=
      findIn_congr _ _ ctx k (RecordIMEOnOffKey_tables env st.1 r2 (env.ParseKey r1)).1
    rw [hrec]
    split_ifs with hc
    · cases hp : ParseCommandIn (RecordIMEOnOffKey env st.1 r2 (env.ParseKey r1)) ctx r2 with
      | none => exact Or.inl rfl
      | some code => exact Or.inr ⟨⟨r0, r1, r2, hr, hc.1, hc.2⟩, rfl⟩
    · exact Or.inl rfl

theorem findIn_foldl_isSome (env : Env) (ctx : Context) (k : Nat) (ls : List String) :
    ∀ st : KeyMapManager × List String, (findIn st.1 ctx k).isSome = true →
      (findIn (ls.foldl (LoadLine env) st).1 ctx k).isSome = true := by
  induction ls with
  | nil => exact fun _ h => h
  | cons l ls ih =>
    intro st h
    simp only [List.foldl_cons]
    apply ih
    rcases findIn_LoadLine env st l ctx k with h1 | ⟨_, h2⟩
    · rw [h1]; exact h
    · exact h2

theorem findIn_foldl_eq (env : Env) (ctx : Context) (k : Nat) (ls : List String)
    (hls : ∀ l ∈ ls, ∀ r0 r1 r2, env.SplitStringUsing (env.ChopReturns l) "\t" = [r0, r1, r2] →
      contextOf r0 = some ctx → GetKey (env.ParseKey r1) ≠ some k) :
    ∀ st : KeyMapManager × List String,
      findIn (ls.foldl (LoadLine env) st).1 ctx k = findIn st.1 ctx k := by
  induction ls with
  | nil => exact fun _ => rfl
  | cons l ls ih =>
    intro st
    simp only [List.foldl_cons]
    rw [ih (fun l0 h0 => hls l0 (List.mem_cons_of_mem _ h0))]
    rcases findIn_LoadLine env st l ctx k with h1 | ⟨⟨r0, r1, r2, hr, hc, hk⟩, _⟩
    · exact h1
    · exact absurd hk (hls l (List.mem_cons_self _ _) r0 r1 r2 hr hc)

theorem findIn_AddBaselineRules (env : Env) (m : KeyMapManager) (ctx : Context) (k : Nat) :
    ((findIn m ctx k).isSome = true → (findIn (AddBaselineRules env m) ctx k).isSome = true)
      ∧ ((ctx = Context.Precomposition ∨ ctx = Context.Composition ∨ ctx = Context.Conversion →
            GetKey (env.ParseKey "ASCII") ≠ some k) →
          (ctx = Context.Composition → GetKey (env.ParseKey "Shift") ≠ some k) →
          findIn (AddBaselineRules env m) ctx k = findIn m ctx k) := by
  cases ctx <;> simp only [findIn, AddBaselineRules, KeyMap.find_AddRule] <;>
    constructor <;> intros <;> (try split_ifs) <;> simp_all

/-! ### Helper lemmas on reloading -/

/-- The identifier of the platform default preset. -/
theorem GetKeyMapFileName_default (env : Env) :
    GetKeyMapFileName env (GetDefaultKeyMap env)
      = some (if env.OS_MACOSX = true then kKotoeriKeyMapFile else kMSIMEKeyMapFile) := by
  unfold GetDefaultKeyMap GetKeyMapFileName
  cases env.OS_MACOSX <;> rfl

theorem ClearKeymaps_congr (a b : KeyMapManager) (p : SessionKeymap)
    (h : registries a = registries b) : ClearKeymaps a p = ClearKeymaps b p := by
  simp only [registries, vocabularies, Prod.mk.injEq] at h
  obtain ⟨⟨v1, v2, v3, v4⟩, r1, r2, r3, r4⟩ := h
  simp only [ClearKeymaps, KeyMap.Clear, v1, v2, v3, v4, r1, r2, r3, r4]

/-- ReloadWithKeymap outside its no-op case, as a function of the cleared manager. -/
theorem ReloadWithKeymap_of_not_same (env : Env) (m : KeyMapManager) (p : SessionKeymap)
    (w : World) (h : ¬ (p = m.keymap_ ∧ p ≠ SessionKeymap.CUSTOM)) :
    ReloadWithKeymap env m p w
      = if p = SessionKeymap.CUSTOM then
          if w.config.custom_keymap_table = "" then
            LoadFilePtr env (ClearKeymaps m p) (GetKeyMapFileName env (GetDefaultKeyMap env)) w
          else
            ((LoadStream env (ClearKeymaps m p) w.config.custom_keymap_table).1,
              (CheckIMEOnOffKeymap env
                (LoadStream env (ClearKeymaps m p) w.config.custom_keymap_table).2
                (WriteDebugCopy env (GetKeyMapFileName env p) w.config.custom_keymap_table w)).1,
              (CheckIMEOnOffKeymap env
                (LoadStream env (ClearKeymaps m p) w.config.custom_keymap_table).2
                (WriteDebugCopy env (GetKeyMapFileName env p) w.config.custom_keymap_table w)).2)
        else if (LoadFilePtr env (ClearKeymaps m p) (GetKeyMapFileName env p) w).1 = true then
          (true, (LoadFilePtr env (ClearKeymaps m p) (GetKeyMapFileName env p) w).2.1,
            (LoadFilePtr env (ClearKeymaps m p) (GetKeyMapFileName env p) w).2.2)
        else
          LoadFilePtr env (LoadFilePtr env (ClearKeymaps m p) (GetKeyMapFileName env p) w).2.1
            (GetKeyMapFileName env (GetDefaultKeyMap env))
            (LoadFilePtr env (ClearKeymaps m p) (GetKeyMapFileName env p) w).2.2 := by
  unfold ReloadWithKeymap
  rw [if_neg h]
  rfl

theorem LoadFile_of_none (env : Env) (m : KeyMapManager) (f : String) (w : World)
    (h : env.Open f = none) :
    LoadFile env m f w = (false, m, { w with Open_calls := w.Open_calls ++ [f] }) := by
  simp only [LoadFile, h]

theorem LoadFile_of_some (env : Env) (m : KeyMapManager) (f ifs : String) (w : World)
    (h : env.Open f = some ifs) :
    LoadFile env m f w
      = (true, (LoadStream env m ifs).2, { w with Open_calls := w.Open_calls ++ [f] }) := by
  simp only [LoadFile, h, LoadStream, LoadStreamWithErrors]

/-! ### Helper lemmas on the migration -/

/-- The loop over ime_on_off_keys_ returns true exactly when every key is one of the three. -/
theorem need_to_be_migrated_iff (key_on key_off key_eisu : Nat) (keys : List Nat) :
    need_to_be_migrated key_on key_off key_eisu keys = true
      ↔ ∀ key ∈ keys, key = key_on ∨ key = key_off ∨ key = key_eisu := by
  induction keys with
  | nil => simp [need_to_be_migrated]
  | cons key rest ih =>
    by_cases h : key ≠ key_on ∧ key ≠ key_off ∧ key ≠ key_eisu
    · have e : need_to_be_migrated key_on key_off key_eisu (key :: rest) = false := by
        rw [need_to_be_migrated, if_pos h]
      rw [e]
      constructor
      · intro hf
        cases hf
      · intro hall
        have := hall key (List.mem_cons_self _ _)
        omega
    · have e : need_to_be_migrated key_on key_off key_eisu (key :: rest)
          = need_to_be_migrated key_on key_off key_eisu rest := by
        rw [need_to_be_migrated, if_neg h]
      rw [e, ih]
      simp only [List.mem_cons, forall_eq_or_imp]
      constructor
      · intro hr
        exact ⟨by omega, hr⟩
      · exact fun hr => hr.2

/-- The migration when the three keys resolve and the key set holds nothing else. -/
theorem CheckIMEOnOffKeymap_of_safe (env : Env) (m : KeyMapManager) (w : World)
    (key_on key_off key_eisu : Nat)
    (hon : env.ToUint64 (env.ParseKey "ON") = some key_on) (hon0 : key_on ≠ 0)
    (hoff : env.ToUint64 (env.ParseKey "OFF") = some key_off) (hoff0 : key_off ≠ 0)
    (heisu : env.ToUint64 (env.ParseKey "EISU") = some key_eisu) (heisu0 : key_eisu ≠ 0)
    (hall : ∀ key ∈ m.ime_on_off_keys_, key = key_on ∨ key = key_off ∨ key = key_eisu) :
    CheckIMEOnOffKeymap env m w
      = (AddMigrationRules env m,
          { w with
            config := { w.config with
              custom_keymap_table := migratedCustomKeymapTable w.config.custom_keymap_table }
            SetConfig_calls := w.SetConfig_calls ++
              [{ w.config with
                custom_keymap_table :=
                  migratedCustomKeymapTable w.config.custom_keymap_table }] }) := by
  have hneed := (need_to_be_migrated_iff key_on key_off key_eisu m.ime_on_off_keys_).2 hall
  unfold CheckIMEOnOffKeymap
  simp only [hon, hoff, heisu, Option.getD_some, hon0, hoff0, heisu0, or_self, if_false, hneed,
    if_true]

/-- An insertion into a stream whose buffer is the text written so far followed
by the rest of the original text keeps that shape. -/
theorem ostringstream.put_overwrite (orig written : List Char) (s : String) :
    ostringstream.put ⟨written ++ orig.drop written.length, written.length⟩ s
      = ⟨(written ++ s.data) ++ orig.drop (written ++ s.data).length,
          (written ++ s.data).length⟩ := by
  simp [ostringstream.put, List.drop_append, Nat.add_comm]

/-- The text the migration writes back: the 243 characters of the eight lines
over the beginning of the original text, followed by what is left of it. -/
theorem migratedCustomKeymapTable_eq (t : String) :
    migratedCustomKeymapTable t
      = String.mk ("\nDirectInput\tHankaku/Zenkaku\tIMEOn\nDirectInput\tKanji\tIMEOn\nConversion\tHankaku/Zenkaku\tIMEOff\nConversion\tKanji\tIMEOff\nPrecomposition\tHankaku/Zenkaku\tIMEOff\nPrecomposition\tKanji\tIMEOff\nComposition\tHankaku/Zenkaku\tIMEOff\nComposition\tKanji\tIMEOff\n".data
          ++ t.data.drop 243) := by
  have h0 : (⟨t.data, 0⟩ : ostringstream)
      = ⟨[] ++ t.data.drop ([] : List Char).length, ([] : List Char).length⟩ := rfl
  unfold migratedCustomKeymapTable ostringstream.endl ostringstream.ofString ostringstream.str
  simp only [h0, ostringstream.put_overwrite]
  rfl

/-- The migration returns at once when one of the three keys is 0. -/
theorem CheckIMEOnOffKeymap_of_unresolved (env : Env) (m : KeyMapManager) (w : World)
    (h : (env.ToUint64 (env.ParseKey "ON")).getD 0 = 0
      ∨ (env.ToUint64 (env.ParseKey "OFF")).getD 0 = 0
      ∨ (env.ToUint64 (env.ParseKey "EISU")).getD 0 = 0) :
    CheckIMEOnOffKeymap env m w = (m, w) := by
  unfold CheckIMEOnOffKeymap
  simp only [h, if_true]

/-- The migration does nothing when the loop over the key set says no. -/
theorem CheckIMEOnOffKeymap_of_not_needed (env : Env) (m : KeyMapManager) (w : World)
    (h : need_to_be_migrated ((env.ToUint64 (env.ParseKey "ON")).getD 0)
      ((env.ToUint64 (env.ParseKey "OFF")).getD 0)
      ((env.ToUint64 (env.ParseKey "EISU")).getD 0) m.ime_on_off_keys_ = false) :
    CheckIMEOnOffKeymap env m w = (m, w) := by
  unfold CheckIMEOnOffKeymap
  simp only [h, Bool.false_eq_true, if_false, ite_self]

/-! ### Helper lemmas on the modifier field and the registries -/

/-- A bit of the OR-reduction of a list is set when it is set in the start
value or in an element. -/
theorem testBit_foldl_or (l : List Nat) : ∀ (a i : Nat),
    (l.foldl (fun modifiers k => modifiers ||| k) a).testBit i
      = (a.testBit i || l.any (fun k => k.testBit i)) := by
  induction l with
  | nil => intro a i; simp
  | cons x xs ih =>
    intro a i
    simp only [List.foldl_cons, ih, Nat.testBit_or, List.any_cons, Bool.or_assoc]

/-- The OR-reduction depends only on which values occur in the list. -/
theorem foldl_or_congr (l1 l2 : List Nat) (h : ∀ k, k ∈ l1 ↔ k ∈ l2) :
    l1.foldl (fun modifiers k => modifiers ||| k) 0
      = l2.foldl (fun modifiers k => modifiers ||| k) 0 := by
  apply Nat.eq_of_testBit_eq
  intro i
  rw [testBit_foldl_or, testBit_foldl_or]
  congr 1
  rw [Bool.eq_iff_iff]
  simp only [List.any_eq_true]
  constructor
  · rintro ⟨k, hk, hb⟩
    exact ⟨k, (h k).1 hk, hb⟩
  · rintro ⟨k, hk, hb⟩
    exact ⟨k, (h k).2 hk, hb⟩

/-- GetKey reads a key event through its modifier mask, special key and code
point only. -/
theorem GetKey_congr (a b : KeyEvent) (hm : GetModifiers a = GetModifiers b)
    (hs : a.special_key = b.special_key) (hc : a.key_code = b.key_code) :
    GetKey a = GetKey b := by
  unfold GetKey
  rw [hm, hs, hc]

/-- A successful find returns an entry of the map. -/
theorem Map.mem_of_find {K V : Type} [DecidableEq K] (m : Map K V) (k : K) (v : V)
    (h : m.find k = some v) : (k, v) ∈ m := by
  induction m with
  | nil => simp [Map.find] at h
  | cons p rest ih =>
    obtain ⟨k1, v1⟩ := p
    unfold Map.find at h
    by_cases hk : k = k1
    · rw [if_pos hk] at h
      cases h
      rw [hk]
      exact List.mem_cons_self _ _
    · rw [if_neg hk] at h
      exact List.mem_cons_of_mem _ (ih h)

/-- What the check mutuallyInverse establishes. -/
theorem mutuallyInverse_spec {T : Type} [DecidableEq T] (fw : Map String T) (rv : Map T String)
    (h : mutuallyInverse fw rv = true) (name : String) (command : T) :
    fw.find name = some command ↔ rv.find command = some name := by
  simp only [mutuallyInverse, Bool.and_eq_true, List.all_eq_true, decide_eq_true_eq] at h
  constructor
  · intro hf
    exact h.1 (name, command) (Map.mem_of_find fw name command hf)
  · intro hr
    exact h.2 (command, name) (Map.mem_of_find rv command name hr)

/-- InitCommandData reads the environment through three symbols only. -/
theorem InitCommandData_flags (env : Env) (m : KeyMapManager) :
    InitCommandData env m = InitCommandData (flagsEnv env.OS_WINDOWS env._DEBUG env.NO_LOGGING) m :=
  rfl

set_option maxRecDepth 20000 in
/-- The registries InitCommandData builds from empty maps pass the check in
each of the eight configurations. -/
theorem InitCommandData_mutuallyInverse (w d n : Bool) :
    mutuallyInverse (InitCommandData (flagsEnv w d n) initial).command_direct_map_
        (InitCommandData (flagsEnv w d n) initial).reverse_command_direct_map_ = true
      ∧ mutuallyInverse (InitCommandData (flagsEnv w d n) initial).command_precomposition_map_
        (InitCommandData (flagsEnv w d n) initial).reverse_command_precomposition_map_ = true
      ∧ mutuallyInverse (InitCommandData (flagsEnv w d n) initial).command_composition_map_
        (InitCommandData (flagsEnv w d n) initial).reverse_command_composition_map_ = true
      ∧ mutuallyInverse (InitCommandData (flagsEnv w d n) initial).command_conversion_map_
        (InitCommandData (flagsEnv w d n) initial).reverse_command_conversion_map_ = true := by
  cases w <;> cases d <;> cases n <;> decide

/-! ### Helper lemmas on the IME-on/off key set and on reloading a migrated text -/

/-- A registered command for a key event that does not encode changes nothing. -/
theorem AddRuleByContext_of_unencodable (m : KeyMapManager) (errors : List String)
    (line r0 r2 : String) (ke : KeyEvent) (ctx : Context) (code : CommandCode)
    (hkey : GetKey ke = none) (hctx : contextOf r0 = some ctx)
    (hreg : ParseCommandIn m ctx r2 = some code) :
    AddRuleByContext m errors line r0 r2 ke = (m, errors) := by
  unfold contextOf at hctx
  unfold AddRuleByContext
  split_ifs at hctx ⊢ <;> cases hctx <;>
    simp only [ParseCommandIn, Option.map_eq_some'] at hreg <;>
    obtain ⟨c, hc, _⟩ := hreg <;>
    simp only [hc, KeyMap.AddRule, hkey]

/-- Membership in a set after an insertion. -/
theorem mem_setInsert (s : List Nat) (k x : Nat) : x ∈ setInsert s k ↔ x = k ∨ x ∈ s := by
  induction s with
  | nil => simp [setInsert]
  | cons k1 rest ih =>
    unfold setInsert
    split_ifs with h1 h2
    · subst h1
      simp
    · simp
    · simp only [List.mem_cons, ih]
      constructor
      · rintro (h | h | h)
        · exact Or.inr (Or.inl h)
        · exact Or.inl h
        · exact Or.inr (Or.inr h)
      · rintro (h | h | h)
        · exact Or.inr (Or.inl h)
        · exact Or.inl h
        · exact Or.inr (Or.inr h)

/-- The context dispatch does not touch the IME-on/off key set. -/
theorem AddRuleByContext_ime (m : KeyMapManager) (errors : List String)
    (line r0 r2 : String) (ke : KeyEvent) :
    (AddRuleByContext m errors line r0 r2 ke).1.ime_on_off_keys_ = m.ime_on_off_keys_ := by
  unfold AddRuleByContext
  split_ifs <;> (try split) <;> rfl

/-- Membership in the IME-on/off key set after the migration block of the loop. -/
theorem mem_RecordIMEOnOffKey (env : Env) (m : KeyMapManager) (r2 : String) (ke : KeyEvent)
    (x : Nat) :
    x ∈ (RecordIMEOnOffKey env m r2 ke).ime_on_off_keys_
      ↔ x ∈ m.ime_on_off_keys_
        ∨ ((r2 = "IMEOn" ∨ r2 = "IMEOff") ∧ env.ToUint64 ke = some x) := by
  unfold RecordIMEOnOffKey
  split_ifs with h
  · cases hk : env.ToUint64 ke with
    | none => simp
    | some key =>
      simp only [mem_setInsert, h, true_and, Option.some.injEq]
      constructor
      · rintro (h1 | h1)
        · exact Or.inr h1.symm
        · exact Or.inl h1
      · rintro (h1 | h1)
        · exact Or.inr h1
        · exact Or.inl h1.symm
  · simp [h]

/-- Membership in the IME-on/off key set after one iteration of the loop. -/
theorem mem_ime_LoadLine (env : Env) (st : KeyMapManager × List String) (line0 : String)
    (x : Nat) :
    x ∈ (LoadLine env st line0).1.ime_on_off_keys_
      ↔ x ∈ st.1.ime_on_off_keys_ ∨ recordsIMEOnOffKey env line0 x := by
  by_cases h1 : env.ChopReturns line0 = "" ∨ (env.ChopReturns line0).data.head? = some '#'
  · have hs : LoadLine env st line0 = st := by
      unfold LoadLine
      simp only [h1, if_true]
    rw [hs]
    constructor
    · exact Or.inl
    · rintro (h | ⟨_, _, _, hn, _⟩)
      · exact h
      · exact absurd h1 hn
  · by_cases hs : (env.SplitStringUsing (env.ChopReturns line0) "\t").length = 3
    · obtain ⟨r0, r1, r2, hr⟩ := List.length_eq_three.1 hs
      by_cases hb : filteredByBuild env r2 = false
      · rw [LoadLine_of_rule env st line0 r0 r1 r2 h1 hr hb, AddRuleByContext_ime,
          mem_RecordIMEOnOffKey]
        constructor
        · rintro (h | ⟨h2, h3⟩)
          · exact Or.inl h
          · exact Or.inr ⟨r0, r1, r2, h1, hr, hb, h2, h3⟩
        · rintro (h | ⟨q0, q1, q2, _, hq, _, h2, h3⟩)
          · exact Or.inl h
          · rw [hr] at hq
            simp only [List.cons.injEq, and_true] at hq
            obtain ⟨_, e1, e2⟩ := hq
            subst e1 e2
            exact Or.inr ⟨h2, h3⟩
      · rw [LoadLine_of_filtered env st line0 r0 r1 r2 hr (by simpa using hb)]
        constructor
        · exact Or.inl
        · rintro (h | ⟨q0, q1, q2, _, hq, hf, _⟩)
          · exact h
          · rw [hr] at hq
            simp only [List.cons.injEq, and_true] at hq
            obtain ⟨_, _, e2⟩ := hq
            subst e2
            exact absurd hf hb
    · rw [LoadLine_of_malformed env st line0 hs]
      constructor
      · exact Or.inl
      · rintro (h | ⟨q0, q1, q2, _, hq, _⟩)
        · exact h
        · rw [hq] at hs
          exact absurd rfl hs

/-- Membership in the IME-on/off key set after the iterations on a list of lines. -/
theorem mem_ime_foldl (env : Env) (x : Nat) (ls : List String) :
    ∀ st : KeyMapManager × List String,
      x ∈ (ls.foldl (LoadLine env) st).1.ime_on_off_keys_
        ↔ x ∈ st.1.ime_on_off_keys_ ∨ ∃ l ∈ ls, recordsIMEOnOffKey env l x := by
  induction ls with
  | nil => intro st; simp
  | cons l ls ih =>
    intro st
    simp only [List.foldl_cons, ih, mem_ime_LoadLine, List.mem_cons, exists_eq_or_imp, or_assoc]

/-- The baseline rules do not touch the IME-on/off key set. -/
theorem AddBaselineRules_ime (env : Env) (m : KeyMapManager) :
    (AddBaselineRules env m).ime_on_off_keys_ = m.ime_on_off_keys_ := rfl

/-- Lines that are blank after ChopReturns leave the state as it is. -/
theorem foldl_LoadLine_blank (env : Env) (ls : List String)
    (h : ∀ l ∈ ls, env.ChopReturns l = "") (st : KeyMapManager × List String) :
    ls.foldl (LoadLine env) st = st := by
  induction ls with
  | nil => rfl
  | cons l ls ih =>
    have hl : LoadLine env st l = st := by
      unfold LoadLine
      simp only [h l (List.mem_cons_self _ _), true_or, if_true]
    rw [List.foldl_cons, hl]
    exact ih (fun l0 h0 => h l0 (List.mem_cons_of_mem _ h0))

/-- A stretch without line feed followed by a line feed is one line. -/
theorem getlinesAux_append_line (l : List Char) (h : '\n' ∉ l) (rest : List Char) :
    getlinesAux (l ++ '\n' :: rest) = l :: getlinesAux rest := by
  induction l with
  | nil => simp [getlinesAux]
  | cons c cs ih =>
    have hc : c ≠ '\n' := fun e => h (by rw [e]; exact List.mem_cons_self _ _)
    have hcs : '\n' ∉ cs := fun e => h (List.mem_cons_of_mem _ e)
    show getlinesAux (c :: (cs ++ '\n' :: rest)) = _
    rw [getlinesAux, if_neg hc, ih hcs]

/-- The lines of a text that starts with a line feed and a first line. -/
theorem getlines_blank_then_line (block line rest tail : List Char)
    (hb : block = '\n' :: (line ++ '\n' :: rest)) (hl : '\n' ∉ line) :
    getlines (String.mk (block ++ tail))
      = "" :: String.mk line :: (getlinesAux (rest ++ tail)).map String.mk := by
  subst hb
  show (getlinesAux ('\n' :: (line ++ '\n' :: rest) ++ tail)).map String.mk = _
  have e : '\n' :: (line ++ '\n' :: rest) ++ tail = '\n' :: (line ++ '\n' :: (rest ++ tail)) := by
    simp
  rw [e, getlinesAux, if_pos rfl, getlinesAux_append_line line hl]
  rfl

/-- The migration does nothing when the key set holds a key that is none of the three. -/
theorem CheckIMEOnOffKeymap_of_other_key (env : Env) (m : KeyMapManager) (w : World)
    (key : Nat) (hmem : key ∈ m.ime_on_off_keys_)
    (hon : key ≠ (env.ToUint64 (env.ParseKey "ON")).getD 0)
    (hoff : key ≠ (env.ToUint64 (env.ParseKey "OFF")).getD 0)
    (heisu : key ≠ (env.ToUint64 (env.ParseKey "EISU")).getD 0) :
    CheckIMEOnOffKeymap env m w = (m, w) := by
  apply CheckIMEOnOffKeymap_of_not_needed
  cases hn : need_to_be_migrated ((env.ToUint64 (env.ParseKey "ON")).getD 0)
    ((env.ToUint64 (env.ParseKey "OFF")).getD 0)
    ((env.ToUint64 (env.ParseKey "EISU")).getD 0) m.ime_on_off_keys_ with
  | false => rfl
  | true =>
    have := (need_to_be_migrated_iff _ _ _ _).1 hn key hmem
    omega

/-- The debugging copy leaves the configuration alone. -/
theorem WriteDebugCopy_config (env : Env) (keymap_file : Option String) (table : String)
    (w : World) :
    (WriteDebugCopy env keymap_file table w).config = w.config
      ∧ (WriteDebugCopy env keymap_file table w).SetConfig_calls = w.SetConfig_calls := by
  cases hn : env.NO_LOGGING <;> cases keymap_file <;>
    simp only [WriteDebugCopy, hn, Bool.false_eq_true, if_false, if_true, and_self]
  split_ifs <;> exact ⟨rfl, rfl⟩

set_option maxRecDepth 20000 in
/-- The text the migration writes back starts with an empty line followed by the
first of the eight rule lines. -/
theorem migrated_lines (original : String) :
    ∃ rest, getlines (migratedCustomKeymapTable original)
      = "" :: "DirectInput\tHankaku/Zenkaku\tIMEOn" :: rest := by
  rw [migratedCustomKeymapTable_eq]
  exact ⟨_, getlines_blank_then_line _ "DirectInput\tHankaku/Zenkaku\tIMEOn".data
    "DirectInput\tKanji\tIMEOn\nConversion\tHankaku/Zenkaku\tIMEOff\nConversion\tKanji\tIMEOff\nPrecomposition\tHankaku/Zenkaku\tIMEOff\nPrecomposition\tKanji\tIMEOff\nComposition\tHankaku/Zenkaku\tIMEOff\nComposition\tKanji\tIMEOff\n".data
    _ (by decide) (by decide)⟩

/-- The text the migration writes back is not empty. -/
theorem migratedCustomKeymapTable_ne_empty (original : String) :
    migratedCustomKeymapTable original ≠ "" := by
  intro h
  obtain ⟨rest, hr⟩ := migrated_lines original
  rw [h] at hr
  have h2 : getlines "" = [""] := by decide
  rw [h2] at hr
  cases hr

/-- A line that records a key puts it into the IME-on/off key set of the load. -/
theorem mem_ime_LoadStream (env : Env) (m : KeyMapManager) (ifs : String) (key : Nat)
    (line : String) (hmem : line ∈ (getlines ifs).tail)
    (hrec : recordsIMEOnOffKey env line key) :
    key ∈ (LoadStream env m ifs).2.ime_on_off_keys_ := by
  unfold LoadStream LoadStreamWithErrors
  simp only [AddBaselineRules_ime]
  exact (mem_ime_foldl env key _ (m, [])).2 (Or.inr ⟨line, hmem, hrec⟩)

/-! ### Helper lemmas on printable keys, failed reloads and the lines of the migration -/

/-- The lookup of an unmodified descriptor without special key whose code
point is above 32: the rule of its own key, else the rule of the stub key. -/
theorem KeyMap.GetCommand_printable {T : Type} (ASCII : Nat) (km : KeyMap T) (d : KeyEvent)
    (c : Nat) (hmod : GetModifiers d = 0) (hspecial : d.special_key = none)
    (hcode : d.key_code = some c) (hc : 32 < c) :
    ∃ k, GetKey d = some k
      ∧ km.GetCommand ASCII d
        = match km.keymap_.find k with
          | some command => some command
          | none => km.keymap_.find ((ASCII <<< 32) % 2 ^ 64) := by
  have hk : ∃ k, GetKey d = some k := by
    apply Option.isSome_iff_exists.1
    rw [Option.isSome_iff_ne_none]
    intro hn
    obtain ⟨c0, hc0, _, h32⟩ := (GetKey_eq_none_iff _).1 hn
    rw [hcode] at hc0
    cases hc0
    omega
  obtain ⟨k, hk⟩ := hk
  refine ⟨k, hk, ?_⟩
  have hstub : MaybeGetKeyStub ASCII d = some ((ASCII <<< 32) % 2 ^ 64) := by
    unfold MaybeGetKeyStub
    simp only [hmod, ne_eq, not_true_eq_false, if_false, hspecial, Option.isSome_none,
      Bool.false_eq_true, hcode, Nat.not_le.2 hc, GetKey_stub_key_event]
  simp only [KeyMap.GetCommand, hk, hstub]

/-- After the baseline rules the stub key is bound to INSERT_CHARACTER in the
Precomposition, Composition and Conversion tables when the chord ASCII
encodes to the stub key. -/
theorem find_stub_AddBaselineRules (env : Env) (m : KeyMapManager)
    (hascii : GetKey (env.ParseKey "ASCII") = GetKey ⟨none, none, some env.ASCII, []⟩) :
    (AddBaselineRules env m).keymap_precomposition_.keymap_.find ((env.ASCII <<< 32) % 2 ^ 64)
        = some PrecompositionState.Commands.INSERT_CHARACTER
      ∧ (AddBaselineRules env m).keymap_composition_.keymap_.find ((env.ASCII <<< 32) % 2 ^ 64)
        = some CompositionState.Commands.INSERT_CHARACTER
      ∧ (AddBaselineRules env m).keymap_conversion_.keymap_.find ((env.ASCII <<< 32) % 2 ^ 64)
        = some ConversionState.Commands.INSERT_CHARACTER := by
  have ha : GetKey ⟨none, none, some env.ASCII, []⟩ = some ((env.ASCII <<< 32) % 2 ^ 64) :=
    GetKey_stub_key_event env.ASCII
  rw [ha] at hascii
  simp only [AddBaselineRules]
  refine ⟨KeyMap.find_AddRule_self _ _ _ _ hascii, ?_, KeyMap.find_AddRule_self _ _ _ _ hascii⟩
  by_cases hsame : GetKey (env.ParseKey "Shift") = some ((env.ASCII <<< 32) % 2 ^ 64)
  · exact KeyMap.find_AddRule_self _ _ _ _ hsame
  · rw [KeyMap.find_AddRule_other _ _ _ _ hsame]
    exact KeyMap.find_AddRule_self _ _ _ _ hascii

/-- A load that fails leaves the manager it was given. -/
theorem LoadFilePtr_of_false (env : Env) (m : KeyMapManager) (f : Option String) (w : World)
    (h : (LoadFilePtr env m f w).1 = false) : (LoadFilePtr env m f w).2.1 = m := by
  cases f with
  | none => rfl
  | some name =>
    simp only [LoadFilePtr] at h ⊢
    cases ho : env.Open name with
    | none => rw [LoadFile_of_none env m name w ho]
    | some ifs =>
      rw [LoadFile_of_some env m name ifs w ho] at h
      cases h

/-- The migration block changes the IME-on/off key set only. -/
theorem RecordIMEOnOffKey_eq (env : Env) (m : KeyMapManager) (r2 : String) (ke : KeyEvent) :
    ∃ s, RecordIMEOnOffKey env m r2 ke = { m with ime_on_off_keys_ := s } := by
  unfold RecordIMEOnOffKey
  split_ifs
  · cases env.ToUint64 ke with
    | none => exact ⟨m.ime_on_off_keys_, rfl⟩
    | some key => exact ⟨_, rfl⟩
  · exact ⟨m.ime_on_off_keys_, rfl⟩

/-- A rule line of the DirectInput context with a registered command. -/
theorem LoadLine_DirectInput (env : Env) (st : KeyMapManager × List String)
    (line r1 r2 : String) (command : DirectInputState.Commands)
    (h1 : ¬ (env.ChopReturns line = "" ∨ (env.ChopReturns line).data.head? = some '#'))
    (hs : env.SplitStringUsing (env.ChopReturns line) "\t" = ["DirectInput", r1, r2])
    (hb : filteredByBuild env r2 = false)
    (hp : st.1.ParseCommandDirect r2 = some command) :
    ∃ s, LoadLine env st line
      = ({ (st.1) with
          keymap_direct_ := st.1.keymap_direct_.AddRule (env.ParseKey r1) command
          ime_on_off_keys_ := s }, st.2) := by
  rw [LoadLine_of_rule env st line _ r1 r2 h1 hs hb]
  obtain ⟨s, hr⟩ := RecordIMEOnOffKey_eq env st.1 r2 (env.ParseKey r1)
  refine ⟨s, ?_⟩
  have hp2 : (RecordIMEOnOffKey env st.1 r2 (env.ParseKey r1)).ParseCommandDirect r2
      = some command := by rw [hr]; exact hp
  simp only [AddRuleByContext, true_or, if_true, hp2]
  rw [hr]

/-- A rule line of the Precomposition context with a registered command. -/
theorem LoadLine_Precomposition (env : Env) (st : KeyMapManager × List String)
    (line r1 r2 : String) (command : PrecompositionState.Commands)
    (h1 : ¬ (env.ChopReturns line = "" ∨ (env.ChopReturns line).data.head? = some '#'))
    (hs : env.SplitStringUsing (env.ChopReturns line) "\t" = ["Precomposition", r1, r2])
    (hb : filteredByBuild env r2 = false)
    (hp : st.1.ParseCommandPrecomposition r2 = some command) :
    ∃ s, LoadLine env st line
      = ({ (st.1) with
          keymap_precomposition_ := st.1.keymap_precomposition_.AddRule (env.ParseKey r1) command
          ime_on_off_keys_ := s }, st.2) := by
  rw [LoadLine_of_rule env st line _ r1 r2 h1 hs hb]
  obtain ⟨s, hr⟩ := RecordIMEOnOffKey_eq env st.1 r2 (env.ParseKey r1)
  refine ⟨s, ?_⟩
  have hp2 : (RecordIMEOnOffKey env st.1 r2 (env.ParseKey r1)).ParseCommandPrecomposition r2
      = some command := by rw [hr]; exact hp
  have c1 : ¬ ("Precomposition" = "DirectInput" ∨ "Precomposition" = "Direct") := by decide
  simp only [AddRuleByContext, c1, if_false, if_true, hp2]
  rw [hr]

/-- A rule line of the Composition context with a registered command. -/
theorem LoadLine_Composition (env : Env) (st : KeyMapManager × List String)
    (line r1 r2 : String) (command : CompositionState.Commands)
    (h1 : ¬ (env.ChopReturns line = "" ∨ (env.ChopReturns line).data.head? = some '#'))
    (hs : env.SplitStringUsing (env.ChopReturns line) "\t" = ["Composition", r1, r2])
    (hb : filteredByBuild env r2 = false)
    (hp : st.1.ParseCommandComposition r2 = some command) :
    ∃ s, LoadLine env st line
      = ({ (st.1) with
          keymap_composition_ := st.1.keymap_composition_.AddRule (env.ParseKey r1) command
          ime_on_off_keys_ := s }, st.2) := by
  rw [LoadLine_of_rule env st line _ r1 r2 h1 hs hb]
  obtain ⟨s, hr⟩ := RecordIMEOnOffKey_eq env st.1 r2 (env.ParseKey r1)
  refine ⟨s, ?_⟩
  have hp2 : (RecordIMEOnOffKey env st.1 r2 (env.ParseKey r1)).ParseCommandComposition r2
      = some command := by rw [hr]; exact hp
  have c1 : ¬ ("Composition" = "DirectInput" ∨ "Composition" = "Direct") := by decide
  have c2 : ¬ ("Composition" = "Precomposition") := by decide
  simp only [AddRuleByContext, c1, c2, if_false, if_true, hp2]
  rw [hr]

/-- A rule line of the Conversion context with a registered command. -/
theorem LoadLine_Conversion (env : Env) (st : KeyMapManager × List String)
    (line r1 r2 : String) (command : ConversionState.Commands)
    (h1 : ¬ (env.ChopReturns line = "" ∨ (env.ChopReturns line).data.head? = some '#'))
    (hs : env.SplitStringUsing (env.ChopReturns line) "\t" = ["Conversion", r1, r2])
    (hb : filteredByBuild env r2 = false)
    (hp : st.1.ParseCommandConversion r2 = some command) :
    ∃ s, LoadLine env st line
      = ({ (st.1) with
          keymap_conversion_ := st.1.keymap_conversion_.AddRule (env.ParseKey r1) command
          ime_on_off_keys_ := s }, st.2) := by
  rw [LoadLine_of_rule env st line _ r1 r2 h1 hs hb]
  obtain ⟨s, hr⟩ := RecordIMEOnOffKey_eq env st.1 r2 (env.ParseKey r1)
  refine ⟨s, ?_⟩
  have hp2 : (RecordIMEOnOffKey env st.1 r2 (env.ParseKey r1)).ParseCommandConversion r2
      = some command := by rw [hr]; exact hp
  have c1 : ¬ ("Conversion" = "DirectInput" ∨ "Conversion" = "Direct") := by decide
  have c2 : ¬ ("Conversion" = "Precomposition") := by decide
  have c3 : ¬ ("Conversion" = "Composition") := by decide
  simp only [AddRuleByContext, c1, c2, c3, if_false, if_true, hp2]
  rw [hr]

set_option maxRecDepth 20000 in
/-- The names IMEOn and IMEOff are registered in every build configuration. -/
theorem InitCommandData_IMEOnOff (env : Env) :
    (InitCommandData env initial).ParseCommandDirect "IMEOn"
        = some DirectInputState.Commands.IME_ON
      ∧ (InitCommandData env initial).ParseCommandPrecomposition "IMEOff"
        = some PrecompositionState.Commands.IME_OFF
      ∧ (InitCommandData env initial).ParseCommandComposition "IMEOff"
        = some CompositionState.Commands.IME_OFF
      ∧ (InitCommandData env initial).ParseCommandConversion "IMEOff"
        = some ConversionState.Commands.IME_OFF := by
  rw [InitCommandData_flags env initial]
  generalize env.OS_WINDOWS = w
  generalize env._DEBUG = d
  generalize env.NO_LOGGING = n
  cases w <;> cases d <;> cases n <;> decide

/-- The build-mode filter passes the names IMEOn and IMEOff. -/
theorem filteredByBuild_IMEOnOff (env : Env) :
    filteredByBuild env "IMEOn" = false ∧ filteredByBuild env "IMEOff" = false := by
  cases hn : env.NO_LOGGING <;> cases hd : env._DEBUG <;>
    simp [filteredByBuild, hn, hd]

set_option maxRecDepth 20000 in
/-- The lines of the characters the migration writes, after a header without
line feed: the header, the eight rule lines and a last, empty line. -/
theorem getlines_header_migrated (header : String) (h : '\n' ∉ header.data) :
    getlines (header ++ migratedCustomKeymapTable "")
      = header :: (migrationLineFields.map ruleLine ++ [""]) := by
  have e1 : (migratedCustomKeymapTable "").data
      = '\n' :: (migratedCustomKeymapTable "").data.tail := by decide
  have e2 : (getlinesAux (migratedCustomKeymapTable "").data.tail).map String.mk
      = migrationLineFields.map ruleLine ++ [""] := by decide
  unfold getlines
  rw [String.data_append, e1, getlinesAux_append_line header.data h, List.map_cons, e2]

/-- The loop body of the loader on the eight lines the migration writes: the
tables become those the eight AddRule calls of the migration leave, and the
error vector is unchanged. -/
theorem foldl_LoadLine_migration_lines (env : Env) (m : KeyMapManager) (errors : List String)
    (hreg : vocabularies m = vocabularies (InitCommandData env initial))
    (hchop : ∀ fields ∈ migrationLineFields,
      env.ChopReturns (ruleLine fields) = ruleLine fields)
    (hsplit : ∀ fields ∈ migrationLineFields,
      env.SplitStringUsing (ruleLine fields) "\t" = [fields.1, fields.2.1, fields.2.2]) :
    tables ((migrationLineFields.map ruleLine).foldl (LoadLine env) (m, errors)).1
        = tables (AddMigrationRules env m)
      ∧ ((migrationLineFields.map ruleLine).foldl (LoadLine env) (m, errors)).2 = errors := by
  simp only [vocabularies, Prod.mk.injEq] at hreg
  obtain ⟨v1, v2, v3, v4⟩ := hreg
  obtain ⟨i1, i2, i3, i4⟩ := InitCommandData_IMEOnOff env
  have hD : m.ParseCommandDirect "IMEOn" = some DirectInputState.Commands.IME_ON := by
    rw [← i1]; simp only [ParseCommandDirect, v1]
  have hP : m.ParseCommandPrecomposition "IMEOff" = some PrecompositionState.Commands.IME_OFF := by
    rw [← i2]; simp only [ParseCommandPrecomposition, v2]
  have hCm : m.ParseCommandComposition "IMEOff" = some CompositionState.Commands.IME_OFF := by
    rw [← i3]; simp only [ParseCommandComposition, v3]
  have hCv : m.ParseCommandConversion "IMEOff" = some ConversionState.Commands.IME_OFF := by
    rw [← i4]; simp only [ParseCommandConversion, v4]
  obtain ⟨bOn, bOff⟩ := filteredByBuild_IMEOnOff env
  have hne : ∀ fields ∈ migrationLineFields,
      ¬ (ruleLine fields = "" ∨ (ruleLine fields).data.head? = some '#') := by decide
  have h1 : ∀ fields ∈ migrationLineFields,
      ¬ (env.ChopReturns (ruleLine fields) = ""
        ∨ (env.ChopReturns (ruleLine fields)).data.head? = some '#') := by
    intro fields hf
    rw [hchop fields hf]
    exact hne fields hf
  have hs : ∀ fields ∈ migrationLineFields,
      env.SplitStringUsing (env.ChopReturns (ruleLine fields)) "\t"
        = [fields.1, fields.2.1, fields.2.2] := by
    intro fields hf
    rw [hchop fields hf]
    exact hsplit fields hf
  simp only [migrationLineFields, List.map_cons, List.map_nil, List.foldl_cons, List.foldl_nil]
  obtain ⟨s1, e1⟩ := LoadLine_DirectInput env (m, errors)
    (ruleLine ("DirectInput", "Hankaku/Zenkaku", "IMEOn")) "Hankaku/Zenkaku" "IMEOn" _
    (h1 _ (by decide)) (hs _ (by decide)) bOn hD
  generalize LoadLine env (m, errors) (ruleLine ("DirectInput", "Hankaku/Zenkaku", "IMEOn")) = st1 at e1 ⊢
  obtain ⟨s2, e2⟩ := LoadLine_DirectInput env st1
    (ruleLine ("DirectInput", "Kanji", "IMEOn")) "Kanji" "IMEOn" _
    (h1 _ (by decide)) (hs _ (by decide)) bOn (by subst_vars; exact hD)
  generalize LoadLine env st1 (ruleLine ("DirectInput", "Kanji", "IMEOn")) = st2 at e2 ⊢
  obtain ⟨s3, e3⟩ := LoadLine_Conversion env st2
    (ruleLine ("Conversion", "Hankaku/Zenkaku", "IMEOff")) "Hankaku/Zenkaku" "IMEOff" _
    (h1 _ (by decide)) (hs _ (by decide)) bOff (by subst_vars; exact hCv)
  generalize LoadLine env st2 (ruleLine ("Conversion", "Hankaku/Zenkaku", "IMEOff")) = st3 at e3 ⊢
  obtain ⟨s4, e4⟩ := LoadLine_Conversion env st3
    (ruleLine ("Conversion", "Kanji", "IMEOff")) "Kanji" "IMEOff" _
    (h1 _ (by decide)) (hs _ (by decide)) bOff (by subst_vars; exact hCv)
  generalize LoadLine env st3 (ruleLine ("Conversion", "Kanji", "IMEOff")) = st4 at e4 ⊢
  obtain ⟨s5, e5⟩ := LoadLine_Precomposition env st4
    (ruleLine ("Precomposition", "Hankaku/Zenkaku", "IMEOff")) "Hankaku/Zenkaku" "IMEOff" _
    (h1 _ (by decide)) (hs _ (by decide)) bOff (by subst_vars; exact hP)
  generalize LoadLine env st4 (ruleLine ("Precomposition", "Hankaku/Zenkaku", "IMEOff")) = st5 at e5 ⊢
  obtain ⟨s6, e6⟩ := LoadLine_Precomposition env st5
    (ruleLine ("Precomposition", "Kanji", "IMEOff")) "Kanji" "IMEOff" _
    (h1 _ (by decide)) (hs _ (by decide)) bOff (by subst_vars; exact hP)
  generalize LoadLine env st5 (ruleLine ("Precomposition", "Kanji", "IMEOff")) = st6 at e6 ⊢
  obtain ⟨s7, e7⟩ := LoadLine_Composition env st6
    (ruleLine ("Composition", "Hankaku/Zenkaku", "IMEOff")) "Hankaku/Zenkaku" "IMEOff" _
    (h1 _ (by decide)) (hs _ (by decide)) bOff (by subst_vars; exact hCm)
  generalize LoadLine env st6 (ruleLine ("Composition", "Hankaku/Zenkaku", "IMEOff")) = st7 at e7 ⊢
  obtain ⟨s8, e8⟩ := LoadLine_Composition env st7
    (ruleLine ("Composition", "Kanji", "IMEOff")) "Kanji" "IMEOff" _
    (h1 _ (by decide)) (hs _ (by decide)) bOff (by subst_vars; exact hCm)
  generalize LoadLine env st7 (ruleLine ("Composition", "Kanji", "IMEOff")) = st8 at e8 ⊢
  subst_vars
  exact ⟨rfl, rfl⟩

/-! ### The key encoder -/

/-- C1: for a descriptor whose resolved modifier mask M is at most 65535,
whose special-key code S (0 when no special key is set) is at most 65535 and
whose code point C (0 when absent) is at most 2^32-1, a successful GetKey
returns exactly the 64-bit value (M<<48)|(S<<32)|C. -/
theorem GetKey_layout (ke : KeyEvent) (key : Nat)
    (hM : GetModifiers ke ≤ 65535)
    (hS : ke.special_key.getD 0 ≤ 65535)
    (hC : ke.key_code.getD 0 ≤ 2 ^ 32 - 1)
    (h : GetKey ke = some key) :
    key = (GetModifiers ke <<< 48) ||| (ke.special_key.getD 0 <<< 32) ||| ke.key_code.getD 0
      ∧ key < 2 ^ 64 := by
  have hk := GetKey_eq_some ke key h
  simp only [NO_SPECIALKEY] at hk
  rw [key_sum_no_wrap _ _ _ (by omega) (by omega) (by omega)] at hk
  refine ⟨?_, by omega⟩
  rw [hk]
  exact key_sum_eq_or _ _ _ (by omega) (by omega)

/-- Witness for C1: Ctrl (mask 1) with the code point of the letter a. -/
theorem GetKey_layout_witness :
    GetKey ⟨some 97, some 1, none, []⟩ = some 281474976710753
      ∧ (281474976710753 : Nat) = (1 <<< 48) ||| (0 <<< 32) ||| 97 :=
  ⟨by decide,
   (GetKey_layout ⟨some 97, some 1, none, []⟩ 281474976710753
      (by decide) (by decide) (by decide) (by decide)).1⟩

/-- C2: on descriptors that encode successfully, with modifier mask and
special-key code below 2^16 and code point below 2^32, two keys are equal if
and only if the three fields are equal. -/
theorem GetKey_injective (a b : KeyEvent) (ka kb : Nat)
    (ha : GetKey a = some ka) (hb : GetKey b = some kb)
    (hMa : GetModifiers a < 2 ^ 16) (hSa : a.special_key.getD 0 < 2 ^ 16)
    (hCa : a.key_code.getD 0 < 2 ^ 32)
    (hMb : GetModifiers b < 2 ^ 16) (hSb : b.special_key.getD 0 < 2 ^ 16)
    (hCb : b.key_code.getD 0 < 2 ^ 32) :
    ka = kb ↔ (GetModifiers a = GetModifiers b
      ∧ a.special_key.getD 0 = b.special_key.getD 0
      ∧ a.key_code.getD 0 = b.key_code.getD 0) := by
  have h1 := GetKey_eq_some a ka ha
  have h2 := GetKey_eq_some b kb hb
  simp only [NO_SPECIALKEY] at h1 h2
  rw [key_sum_no_wrap _ _ _ hMa hSa hCa] at h1
  rw [key_sum_no_wrap _ _ _ hMb hSb hCb] at h2
  constructor
  · intro h
    omega
  · rintro ⟨e1, e2, e3⟩
    rw [h1, h2, e1, e2, e3]

/-- Witness for C2: Ctrl+a (mask 1) and Alt+a (modifier list [2]) encode to
different keys, and their modifier masks differ. -/
theorem GetKey_injective_witness :
    GetKey ⟨some 97, some 1, none, []⟩ = some 281474976710753
      ∧ GetKey ⟨some 97, none, none, [2]⟩ = some 562949953421409
      ∧ ((281474976710753 : Nat) = 562949953421409 ↔
        (GetModifiers ⟨some 97, some 1, none, []⟩ = GetModifiers ⟨some 97, none, none, [2]⟩
          ∧ (none : Option Nat).getD 0 = (none : Option Nat).getD 0
          ∧ (some 97 : Option Nat).getD 0 = (some 97 : Option Nat).getD 0)) :=
  ⟨by decide, by decide,
   GetKey_injective ⟨some 97, some 1, none, []⟩ ⟨some 97, none, none, [2]⟩
    281474976710753 562949953421409
    (by decide) (by decide) (by decide) (by decide) (by decide)
    (by decide) (by decide) (by decide)⟩

/-- C3: a descriptor with a code point in [1,32] and no special key does not
encode, whatever its modifier mask or modifier list. -/
theorem GetKey_control_code_fails (ke : KeyEvent) (c : Nat)
    (hc : ke.key_code = some c) (h1 : 1 ≤ c) (h32 : c ≤ 32)
    (_hs : ke.special_key = none) :
    GetKey ke = none :=
  (GetKey_eq_none_iff ke).2 ⟨c, hc, h1, h32⟩

/-- Witness for C3: Ctrl+Shift with the code point 9 (a tab character). -/
theorem GetKey_control_code_fails_witness :
    GetKey ⟨some 9, none, none, [1, 4]⟩ = none :=
  GetKey_control_code_fails ⟨some 9, none, none, [1, 4]⟩ 9 rfl (by decide) (by decide) rfl

/-- C4, as stated, fails: a descriptor with a special key set and the code
point 10 does not encode. -/
theorem GetKey_special_key_control_code :
    (⟨some 10, none, some 5, []⟩ : KeyEvent).special_key.isSome = true
      ∧ GetKey ⟨some 10, none, some 5, []⟩ = none := by
  decide

/-- C4, amended: GetKey fails exactly when the code point is present and in
[1,32], whether or not a special key is set; hence a descriptor whose code
point is absent, 0 or greater than 32 encodes successfully. -/
theorem GetKey_fails_iff (ke : KeyEvent) :
    (GetKey ke = none ↔ ∃ c, ke.key_code = some c ∧ 1 ≤ c ∧ c ≤ 32)
      ∧ ((GetKey ke).isSome = true ↔
          (ke.key_code = none ∨ ke.key_code = some 0 ∨ ∃ c, ke.key_code = some c ∧ 32 < c)) := by
  refine ⟨GetKey_eq_none_iff ke, ?_⟩
  have hn := GetKey_eq_none_iff ke
  cases hg : GetKey ke with
  | none =>
    obtain ⟨c, hc, h1, h2⟩ := hn.1 hg
    simp only [Option.isSome_none, Bool.false_eq_true, false_iff, hc, reduceCtorEq,
      Option.some.injEq, false_or, not_or, not_exists, not_and]
    refine ⟨by omega, ?_⟩
    intro c' hc'
    omega
  | some k =>
    simp only [Option.isSome_some, true_iff]
    rw [hg] at hn
    cases hk : ke.key_code with
    | none => exact Or.inl rfl
    | some c =>
      right
      by_cases h0 : c = 0
      · exact Or.inl (by rw [h0])
      · right
        refine ⟨c, rfl, ?_⟩
        by_contra h2
        have := hn.2 ⟨c, hk, by omega, by omega⟩
        cases this

/-- C5: MaybeGetKeyStub succeeds exactly when the modifier mask is 0, no
special key is set and a code point above 32 is present; a successful call
returns the key of the descriptor carrying only the ASCII special key, which
always encodes, so the result does not depend on the code point. -/
theorem MaybeGetKeyStub_spec (ASCII : Nat) (ke : KeyEvent) :
    ((MaybeGetKeyStub ASCII ke).isSome = true ↔
        (GetModifiers ke = 0 ∧ ke.special_key = none
          ∧ ∃ c, ke.key_code = some c ∧ 32 < c))
      ∧ (MaybeGetKeyStub ASCII ke = none
          ∨ MaybeGetKeyStub ASCII ke = GetKey ⟨none, none, some ASCII, []⟩)
      ∧ (GetKey ⟨none, none, some ASCII, []⟩).isSome = true := by
  obtain ⟨hiff, hval, hstub⟩ := MaybeGetKeyStub_cases ASCII ke
  exact ⟨hiff, hval, hstub⟩

/-! ### Binding tables -/

/-- C6: on any binding table, for a descriptor d that encodes successfully,
AddRule(d, c) followed by GetCommand(d) returns c; and when a rule for a
descriptor with the same Key was registered before, the later command is the
one returned (last write wins). -/
theorem AddRule_then_GetCommand {T : Type} (ASCII : Nat) (km : KeyMap T) (d : KeyEvent) (c : T)
    (hd : (GetKey d).isSome = true) :
    (km.AddRule d c).GetCommand ASCII d = some c
      ∧ ∀ (d0 : KeyEvent) (c0 : T), GetKey d0 = GetKey d →
          ((km.AddRule d0 c0).AddRule d c).GetCommand ASCII d0 = some c := by
  obtain ⟨k, hk⟩ := Option.isSome_iff_exists.1 hd
  have key : ∀ (t : KeyMap T) (d0 : KeyEvent), GetKey d0 = GetKey d →
      (t.AddRule d c).GetCommand ASCII d0 = some c := by
    intro t d0 h0
    have hf := KeyMap.find_AddRule_self t d c k hk
    simp only [KeyMap.GetCommand, h0, hk, hf]
  exact ⟨key km d rfl, fun d0 c0 h0 => key (km.AddRule d0 c0) d0 h0⟩

/-- Witness for C6: on a table that binds Ctrl+a to IME_OFF, adding Ctrl+a
with IME_ON makes Ctrl+a resolve to IME_ON. -/
theorem AddRule_then_GetCommand_witness :
    (GetKey ⟨some 97, none, none, [1]⟩).isSome = true
      ∧ (KeyMap.AddRule ⟨[(281474976710753, PrecompositionState.Commands.IME_OFF)]⟩
          ⟨some 97, none, none, [1]⟩ PrecompositionState.Commands.IME_ON).GetCommand 66
            ⟨some 97, none, none, [1]⟩ = some PrecompositionState.Commands.IME_ON :=
  ⟨by decide,
   (AddRule_then_GetCommand 66 ⟨[(281474976710753, PrecompositionState.Commands.IME_OFF)]⟩
      ⟨some 97, none, none, [1]⟩ PrecompositionState.Commands.IME_ON (by decide)).1⟩

/-- C7: GetCommand is the exact-then-stub lookup: the command of the exact Key
when the mapping has it, otherwise the command of the stub Key when
MaybeGetKeyStub succeeds and the mapping has it, otherwise nothing.  Hence a
plain character descriptor (no modifiers, no special key, code point above 32)
without an exact rule resolves to whatever the generic-printable Key is bound
to, and a descriptor with a non-zero modifier mask or a special key resolves
by its exact Key only. -/
theorem GetCommand_exact_then_stub {T : Type} (ASCII : Nat) (km : KeyMap T) (d : KeyEvent) :
    km.GetCommand ASCII d
        = (match (GetKey d).bind km.keymap_.find with
           | some command => some command
           | none => (MaybeGetKeyStub ASCII d).bind km.keymap_.find)
      ∧ ((GetModifiers d = 0 ∧ d.special_key = none ∧ ∃ code, d.key_code = some code ∧ 32 < code) →
          (GetKey d).bind km.keymap_.find = none →
          km.GetCommand ASCII d = (GetKey ⟨none, none, some ASCII, []⟩).bind km.keymap_.find)
      ∧ ((GetModifiers d ≠ 0 ∨ d.special_key.isSome = true) →
          km.GetCommand ASCII d = (GetKey d).bind km.keymap_.find) := by
  have href : km.GetCommand ASCII d
      = (match (GetKey d).bind km.keymap_.find with
         | some command => some command
         | none => (MaybeGetKeyStub ASCII d).bind km.keymap_.find) := by
    unfold KeyMap.GetCommand
    cases hg : GetKey d with
    | none =>
      cases hs : MaybeGetKeyStub ASCII d <;> simp
    | some k =>
      cases hf : km.keymap_.find k with
      | some c => simp [hf]
      | none => cases hs : MaybeGetKeyStub ASCII d <;> simp [hf]
  obtain ⟨hiff, hval, _⟩ := MaybeGetKeyStub_cases ASCII d
  refine ⟨href, ?_, ?_⟩
  · intro hplain hexact
    have hsome : (MaybeGetKeyStub ASCII d).isSome = true := hiff.2 hplain
    have hstub : MaybeGetKeyStub ASCII d = GetKey ⟨none, none, some ASCII, []⟩ := by
      rcases hval with h | h
      · rw [h] at hsome
        cases hsome
      · exact h
    rw [href, hexact, hstub]
  · intro hmod
    have hnone : MaybeGetKeyStub ASCII d = none := by
      cases hs : MaybeGetKeyStub ASCII d with
      | none => rfl
      | some k =>
        have hsome : (MaybeGetKeyStub ASCII d).isSome = true := by rw [hs]; rfl
        obtain ⟨h0, h1, _⟩ := hiff.1 hsome
        rcases hmod with h | h
        · exact absurd h0 h
        · rw [h1] at h
          cases h
    rw [href, hnone]
    cases (GetKey d).bind km.keymap_.find <;> rfl

/-- Witness for C7: a table holding only the generic-printable rule resolves
the plain letter a to that rule. -/
theorem GetCommand_exact_then_stub_witness :
    (KeyMap.GetCommand 66 ⟨[(283467841536, CompositionState.Commands.INSERT_CHARACTER)]⟩
        ⟨some 97, none, none, []⟩) = some CompositionState.Commands.INSERT_CHARACTER := by
  have h := (GetCommand_exact_then_stub 66
    ⟨[(283467841536, CompositionState.Commands.INSERT_CHARACTER)]⟩
    ⟨some 97, none, none, []⟩).2.1 ⟨by decide, rfl, 97, rfl, by decide⟩ (by decide)
  rw [h]
  decide

/-! ### The rule-table loader -/

/-- C8, as stated, fails: in a build without _DEBUG the line naming Abort in
the Precomposition context has a recognised context token and a command name
that is not registered in that vocabulary, yet the error list stays empty. -/
theorem unknown_command_not_recorded :
    sampleEnv.SplitStringUsing (sampleEnv.ChopReturns "Precomposition\ta\tAbort") "\t"
        = ["Precomposition", "a", "Abort"]
      ∧ registeredIn sampleManager "Precomposition" "Abort" = some false
      ∧ (LoadStreamWithErrors sampleEnv sampleManager
          "status\tkey\tcommand\nPrecomposition\ta\tAbort" []).2.2 = [] := by
  decide

/-- C8, amended: LoadStreamWithErrors returns success, and a line after the
header that is neither blank nor a comment, splits on tabs into the three
fields Context, KeySpec, CommandName, names a command that the build-mode
filter does not drop, and has a recognised context token whose vocabulary does
not register the command, has its text inserted into the error list at its
position and adds no rule: the six tables are those of the same input without
the line, so the rules of all other lines are still added. -/
theorem LoadStreamWithErrors_unknown_command (env : Env) (m : KeyMapManager)
    (errors : List String) (ifs ifs0 header bad context keyspec command_string : String)
    (pre post : List String)
    (hifs : getlines ifs = header :: (pre ++ bad :: post))
    (hifs0 : getlines ifs0 = header :: (pre ++ post))
    (hline : ¬ (env.ChopReturns bad = "" ∨ (env.ChopReturns bad).data.head? = some '#'))
    (hsplit : env.SplitStringUsing (env.ChopReturns bad) "\t" = [context, keyspec, command_string])
    (hbuild : filteredByBuild env command_string = false)
    (hreg : registeredIn m context command_string = some false) :
    (LoadStreamWithErrors env m ifs errors).1 = true
      ∧ (∃ e1 e2, (LoadStreamWithErrors env m ifs errors).2.2
            = errors ++ e1 ++ env.ChopReturns bad :: e2
          ∧ (LoadStreamWithErrors env m ifs0 errors).2.2 = errors ++ e1 ++ e2)
      ∧ tables (LoadStreamWithErrors env m ifs errors).2.1
          = tables (LoadStreamWithErrors env m ifs0 errors).2.1 := by
  rw [LoadStreamWithErrors_eq env m ifs errors header _ hifs,
    LoadStreamWithErrors_eq env m ifs0 errors header _ hifs0]
  simp only [List.foldl_append, List.foldl_cons]
  obtain ⟨_, hvpre, e1, he1, _⟩ := foldl_LoadLine_congr env pre m m errors errors rfl rfl
  generalize hst : pre.foldl (LoadLine env) (m, errors) = st at hvpre he1
  obtain ⟨a, ea⟩ := st
  simp only at hvpre he1
  have hbad : LoadLine env (a, ea) bad
      = (RecordIMEOnOffKey env a command_string (env.ParseKey keyspec),
          ea ++ [env.ChopReturns bad]) := by
    rw [LoadLine_of_rule env (a, ea) bad context keyspec command_string hline hsplit hbuild]
    apply AddRuleByContext_unregistered
    rw [registeredIn_congr _ m _ _ ((RecordIMEOnOffKey_tables env a _ _).2.trans hvpre)]
    exact hreg
  rw [hbad]
  obtain ⟨ht, hv⟩ := RecordIMEOnOffKey_tables env a command_string (env.ParseKey keyspec)
  obtain ⟨htab, _, e2, h1, h2⟩ := foldl_LoadLine_congr env post _ a
    (ea ++ [env.ChopReturns bad]) ea ht hv
  refine ⟨?_, ⟨e1, e2, ?_, ?_⟩, AddBaselineRules_tables_congr env _ _ htab⟩
  · trivial
  · rw [h1, he1]
    simp
  · rw [h2, he1]

/-- Witness for C8: one line with an unknown command name between two valid
lines; the load succeeds, the error list is that line, and the tables are
those of the two valid lines alone. -/
theorem LoadStreamWithErrors_unknown_command_witness :
    (LoadStreamWithErrors sampleEnv sampleManager
        "status\tkey\tcommand\nPrecomposition\tCtrl a\tIMEOn\nComposition\tb\tNoSuchCommand\nConversion\tc\tCancel"
        []).2.2 = ["Composition\tb\tNoSuchCommand"]
      ∧ tables (LoadStreamWithErrors sampleEnv sampleManager
          "status\tkey\tcommand\nPrecomposition\tCtrl a\tIMEOn\nComposition\tb\tNoSuchCommand\nConversion\tc\tCancel"
          []).2.1
        = tables (LoadStreamWithErrors sampleEnv sampleManager
          "status\tkey\tcommand\nPrecomposition\tCtrl a\tIMEOn\nConversion\tc\tCancel" []).2.1 :=
  ⟨by decide,
   (LoadStreamWithErrors_unknown_command sampleEnv sampleManager []
      "status\tkey\tcommand\nPrecomposition\tCtrl a\tIMEOn\nComposition\tb\tNoSuchCommand\nConversion\tc\tCancel"
      "status\tkey\tcommand\nPrecomposition\tCtrl a\tIMEOn\nConversion\tc\tCancel"
      "status\tkey\tcommand" "Composition\tb\tNoSuchCommand" "Composition" "b" "NoSuchCommand"
      ["Precomposition\tCtrl a\tIMEOn"] ["Conversion\tc\tCancel"]
      (by decide) (by decide) (by decide) (by decide) (by decide) (by decide)).2.2⟩

/-- C9, as stated, fails: a non-blank, non-comment line with two fields is not
recorded in the error list. -/
theorem malformed_line_not_recorded :
    sampleEnv.ChopReturns "Precomposition\ta" ≠ ""
      ∧ (sampleEnv.ChopReturns "Precomposition\ta").data.head? ≠ some '#'
      ∧ sampleEnv.SplitStringUsing (sampleEnv.ChopReturns "Precomposition\ta") "\t"
          = ["Precomposition", "a"]
      ∧ (LoadStreamWithErrors sampleEnv sampleManager
          "status\tkey\tcommand\nPrecomposition\ta" []).2.2 = [] := by
  decide

/-- C9, amended: a line after the header that does not split on tabs into
exactly 3 fields is skipped without being recorded in the error list: the
whole result of the load (return value, tables, IME-on/off key set and error
list) is that of the same input without the line, so it adds no rule and does
not stop the loading of the lines that follow it. -/
theorem LoadStreamWithErrors_malformed_line (env : Env) (m : KeyMapManager)
    (errors : List String) (ifs ifs0 header bad : String) (pre post : List String)
    (hifs : getlines ifs = header :: (pre ++ bad :: post))
    (hifs0 : getlines ifs0 = header :: (pre ++ post))
    (hsplit : (env.SplitStringUsing (env.ChopReturns bad) "\t").length ≠ 3) :
    LoadStreamWithErrors env m ifs errors = LoadStreamWithErrors env m ifs0 errors := by
  rw [LoadStreamWithErrors_eq env m ifs errors header _ hifs,
    LoadStreamWithErrors_eq env m ifs0 errors header _ hifs0]
  simp only [List.foldl_append, List.foldl_cons]
  rw [LoadLine_of_malformed env _ bad hsplit]

/-- Witness for C9: a two-field line between two valid lines changes nothing. -/
theorem LoadStreamWithErrors_malformed_line_witness :
    LoadStreamWithErrors sampleEnv sampleManager
        "status\tkey\tcommand\nPrecomposition\tCtrl a\tIMEOn\nPrecomposition\ta\nConversion\tc\tCancel" []
      = LoadStreamWithErrors sampleEnv sampleManager
        "status\tkey\tcommand\nPrecomposition\tCtrl a\tIMEOn\nConversion\tc\tCancel" [] :=
  LoadStreamWithErrors_malformed_line sampleEnv sampleManager []
    "status\tkey\tcommand\nPrecomposition\tCtrl a\tIMEOn\nPrecomposition\ta\nConversion\tc\tCancel"
    "status\tkey\tcommand\nPrecomposition\tCtrl a\tIMEOn\nConversion\tc\tCancel"
    "status\tkey\tcommand" "Precomposition\ta"
    ["Precomposition\tCtrl a\tIMEOn"] ["Conversion\tc\tCancel"]
    (by decide) (by decide) (by decide)

/-- C10: when the chord parser resolves ASCII to the generic-printable
descriptor and Shift to a Shift-only descriptor, then after
LoadStreamWithErrors on any input and from any state the generic-printable Key
maps to INSERT_CHARACTER in the Precomposition, Composition and Conversion
tables and the Shift-only Key maps to INSERT_CHARACTER in the Composition
table, whatever the lines of the input bound those Keys to. -/
theorem LoadStreamWithErrors_baseline (env : Env) (m : KeyMapManager) (ifs : String)
    (errors : List String) (SHIFT : Nat)
    (hascii : GetKey (env.ParseKey "ASCII") = GetKey ⟨none, none, some env.ASCII, []⟩)
    (hshift : GetKey (env.ParseKey "Shift") = GetKey ⟨none, some SHIFT, none, []⟩) :
    (GetKey ⟨none, none, some env.ASCII, []⟩).bind
        (LoadStreamWithErrors env m ifs errors).2.1.keymap_precomposition_.keymap_.find
        = some PrecompositionState.Commands.INSERT_CHARACTER
      ∧ (GetKey ⟨none, none, some env.ASCII, []⟩).bind
        (LoadStreamWithErrors env m ifs errors).2.1.keymap_composition_.keymap_.find
        = some CompositionState.Commands.INSERT_CHARACTER
      ∧ (GetKey ⟨none, none, some env.ASCII, []⟩).bind
        (LoadStreamWithErrors env m ifs errors).2.1.keymap_conversion_.keymap_.find
        = some ConversionState.Commands.INSERT_CHARACTER
      ∧ (GetKey ⟨none, some SHIFT, none, []⟩).bind
        (LoadStreamWithErrors env m ifs errors).2.1.keymap_composition_.keymap_.find
        = some CompositionState.Commands.INSERT_CHARACTER := by
  have ha : GetKey ⟨none, none, some env.ASCII, []⟩ = some ((env.ASCII <<< 32) % 2 ^ 64) :=
    GetKey_stub_key_event env.ASCII
  have hs : ∃ ks, GetKey ⟨none, some SHIFT, none, []⟩ = some ks := by
    apply Option.isSome_iff_exists.1
    rw [Option.isSome_iff_ne_none]
    intro hn
    obtain ⟨c, hc, _, _⟩ := (GetKey_eq_none_iff _).1 hn
    cases hc
  obtain ⟨ks, hks⟩ := hs
  rw [ha] at hascii
  rw [hks] at hshift
  rw [ha, hks]
  simp only [LoadStreamWithErrors, AddBaselineRules, Option.some_bind]
  refine ⟨KeyMap.find_AddRule_self _ _ _ _ hascii, ?_, KeyMap.find_AddRule_self _ _ _ _ hascii,
    KeyMap.find_AddRule_self _ _ _ _ hshift⟩
  by_cases hsame : GetKey (env.ParseKey "Shift") = some ((env.ASCII <<< 32) % 2 ^ 64)
  · exact KeyMap.find_AddRule_self _ _ _ _ hsame
  · rw [KeyMap.find_AddRule_other _ _ _ _ hsame]
    exact KeyMap.find_AddRule_self _ _ _ _ hascii

/-- Witness for C10: an input that binds the generic-printable chord to Cancel
and the Shift chord to Commit in the Composition context. -/
theorem LoadStreamWithErrors_baseline_witness :
    (LoadStreamWithErrors sampleEnv sampleManager
        "status\tkey\tcommand\nComposition\tASCII\tCancel\nComposition\tShift\tCommit"
        []).2.1.keymap_composition_.keymap_
      = [(283467841536, CompositionState.Commands.INSERT_CHARACTER),
         (1125899906842624, CompositionState.Commands.INSERT_CHARACTER)]
      ∧ (GetKey ⟨none, some 4, none, []⟩).bind
          (LoadStreamWithErrors sampleEnv sampleManager
            "status\tkey\tcommand\nComposition\tASCII\tCancel\nComposition\tShift\tCommit"
            []).2.1.keymap_composition_.keymap_.find
        = some CompositionState.Commands.INSERT_CHARACTER :=
  ⟨by decide,
   (LoadStreamWithErrors_baseline sampleEnv sampleManager
      "status\tkey\tcommand\nComposition\tASCII\tCancel\nComposition\tShift\tCommit" [] 4
      (by decide) (by decide)).2.2.2⟩

/-- C11: a line after the header that is neither blank nor a comment, splits
on tabs into Context, KeySpec, CommandName, is not dropped by the build-mode
filter, has a recognised context token, a command name registered in that
context's vocabulary and a KeySpec whose descriptor d encodes successfully,
makes GetCommand on that context's table find d after the load; and the
command found is the code of CommandName when no later line of the same
context and no baseline rule of that context has the same Key. -/
theorem LoadStreamWithErrors_valid_line (env : Env) (m : KeyMapManager)
    (errors : List String) (ifs header good context keyspec command_string : String)
    (pre post : List String) (ctx : Context) (code : CommandCode) (k : Nat)
    (hifs : getlines ifs = header :: (pre ++ good :: post))
    (hline : ¬ (env.ChopReturns good = "" ∨ (env.ChopReturns good).data.head? = some '#'))
    (hsplit : env.SplitStringUsing (env.ChopReturns good) "\t" = [context, keyspec, command_string])
    (hbuild : filteredByBuild env command_string = false)
    (hctx : contextOf context = some ctx)
    (hreg : ParseCommandIn m ctx command_string = some code)
    (hkey : GetKey (env.ParseKey keyspec) = some k) :
    (GetCommandIn env (LoadStreamWithErrors env m ifs errors).2.1 ctx
        (env.ParseKey keyspec)).isSome = true
      ∧ ((∀ l ∈ post, ∀ r0 r1 r2,
            env.SplitStringUsing (env.ChopReturns l) "\t" = [r0, r1, r2] →
            contextOf r0 = some ctx → GetKey (env.ParseKey r1) ≠ some k) →
          (ctx = Context.Precomposition ∨ ctx = Context.Composition ∨ ctx = Context.Conversion →
            GetKey (env.ParseKey "ASCII") ≠ some k) →
          (ctx = Context.Composition → GetKey (env.ParseKey "Shift") ≠ some k) →
          GetCommandIn env (LoadStreamWithErrors env m ifs errors).2.1 ctx
            (env.ParseKey keyspec) = some code) := by
  rw [LoadStreamWithErrors_eq env m ifs errors header _ hifs]
  simp only [List.foldl_append, List.foldl_cons]
  obtain ⟨_, hvpre, _⟩ := foldl_LoadLine_congr env pre m m errors errors rfl rfl
  generalize pre.foldl (LoadLine env) (m, errors) = st at hvpre
  have hgood : findIn (LoadLine env st good).1 ctx k = some code := by
    rw [LoadLine_of_rule env st good context keyspec command_string hline hsplit hbuild,
      findIn_AddRuleByContext, if_pos ⟨hctx, hkey⟩,
      ParseCommandIn_congr _ m ctx command_string
        ((RecordIMEOnOffKey_tables env st.1 _ _).2.trans hvpre), hreg]
  constructor
  · have h1 := findIn_foldl_isSome env ctx k post (LoadLine env st good)
      (by rw [hgood]; rfl)
    have h2 := (findIn_AddBaselineRules env _ ctx k).1 h1
    obtain ⟨c, hc⟩ := Option.isSome_iff_exists.1 h2
    rw [GetCommandIn_of_findIn env _ ctx _ k c hkey hc]
    rfl
  · intro hpost hascii hshift
    apply GetCommandIn_of_findIn env _ ctx _ k code hkey
    rw [(findIn_AddBaselineRules env _ ctx k).2 hascii hshift,
      findIn_foldl_eq env ctx k post hpost, hgood]

/-- Witness for C11: a header and the line binding Ctrl a to IMEOn in the
Precomposition context; the descriptor with modifier mask CTRL and the code
point of the letter a resolves to IME_ON. -/
theorem LoadStreamWithErrors_valid_line_witness :
    GetCommandPrecomposition sampleEnv
        (LoadStreamWithErrors sampleEnv sampleManager
          "status\tkey\tcommand\nPrecomposition\tCtrl a\tIMEOn" []).2.1
        ⟨some 97, some 1, none, []⟩ = some PrecompositionState.Commands.IME_ON
      ∧ GetCommandIn sampleEnv
        (LoadStreamWithErrors sampleEnv sampleManager
          "status\tkey\tcommand\nPrecomposition\tCtrl a\tIMEOn" []).2.1
        Context.Precomposition (sampleEnv.ParseKey "Ctrl a")
        = some (CommandCode.precomposition PrecompositionState.Commands.IME_ON) :=
  ⟨by decide,
   (LoadStreamWithErrors_valid_line sampleEnv sampleManager []
      "status\tkey\tcommand\nPrecomposition\tCtrl a\tIMEOn" "status\tkey\tcommand"
      "Precomposition\tCtrl a\tIMEOn" "Precomposition" "Ctrl a" "IMEOn" [] []
      Context.Precomposition (CommandCode.precomposition PrecompositionState.Commands.IME_ON)
      281474976710753
      (by decide) (by decide) (by decide) (by decide) (by decide) (by decide) (by decide)).2
    (fun l hl => absurd hl (List.not_mem_nil l)) (fun _ => by decide)
    (fun h => by cases h)⟩

/-- C12: two streams with the same lines after the first line give the same
result of LoadStreamWithErrors (return value, manager with its six tables and
IME-on/off key set, and error list), whatever their first lines are. -/
theorem LoadStreamWithErrors_header_ignored (env : Env) (m : KeyMapManager)
    (errors : List String) (ifs ifs0 header header0 : String) (rest : List String)
    (hifs : getlines ifs = header :: rest) (hifs0 : getlines ifs0 = header0 :: rest) :
    LoadStreamWithErrors env m ifs errors = LoadStreamWithErrors env m ifs0 errors := by
  rw [LoadStreamWithErrors_eq env m ifs errors header rest hifs,
    LoadStreamWithErrors_eq env m ifs0 errors header0 rest hifs0]

/-- Witness for C12: a first line that is itself a well-formed rule line is
not loaded. -/
theorem LoadStreamWithErrors_header_ignored_witness :
    LoadStreamWithErrors sampleEnv sampleManager
        "Composition\tb\tCancel\nPrecomposition\tCtrl a\tIMEOn\n" []
      = LoadStreamWithErrors sampleEnv sampleManager
        "status\tkey\tcommand\nPrecomposition\tCtrl a\tIMEOn\n" [] :=
  LoadStreamWithErrors_header_ignored sampleEnv sampleManager []
    "Composition\tb\tCancel\nPrecomposition\tCtrl a\tIMEOn\n"
    "status\tkey\tcommand\nPrecomposition\tCtrl a\tIMEOn\n"
    "Composition\tb\tCancel" "status\tkey\tcommand" ["Precomposition\tCtrl a\tIMEOn", ""]
    (by decide) (by decide)

/-- C13: GetCommandSuggestion returns the result of the Suggestion table when
that table has a match (exact or stub) and otherwise exactly what
GetCommandComposition returns; GetCommandPrediction does the same with the
Prediction table and GetCommandConversion. -/
theorem GetCommandSuggestion_Prediction_fallback (env : Env) (m : KeyMapManager)
    (key_event : KeyEvent) :
    (∀ command, m.keymap_suggestion_.GetCommand env.ASCII key_event = some command →
        GetCommandSuggestion env m key_event = some command)
      ∧ (m.keymap_suggestion_.GetCommand env.ASCII key_event = none →
        GetCommandSuggestion env m key_event = GetCommandComposition env m key_event)
      ∧ (∀ command, m.keymap_prediction_.GetCommand env.ASCII key_event = some command →
        GetCommandPrediction env m key_event = some command)
      ∧ (m.keymap_prediction_.GetCommand env.ASCII key_event = none →
        GetCommandPrediction env m key_event = GetCommandConversion env m key_event) := by
  refine ⟨?_, ?_, ?_, ?_⟩
  · intro c h
    simp only [GetCommandSuggestion, h]
  · intro h
    simp only [GetCommandSuggestion, GetCommandComposition, h]
  · intro c h
    simp only [GetCommandPrediction, h]
  · intro h
    simp only [GetCommandPrediction, GetCommandConversion, h]

/-- Witness for C13: after a load that binds Ctrl a in the Suggestion context
and b in the Composition context, Ctrl a resolves from the Suggestion table
and b from the Composition table. -/
theorem GetCommandSuggestion_Prediction_fallback_witness :
    GetCommandSuggestion sampleEnv
        (LoadStreamWithErrors sampleEnv sampleManager
          "status\tkey\tcommand\nSuggestion\tCtrl a\tCommit\nComposition\tb\tCancel" []).2.1
        ⟨some 97, some 1, none, []⟩ = some CompositionState.Commands.COMMIT
      ∧ GetCommandSuggestion sampleEnv
        (LoadStreamWithErrors sampleEnv sampleManager
          "status\tkey\tcommand\nSuggestion\tCtrl a\tCommit\nComposition\tb\tCancel" []).2.1
        ⟨some 98, none, none, []⟩
        = GetCommandComposition sampleEnv
          (LoadStreamWithErrors sampleEnv sampleManager
            "status\tkey\tcommand\nSuggestion\tCtrl a\tCommit\nComposition\tb\tCancel" []).2.1
          ⟨some 98, none, none, []⟩ :=
  ⟨(GetCommandSuggestion_Prediction_fallback sampleEnv
      (LoadStreamWithErrors sampleEnv sampleManager
        "status\tkey\tcommand\nSuggestion\tCtrl a\tCommit\nComposition\tb\tCancel" []).2.1
      ⟨some 97, some 1, none, []⟩).1 CompositionState.Commands.COMMIT (by decide),
   (GetCommandSuggestion_Prediction_fallback sampleEnv
      (LoadStreamWithErrors sampleEnv sampleManager
        "status\tkey\tcommand\nSuggestion\tCtrl a\tCommit\nComposition\tb\tCancel" []).2.1
      ⟨some 98, none, none, []⟩).2.1 (by decide)⟩

/-! ### Profiles and reloading -/

/-- C14: ReloadWithKeymap with the current keymap, when that is not CUSTOM,
returns true and leaves the manager (six tables, IME-on/off key set, current
keymap) and the outside state (configuration, record of opened resources,
of SetConfig calls and of written files) unchanged. -/
theorem ReloadWithKeymap_same_keymap (env : Env) (m : KeyMapManager) (p : SessionKeymap)
    (w : World) (hsame : p = m.keymap_) (hcustom : p ≠ SessionKeymap.CUSTOM) :
    ReloadWithKeymap env m p w = (true, m, w) := by
  unfold ReloadWithKeymap
  rw [if_pos ⟨hsame, hcustom⟩]

/-- Witness for C14: a manager whose current keymap is MSIME, reloaded with
MSIME. -/
theorem ReloadWithKeymap_same_keymap_witness :
    ReloadWithKeymap sampleEnv { sampleManager with keymap_ := SessionKeymap.MSIME }
        SessionKeymap.MSIME (sampleWorld "")
      = (true, { sampleManager with keymap_ := SessionKeymap.MSIME }, sampleWorld "") :=
  ReloadWithKeymap_same_keymap sampleEnv { sampleManager with keymap_ := SessionKeymap.MSIME }
    SessionKeymap.MSIME (sampleWorld "") rfl (by decide)

/-- C15: for a named preset p (ATOK, MSIME or KOTOERI) other than the current
keymap, with built-in table f and platform default table d: ReloadWithKeymap
returns true when f can be opened; when f cannot be opened the call is the
load of d on the cleared manager; and when d cannot be opened either it
returns false with the six tables and the IME-on/off key set empty. -/
theorem ReloadWithKeymap_preset (env : Env) (m : KeyMapManager) (p : SessionKeymap)
    (w : World) (f d : String)
    (hp : p = SessionKeymap.ATOK ∨ p = SessionKeymap.MSIME ∨ p = SessionKeymap.KOTOERI)
    (hne : p ≠ m.keymap_)
    (hf : GetKeyMapFileName env p = some f)
    (hd : GetKeyMapFileName env (GetDefaultKeyMap env) = some d) :
    ((env.Open f).isSome = true →
        (ReloadWithKeymap env m p w).1 = true
        ∧ (ReloadWithKeymap env m p w).2.1 = (LoadFile env (ClearKeymaps m p) f w).2.1)
      ∧ (env.Open f = none →
        ReloadWithKeymap env m p w
          = LoadFile env (ClearKeymaps m p) d { w with Open_calls := w.Open_calls ++ [f] })
      ∧ (env.Open f = none → env.Open d = none →
        (ReloadWithKeymap env m p w).1 = false
        ∧ tables (ReloadWithKeymap env m p w).2.1 = (⟨[]⟩, ⟨[]⟩, ⟨[]⟩, ⟨[]⟩, ⟨[]⟩, ⟨[]⟩)
        ∧ (ReloadWithKeymap env m p w).2.1.ime_on_off_keys_ = []) := by
  have hnc : p ≠ SessionKeymap.CUSTOM := by
    rcases hp with h | h | h <;> rw [h] <;> decide
  have hR := ReloadWithKeymap_of_not_same env m p w (fun h => hne h.1)
  rw [if_neg hnc, hf, hd] at hR
  simp only [LoadFilePtr] at hR
  have hfail : env.Open f = none →
      ReloadWithKeymap env m p w
        = LoadFile env (ClearKeymaps m p) d { w with Open_calls := w.Open_calls ++ [f] } := by
    intro ho
    rw [hR, LoadFile_of_none env _ f w ho]
    simp
  refine ⟨?_, hfail, ?_⟩
  · intro ho
    obtain ⟨ifs, hifs⟩ := Option.isSome_iff_exists.1 ho
    rw [hR, LoadFile_of_some env _ f ifs w hifs]
    simp
  · intro ho hod
    rw [hfail ho, LoadFile_of_none env _ d _ hod]
    exact ⟨rfl, rfl, rfl⟩

/-- Witness for C15: the ATOK table cannot be opened and the MS-IME default
table can, so the reload succeeds through the default table; when nothing can
be opened the reload fails with empty tables. -/
theorem ReloadWithKeymap_preset_witness :
    (ReloadWithKeymap sampleEnv sampleManager SessionKeymap.ATOK (sampleWorld "")).1 = true
      ∧ ReloadWithKeymap sampleEnv sampleManager SessionKeymap.ATOK (sampleWorld "")
        = LoadFile sampleEnv (ClearKeymaps sampleManager SessionKeymap.ATOK) "system://ms-ime.tsv"
            { sampleWorld "" with
              Open_calls := (sampleWorld "").Open_calls ++ ["system://atok.tsv"] }
      ∧ (ReloadWithKeymap { sampleEnv with Open := fun _ => none } sampleManager
          SessionKeymap.ATOK (sampleWorld "")).1 = false :=
  ⟨by decide,
   (ReloadWithKeymap_preset sampleEnv sampleManager SessionKeymap.ATOK (sampleWorld "")
      "system://atok.tsv" "system://ms-ime.tsv" (Or.inl rfl) (by decide) (by decide)
      (by decide)).2.1 (by decide),
   ((ReloadWithKeymap_preset { sampleEnv with Open := fun _ => none } sampleManager
      SessionKeymap.ATOK (sampleWorld "") "system://atok.tsv" "system://ms-ime.tsv"
      (Or.inl rfl) (by decide) (by decide) (by decide)).2.2 rfl rfl).1⟩

/-- C16: outside the no-op case the whole result of ReloadWithKeymap (return
value, six tables, IME-on/off key set, outside state) is the same for any two
managers with the same registries, whatever their tables, their IME-on/off
key sets and their previous keymaps were: nothing of a previously loaded
profile survives. -/
theorem ReloadWithKeymap_independent (env : Env) (m1 m2 : KeyMapManager) (p : SessionKeymap)
    (w : World) (hreg : registries m1 = registries m2)
    (h1 : ¬ (p = m1.keymap_ ∧ p ≠ SessionKeymap.CUSTOM))
    (h2 : ¬ (p = m2.keymap_ ∧ p ≠ SessionKeymap.CUSTOM)) :
    ReloadWithKeymap env m1 p w = ReloadWithKeymap env m2 p w := by
  rw [ReloadWithKeymap_of_not_same env m1 p w h1, ReloadWithKeymap_of_not_same env m2 p w h2,
    ClearKeymaps_congr m1 m2 p hreg]

/-- Witness for C16: a fresh manager and one with a rule in the Direct table,
a key in the IME-on/off key set and the keymap ATOK reload MSIME to the same
result. -/
theorem ReloadWithKeymap_independent_witness :
    ReloadWithKeymap sampleEnv sampleManager SessionKeymap.MSIME (sampleWorld "")
      = ReloadWithKeymap sampleEnv
          { sampleManager with
            keymap_ := SessionKeymap.ATOK
            keymap_direct_ := ⟨[(5, DirectInputState.Commands.IME_ON)]⟩
            ime_on_off_keys_ := [7] }
          SessionKeymap.MSIME (sampleWorld "") :=
  ReloadWithKeymap_independent sampleEnv sampleManager
    { sampleManager with
      keymap_ := SessionKeymap.ATOK
      keymap_direct_ := ⟨[(5, DirectInputState.Commands.IME_ON)]⟩
      ime_on_off_keys_ := [7] }
    SessionKeymap.MSIME (sampleWorld "") rfl (by decide) (by decide)

/-- C17: ReloadWithKeymap with CUSTOM and an empty custom table text is
LoadFile of the platform default preset's table on the cleared manager; the
configuration is not changed, SetConfig is not called and no file is
written. -/
theorem ReloadWithKeymap_custom_empty (env : Env) (m : KeyMapManager) (w : World)
    (hempty : w.config.custom_keymap_table = "") :
    ReloadWithKeymap env m SessionKeymap.CUSTOM w
        = LoadFile env (ClearKeymaps m SessionKeymap.CUSTOM)
            (if env.OS_MACOSX = true then kKotoeriKeyMapFile else kMSIMEKeyMapFile) w
      ∧ (ReloadWithKeymap env m SessionKeymap.CUSTOM w).2.2.config = w.config
      ∧ (ReloadWithKeymap env m SessionKeymap.CUSTOM w).2.2.SetConfig_calls = w.SetConfig_calls
      ∧ (ReloadWithKeymap env m SessionKeymap.CUSTOM w).2.2.written_files = w.written_files := by
  have h : ReloadWithKeymap env m SessionKeymap.CUSTOM w
      = LoadFile env (ClearKeymaps m SessionKeymap.CUSTOM)
          (if env.OS_MACOSX = true then kKotoeriKeyMapFile else kMSIMEKeyMapFile) w := by
    rw [ReloadWithKeymap_of_not_same env m _ w (by simp), if_pos rfl, if_pos hempty,
      GetKeyMapFileName_default]
    rfl
  rw [h]
  refine ⟨rfl, ?_, ?_, ?_⟩ <;>
    · unfold LoadFile
      cases env.Open (if env.OS_MACOSX = true then kKotoeriKeyMapFile else kMSIMEKeyMapFile) <;> rfl

/-- Witness for C17: the custom keymap with an empty table text on a platform
whose default preset is MSIME. -/
theorem ReloadWithKeymap_custom_empty_witness :
    ReloadWithKeymap sampleEnv sampleManager SessionKeymap.CUSTOM (sampleWorld "")
      = LoadFile sampleEnv (ClearKeymaps sampleManager SessionKeymap.CUSTOM)
          "system://ms-ime.tsv" (sampleWorld "") :=
  (ReloadWithKeymap_custom_empty sampleEnv sampleManager (sampleWorld "") rfl).1

/-- C18: GetKeyMapFileName returns an identifier for every keymap value with
fuel for one nested call; ATOK, MSIME, KOTOERI and CUSTOM return their own
identifier without a nested call; NONE and every unrecognised value return
what GetKeyMapFileName(GetDefaultKeyMap()) returns, which needs no further
nested call because the default keymap is MSIME or KOTOERI. -/
theorem GetKeyMapFileName_total (env : Env) (keymap : SessionKeymap) :
    (∃ name, ∀ fuel, 2 ≤ fuel → GetKeyMapFileNameFuel env fuel keymap = some name)
      ∧ (∀ fuel, 1 ≤ fuel →
          GetKeyMapFileNameFuel env fuel SessionKeymap.ATOK = some "system://atok.tsv"
          ∧ GetKeyMapFileNameFuel env fuel SessionKeymap.MSIME = some "system://ms-ime.tsv"
          ∧ GetKeyMapFileNameFuel env fuel SessionKeymap.KOTOERI = some "system://kotoeri.tsv"
          ∧ GetKeyMapFileNameFuel env fuel SessionKeymap.CUSTOM = some "user://keymap.tsv")
      ∧ ((keymap = SessionKeymap.NONE ∨ ∃ value, keymap = SessionKeymap.UNKNOWN value) →
          GetKeyMapFileName env keymap = GetKeyMapFileName env (GetDefaultKeyMap env)
          ∧ GetKeyMapFileName env keymap = GetKeyMapFileNameFuel env 1 (GetDefaultKeyMap env))
      ∧ (GetDefaultKeyMap env = SessionKeymap.MSIME
          ∨ GetDefaultKeyMap env = SessionKeymap.KOTOERI) := by
  have hone : ∀ fuel, 1 ≤ fuel →
      GetKeyMapFileNameFuel env fuel SessionKeymap.ATOK = some "system://atok.tsv"
      ∧ GetKeyMapFileNameFuel env fuel SessionKeymap.MSIME = some "system://ms-ime.tsv"
      ∧ GetKeyMapFileNameFuel env fuel SessionKeymap.KOTOERI = some "system://kotoeri.tsv"
      ∧ GetKeyMapFileNameFuel env fuel SessionKeymap.CUSTOM = some "user://keymap.tsv" := by
    intro fuel hf
    obtain ⟨n, rfl⟩ : ∃ n, fuel = n + 1 := ⟨fuel - 1, by omega⟩
    exact ⟨rfl, rfl, rfl, rfl⟩
  have hdef : GetDefaultKeyMap env = SessionKeymap.MSIME
      ∨ GetDefaultKeyMap env = SessionKeymap.KOTOERI := by
    unfold GetDefaultKeyMap
    cases env.OS_MACOSX
    · exact Or.inl rfl
    · exact Or.inr rfl
  have hdefname : ∃ name, ∀ fuel, 1 ≤ fuel →
      GetKeyMapFileNameFuel env fuel (GetDefaultKeyMap env) = some name := by
    rcases hdef with h | h
    · exact ⟨"system://ms-ime.tsv", fun fuel hf => by rw [h]; exact (hone fuel hf).2.1⟩
    · exact ⟨"system://kotoeri.tsv", fun fuel hf => by rw [h]; exact (hone fuel hf).2.2.1⟩
  refine ⟨?_, hone, ?_, hdef⟩
  · obtain ⟨dname, hd⟩ := hdefname
    cases keymap with
    | ATOK => exact ⟨_, fun fuel hf => (hone fuel (by omega)).1⟩
    | MSIME => exact ⟨_, fun fuel hf => (hone fuel (by omega)).2.1⟩
    | KOTOERI => exact ⟨_, fun fuel hf => (hone fuel (by omega)).2.2.1⟩
    | CUSTOM => exact ⟨_, fun fuel hf => (hone fuel (by omega)).2.2.2⟩
    | NONE =>
      refine ⟨dname, fun fuel hf => ?_⟩
      obtain ⟨n, rfl⟩ : ∃ n, fuel = n + 1 := ⟨fuel - 1, by omega⟩
      exact hd n (by omega)
    | UNKNOWN v =>
      refine ⟨dname, fun fuel hf => ?_⟩
      obtain ⟨n, rfl⟩ : ∃ n, fuel = n + 1 := ⟨fuel - 1, by omega⟩
      exact hd n (by omega)
  · obtain ⟨dname, hd⟩ := hdefname
    rintro (h | ⟨v, h⟩) <;> subst h
    · refine ⟨?_, rfl⟩
      show GetKeyMapFileNameFuel env 1 (GetDefaultKeyMap env) = GetKeyMapFileNameFuel env 2 _
      rw [hd 1 (by omega), hd 2 (by omega)]
    · refine ⟨?_, rfl⟩
      show GetKeyMapFileNameFuel env 1 (GetDefaultKeyMap env) = GetKeyMapFileNameFuel env 2 _
      rw [hd 1 (by omega), hd 2 (by omega)]

/-! ### The migration heuristic -/

/-- C19: when ON, OFF and EISU resolve to non-zero keys and every key of the
IME-on/off key set is one of them (the empty set included), and the chords
Hankaku/Zenkaku and Kanji encode to the keys k1 and k2, the migration leaves
every table lookup as it was except at k1 and k2, which become IME_ON in the
Direct table and IME_OFF in the Precomposition, Composition and Conversion
tables: eight rules in four contexts; the Suggestion and Prediction tables
are unchanged. -/
theorem CheckIMEOnOffKeymap_adds_rules (env : Env) (m : KeyMapManager) (w : World)
    (key_on key_off key_eisu k1 k2 : Nat)
    (hon : env.ToUint64 (env.ParseKey "ON") = some key_on) (hon0 : key_on ≠ 0)
    (hoff : env.ToUint64 (env.ParseKey "OFF") = some key_off) (hoff0 : key_off ≠ 0)
    (heisu : env.ToUint64 (env.ParseKey "EISU") = some key_eisu) (heisu0 : key_eisu ≠ 0)
    (hall : ∀ key ∈ m.ime_on_off_keys_, key = key_on ∨ key = key_off ∨ key = key_eisu)
    (hk1 : GetKey (env.ParseKey "Hankaku/Zenkaku") = some k1)
    (hk2 : GetKey (env.ParseKey "Kanji") = some k2) :
    (∀ (ctx : Context) (k : Nat),
        findIn (CheckIMEOnOffKeymap env m w).1 ctx k
          = if k = k1 ∨ k = k2 then
              (match ctx with
               | Context.Direct => some (CommandCode.direct DirectInputState.Commands.IME_ON)
               | Context.Precomposition =>
                 some (CommandCode.precomposition PrecompositionState.Commands.IME_OFF)
               | Context.Composition =>
                 some (CommandCode.composition CompositionState.Commands.IME_OFF)
               | Context.Conversion =>
                 some (CommandCode.conversion ConversionState.Commands.IME_OFF)
               | Context.Suggestion => findIn m Context.Suggestion k
               | Context.Prediction => findIn m Context.Prediction k)
            else findIn m ctx k)
      ∧ (CheckIMEOnOffKeymap env m w).1.keymap_suggestion_ = m.keymap_suggestion_
      ∧ (CheckIMEOnOffKeymap env m w).1.keymap_prediction_ = m.keymap_prediction_ := by
  rw [CheckIMEOnOffKeymap_of_safe env m w key_on key_off key_eisu hon hon0 hoff hoff0 heisu
    heisu0 hall]
  refine ⟨?_, rfl, rfl⟩
  intro ctx k
  cases ctx <;>
    simp only [findIn, AddMigrationRules, KeyMap.find_AddRule, hk1, hk2, Option.some.injEq] <;>
    split_ifs <;> first | omega | simp_all

/-- Witness for C19: after loading a custom table whose only IME-on/off line
binds the ON key, the migration adds the two Direct rules and the Kanji key
resolves to IME_OFF in the Conversion table. -/
theorem CheckIMEOnOffKeymap_adds_rules_witness :
    (CheckIMEOnOffKeymap sampleEnv
        (LoadStream sampleEnv sampleManager
          "status\tkey\tcommand\nPrecomposition\tON\tIMEOn\nComposition\tb\tCancel\n").2
        (sampleWorld "")).1.keymap_direct_.keymap_
      = [(201863462912, DirectInputState.Commands.IME_ON),
         (206158430208, DirectInputState.Commands.IME_ON)]
      ∧ findIn (CheckIMEOnOffKeymap sampleEnv
        (LoadStream sampleEnv sampleManager
          "status\tkey\tcommand\nPrecomposition\tON\tIMEOn\nComposition\tb\tCancel\n").2
        (sampleWorld "")).1 Context.Conversion 206158430208
        = some (CommandCode.conversion ConversionState.Commands.IME_OFF) :=
  ⟨by decide,
   ((CheckIMEOnOffKeymap_adds_rules sampleEnv
      (LoadStream sampleEnv sampleManager
        "status\tkey\tcommand\nPrecomposition\tON\tIMEOn\nComposition\tb\tCancel\n").2
      (sampleWorld "") 8589934592 12884901888 197568495616 201863462912 206158430208
      (by decide) (by decide) (by decide) (by decide) (by decide) (by decide)
      (by decide) (by decide) (by decide)).1 Context.Conversion 206158430208).trans
    (by decide)⟩

set_option maxRecDepth 20000 in
/-- C20, the code at a failing input: reloading the custom keymap whose table
is a header and one rule makes the migration write back a text that is the
eight lines alone; the original text is not a prefix of it. -/
theorem ReloadWithKeymap_custom_overwrites_table :
    (ReloadWithKeymap sampleEnv sampleManager SessionKeymap.CUSTOM
        (sampleWorld "status\tkey\tcommand\nComposition\tb\tCancel\n")).2.2.config.custom_keymap_table
      = "\nDirectInput\tHankaku/Zenkaku\tIMEOn\nDirectInput\tKanji\tIMEOn\nConversion\tHankaku/Zenkaku\tIMEOff\nConversion\tKanji\tIMEOff\nPrecomposition\tHankaku/Zenkaku\tIMEOff\nPrecomposition\tKanji\tIMEOff\nComposition\tHankaku/Zenkaku\tIMEOff\nComposition\tKanji\tIMEOff\n"
    ∧ (ReloadWithKeymap sampleEnv sampleManager SessionKeymap.CUSTOM
        (sampleWorld "status\tkey\tcommand\nComposition\tb\tCancel\n")).2.2.SetConfig_calls.length = 1
    ∧ ¬ ("status\tkey\tcommand\nComposition\tb\tCancel\n".data
          <+: (ReloadWithKeymap sampleEnv sampleManager SessionKeymap.CUSTOM
            (sampleWorld "status\tkey\tcommand\nComposition\tb\tCancel\n")).2.2.config.custom_keymap_table.data) := by
  decide

/-- C21: when the IME-on/off key set holds a key that is none of the three
keys of ON, OFF and EISU, CheckIMEOnOffKeymap changes nothing: the manager
with its six tables and the outside state with the configuration are
returned as they were, and SetConfig is not called. -/
theorem CheckIMEOnOffKeymap_own_settings (env : Env) (m : KeyMapManager) (w : World)
    (key : Nat) (hmem : key ∈ m.ime_on_off_keys_)
    (hon : key ≠ (env.ToUint64 (env.ParseKey "ON")).getD 0)
    (hoff : key ≠ (env.ToUint64 (env.ParseKey "OFF")).getD 0)
    (heisu : key ≠ (env.ToUint64 (env.ParseKey "EISU")).getD 0) :
    CheckIMEOnOffKeymap env m w = (m, w)
      ∧ tables (CheckIMEOnOffKeymap env m w).1 = tables m
      ∧ (CheckIMEOnOffKeymap env m w).2.config = w.config
      ∧ (CheckIMEOnOffKeymap env m w).2.SetConfig_calls = w.SetConfig_calls := by
  have h : CheckIMEOnOffKeymap env m w = (m, w) := by
    apply CheckIMEOnOffKeymap_of_not_needed
    cases hn : need_to_be_migrated ((env.ToUint64 (env.ParseKey "ON")).getD 0)
      ((env.ToUint64 (env.ParseKey "OFF")).getD 0)
      ((env.ToUint64 (env.ParseKey "EISU")).getD 0) m.ime_on_off_keys_ with
    | false => rfl
    | true =>
      have := (need_to_be_migrated_iff _ _ _ _).1 hn key hmem
      omega
  rw [h]
  exact ⟨rfl, rfl, rfl, rfl⟩

/-- Witness for C21: Ctrl a bound to IMEOff is a key of the user's own. -/
theorem CheckIMEOnOffKeymap_own_settings_witness :
    CheckIMEOnOffKeymap sampleEnv
        (LoadStream sampleEnv sampleManager
          "status\tkey\tcommand\nPrecomposition\tCtrl a\tIMEOff\n").2 (sampleWorld "")
      = ((LoadStream sampleEnv sampleManager
          "status\tkey\tcommand\nPrecomposition\tCtrl a\tIMEOff\n").2, sampleWorld "") :=
  (CheckIMEOnOffKeymap_own_settings sampleEnv
    (LoadStream sampleEnv sampleManager
      "status\tkey\tcommand\nPrecomposition\tCtrl a\tIMEOff\n").2 (sampleWorld "")
    281474976710753 (by decide) (by decide) (by decide) (by decide)).1

/-- C22: when KeyEventNormalizer::ToUint64 fails on the key event of ON, of
OFF or of EISU, CheckIMEOnOffKeymap changes nothing, whatever the IME-on/off
key set holds: manager and outside state are returned as they were. -/
theorem CheckIMEOnOffKeymap_unresolved (env : Env) (m : KeyMapManager) (w : World)
    (h : env.ToUint64 (env.ParseKey "ON") = none
      ∨ env.ToUint64 (env.ParseKey "OFF") = none
      ∨ env.ToUint64 (env.ParseKey "EISU") = none) :
    CheckIMEOnOffKeymap env m w = (m, w)
      ∧ tables (CheckIMEOnOffKeymap env m w).1 = tables m
      ∧ (CheckIMEOnOffKeymap env m w).2.config = w.config
      ∧ (CheckIMEOnOffKeymap env m w).2.SetConfig_calls = w.SetConfig_calls := by
  have h0 : CheckIMEOnOffKeymap env m w = (m, w) := by
    apply CheckIMEOnOffKeymap_of_unresolved
    rcases h with h | h | h
    · exact Or.inl (by rw [h]; rfl)
    · exact Or.inr (Or.inl (by rw [h]; rfl))
    · exact Or.inr (Or.inr (by rw [h]; rfl))
  rw [h0]
  exact ⟨rfl, rfl, rfl, rfl⟩

/-- Witness for C22: an environment whose ToUint64 always fails. -/
theorem CheckIMEOnOffKeymap_unresolved_witness :
    CheckIMEOnOffKeymap { sampleEnv with ToUint64 := fun _ => none } sampleManager
        (sampleWorld "") = (sampleManager, sampleWorld "") :=
  (CheckIMEOnOffKeymap_unresolved { sampleEnv with ToUint64 := fun _ => none } sampleManager
    (sampleWorld "") (Or.inl rfl)).1

/-! ### The modifier field -/

/-- C29: GetModifiers returns the explicit combined mask when there is one,
whatever the list of modifier codes holds; otherwise the bitwise OR of the
list, 0 for the empty list; so a list with the same values in another order
or with repetitions gives the same modifier field and the same Key. -/
theorem GetModifiers_resolution (ke : KeyEvent) :
    (∀ mask, ke.modifiers = some mask → GetModifiers ke = mask)
      ∧ (ke.modifiers = none →
          GetModifiers ke = ke.modifier_keys.foldl (fun modifiers k => modifiers ||| k) 0)
      ∧ (ke.modifiers = none → ke.modifier_keys = [] → GetModifiers ke = 0)
      ∧ (∀ keys : List Nat, (∀ k, k ∈ keys ↔ k ∈ ke.modifier_keys) →
          GetModifiers { ke with modifier_keys := keys } = GetModifiers ke
          ∧ GetKey { ke with modifier_keys := keys } = GetKey ke)
      ∧ (∀ keys : List Nat, keys.Perm ke.modifier_keys →
          GetKey { ke with modifier_keys := keys } = GetKey ke) := by
  have hset : ∀ keys : List Nat, (∀ k, k ∈ keys ↔ k ∈ ke.modifier_keys) →
      GetModifiers { ke with modifier_keys := keys } = GetModifiers ke := by
    intro keys h
    unfold GetModifiers
    cases hm : ke.modifiers with
    | some mask => simp only [hm]
    | none =>
      simp only [hm]
      exact foldl_or_congr _ _ h
  refine ⟨?_, ?_, ?_, ?_, ?_⟩
  · intro mask h
    simp only [GetModifiers, h]
  · intro h
    simp only [GetModifiers, h]
  · intro h hl
    simp only [GetModifiers, h, hl, List.foldl_nil]
  · intro keys h
    exact ⟨hset keys h, GetKey_congr _ _ (hset keys h) rfl rfl⟩
  · intro keys h
    exact GetKey_congr _ _ (hset keys (fun k => h.mem_iff)) rfl rfl

/-- Witness for C29: Shift, Ctrl, Shift, Ctrl encodes as Ctrl, Shift; an
explicit mask 2 hides the list. -/
theorem GetModifiers_resolution_witness :
    GetKey ⟨some 97, none, none, [4, 1, 4, 1]⟩ = GetKey ⟨some 97, none, none, [1, 4]⟩
      ∧ GetModifiers ⟨some 97, some 2, none, [1, 4]⟩ = 2 :=
  ⟨((GetModifiers_resolution ⟨some 97, none, none, [1, 4]⟩).2.2.2.1 [4, 1, 4, 1]
      (fun k => by constructor <;> intro h <;> simp at h ⊢ <;> omega)).2,
   (GetModifiers_resolution ⟨some 97, some 2, none, [1, 4]⟩).1 2 rfl⟩

/-! ### The command registries -/

/-- C23: after InitCommandData on the empty registries of a fresh manager, in
each of the four vocabularies ParseCommand finds the code for a name exactly
when GetNameFromCommand finds that name for the code, in every configuration
of OS_WINDOWS, _DEBUG and NO_LOGGING. -/
theorem InitCommandData_registries_inverse (env : Env) :
    (∀ (name : String) (command : DirectInputState.Commands),
        (InitCommandData env initial).ParseCommandDirect name = some command
          ↔ (InitCommandData env initial).GetNameFromCommandDirect command = some name)
      ∧ (∀ (name : String) (command : PrecompositionState.Commands),
        (InitCommandData env initial).ParseCommandPrecomposition name = some command
          ↔ (InitCommandData env initial).GetNameFromCommandPrecomposition command = some name)
      ∧ (∀ (name : String) (command : CompositionState.Commands),
        (InitCommandData env initial).ParseCommandComposition name = some command
          ↔ (InitCommandData env initial).GetNameFromCommandComposition command = some name)
      ∧ (∀ (name : String) (command : ConversionState.Commands),
        (InitCommandData env initial).ParseCommandConversion name = some command
          ↔ (InitCommandData env initial).GetNameFromCommandConversion command = some name) := by
  rw [InitCommandData_flags env initial]
  obtain ⟨h1, h2, h3, h4⟩ :=
    InitCommandData_mutuallyInverse env.OS_WINDOWS env._DEBUG env.NO_LOGGING
  exact ⟨fun name command => mutuallyInverse_spec _ _ h1 name command,
    fun name command => mutuallyInverse_spec _ _ h2 name command,
    fun name command => mutuallyInverse_spec _ _ h3 name command,
    fun name command => mutuallyInverse_spec _ _ h4 name command⟩

/-- C24, as stated, fails: registering the name IMEOn, already registered in
the Direct vocabulary with IME_ON, with another code changes both maps. -/
theorem RegisterDirectCommand_not_rejected :
    sampleManager.ParseCommandDirect "IMEOn" = some DirectInputState.Commands.IME_ON
      ∧ (sampleManager.RegisterDirectCommand "IMEOn"
          DirectInputState.Commands.INPUT_MODE_HIRAGANA).ParseCommandDirect "IMEOn"
        = some DirectInputState.Commands.INPUT_MODE_HIRAGANA
      ∧ sampleManager.GetNameFromCommandDirect DirectInputState.Commands.INPUT_MODE_HIRAGANA
        = none
      ∧ (sampleManager.RegisterDirectCommand "IMEOn"
          DirectInputState.Commands.INPUT_MODE_HIRAGANA).GetNameFromCommandDirect
          DirectInputState.Commands.INPUT_MODE_HIRAGANA = some "IMEOn" := by
  decide

/-- C24, amended: a Register call never rejects its entry: afterwards the
name maps to the new code and the code to the new name, whatever was
registered before (last write wins), and the mappings of all other names and
all other codes are as before. -/
theorem RegisterCommand_overwrites (m : KeyMapManager) (command_string : String) :
    (∀ command : DirectInputState.Commands,
        (m.RegisterDirectCommand command_string command).ParseCommandDirect command_string
          = some command
        ∧ (m.RegisterDirectCommand command_string command).GetNameFromCommandDirect command
          = some command_string
        ∧ (∀ name, name ≠ command_string →
            (m.RegisterDirectCommand command_string command).ParseCommandDirect name
              = m.ParseCommandDirect name)
        ∧ (∀ code, code ≠ command →
            (m.RegisterDirectCommand command_string command).GetNameFromCommandDirect code
              = m.GetNameFromCommandDirect code))
      ∧ (∀ command : PrecompositionState.Commands,
        (m.RegisterPrecompositionCommand command_string command).ParseCommandPrecomposition
            command_string = some command
        ∧ (m.RegisterPrecompositionCommand command_string
            command).GetNameFromCommandPrecomposition command = some command_string
        ∧ (∀ name, name ≠ command_string →
            (m.RegisterPrecompositionCommand command_string command).ParseCommandPrecomposition
              name = m.ParseCommandPrecomposition name)
        ∧ (∀ code, code ≠ command →
            (m.RegisterPrecompositionCommand command_string
              command).GetNameFromCommandPrecomposition code
              = m.GetNameFromCommandPrecomposition code))
      ∧ (∀ command : CompositionState.Commands,
        (m.RegisterCompositionCommand command_string command).ParseCommandComposition
            command_string = some command
        ∧ (m.RegisterCompositionCommand command_string command).GetNameFromCommandComposition
            command = some command_string
        ∧ (∀ name, name ≠ command_string →
            (m.RegisterCompositionCommand command_string command).ParseCommandComposition name
              = m.ParseCommandComposition name)
        ∧ (∀ code, code ≠ command →
            (m.RegisterCompositionCommand command_string command).GetNameFromCommandComposition
              code = m.GetNameFromCommandComposition code))
      ∧ (∀ command : ConversionState.Commands,
        (m.RegisterConversionCommand command_string command).ParseCommandConversion
            command_string = some command
        ∧ (m.RegisterConversionCommand command_string command).GetNameFromCommandConversion
            command = some command_string
        ∧ (∀ name, name ≠ command_string →
            (m.RegisterConversionCommand command_string command).ParseCommandConversion name
              = m.ParseCommandConversion name)
        ∧ (∀ code, code ≠ command →
            (m.RegisterConversionCommand command_string command).GetNameFromCommandConversion
              code = m.GetNameFromCommandConversion code)) := by
  refine ⟨fun c => ⟨?_, ?_, ?_, ?_⟩, fun c => ⟨?_, ?_, ?_, ?_⟩, fun c => ⟨?_, ?_, ?_, ?_⟩,
    fun c => ⟨?_, ?_, ?_, ?_⟩⟩
  all_goals first
    | exact Map.find_insert_self _ _ _
    | exact fun k hk => Map.find_insert_other _ _ k _ hk

/-! ### The loader, continued -/

/-- C26, as stated, fails: IMEOff in the Direct context is not registered and
is reported as an error, yet the key of its line is in the IME-on/off key set
after the load; so is the key of an IMEOn line whose context token selects no
context. -/
theorem IMEOnOff_key_recorded_without_rule :
    registeredIn sampleManager "Direct" "IMEOff" = some false
      ∧ (LoadStreamWithErrors sampleEnv sampleManager
          "status\tkey\tcommand\nDirect\tb\tIMEOff" []).2.2 = ["Direct\tb\tIMEOff"]
      ∧ (LoadStreamWithErrors sampleEnv sampleManager
          "status\tkey\tcommand\nDirect\tb\tIMEOff" []).2.1.ime_on_off_keys_ = [98]
      ∧ contextOf "Undefined" = none
      ∧ (LoadStreamWithErrors sampleEnv sampleManager
          "status\tkey\tcommand\nUndefined\tc\tIMEOn" []).2.1.ime_on_off_keys_ = [99] := by
  decide

/-- C26, amended: after a load a key is in the IME-on/off key set exactly when
it was there before or some line after the header is neither blank nor a
comment, splits into three fields, passes the build-mode filter, has the
literal command name IMEOn or IMEOff and a KeySpec on which
KeyEventNormalizer::ToUint64 yields that key; the context token and the
vocabulary of the context play no part. -/
theorem LoadStreamWithErrors_ime_on_off_keys (env : Env) (m : KeyMapManager) (ifs : String)
    (errors : List String) (key : Nat) :
    key ∈ (LoadStreamWithErrors env m ifs errors).2.1.ime_on_off_keys_
      ↔ key ∈ m.ime_on_off_keys_
        ∨ ∃ line ∈ (getlines ifs).tail, ∃ rules0 rules1 rules2,
          ¬ (env.ChopReturns line = "" ∨ (env.ChopReturns line).data.head? = some '#')
          ∧ env.SplitStringUsing (env.ChopReturns line) "\t" = [rules0, rules1, rules2]
          ∧ filteredByBuild env rules2 = false
          ∧ (rules2 = "IMEOn" ∨ rules2 = "IMEOff")
          ∧ env.ToUint64 (env.ParseKey rules1) = some key := by
  unfold LoadStreamWithErrors
  simp only [AddBaselineRules_ime]
  exact mem_ime_foldl env key _ (m, errors)

/-- C27: a line after the header that is neither blank nor a comment, splits
into three fields, passes the build-mode filter, has a recognised context
token and a command name registered in that context's vocabulary, but whose
key descriptor does not encode, leaves the six tables and the error list of
the load as they are without the line. -/
theorem LoadStreamWithErrors_unencodable_key (env : Env) (m : KeyMapManager)
    (errors : List String) (ifs ifs0 header line context keyspec command_string : String)
    (pre post : List String) (ctx : Context) (code : CommandCode)
    (hifs : getlines ifs = header :: (pre ++ line :: post))
    (hifs0 : getlines ifs0 = header :: (pre ++ post))
    (hline : ¬ (env.ChopReturns line = "" ∨ (env.ChopReturns line).data.head? = some '#'))
    (hsplit : env.SplitStringUsing (env.ChopReturns line) "\t" = [context, keyspec, command_string])
    (hbuild : filteredByBuild env command_string = false)
    (hctx : contextOf context = some ctx)
    (hreg : ParseCommandIn m ctx command_string = some code)
    (hkey : GetKey (env.ParseKey keyspec) = none) :
    tables (LoadStreamWithErrors env m ifs errors).2.1
        = tables (LoadStreamWithErrors env m ifs0 errors).2.1
      ∧ (LoadStreamWithErrors env m ifs errors).2.2
        = (LoadStreamWithErrors env m ifs0 errors).2.2 := by
  rw [LoadStreamWithErrors_eq env m ifs errors header _ hifs,
    LoadStreamWithErrors_eq env m ifs0 errors header _ hifs0]
  simp only [List.foldl_append, List.foldl_cons]
  obtain ⟨_, hvpre, _⟩ := foldl_LoadLine_congr env pre m m errors errors rfl rfl
  generalize pre.foldl (LoadLine env) (m, errors) = st at hvpre
  obtain ⟨a, ea⟩ := st
  simp only at hvpre
  obtain ⟨ht, hv⟩ := RecordIMEOnOffKey_tables env a command_string (env.ParseKey keyspec)
  have hl : LoadLine env (a, ea) line
      = (RecordIMEOnOffKey env a command_string (env.ParseKey keyspec), ea) := by
    rw [LoadLine_of_rule env (a, ea) line context keyspec command_string hline hsplit hbuild]
    exact AddRuleByContext_of_unencodable _ _ _ _ _ _ ctx code hkey hctx
      (by rw [ParseCommandIn_congr _ m ctx command_string (hv.trans hvpre)]; exact hreg)
  rw [hl]
  obtain ⟨htab, _, e, h1, h2⟩ := foldl_LoadLine_congr env post _ a ea ea ht hv
  exact ⟨AddBaselineRules_tables_congr env _ _ htab, by rw [h1, h2]⟩

/-- Witness for C27: Ctrl with the code point 1, a control character, between
the header and a valid line. -/
theorem LoadStreamWithErrors_unencodable_key_witness :
    GetKey (sampleEnv.ParseKey "Ctrl \u0001") = none
      ∧ (LoadStreamWithErrors sampleEnv sampleManager
          "status\tkey\tcommand\nPrecomposition\tCtrl \u0001\tIMEOn\nConversion\tc\tCancel" []).2.2
        = (LoadStreamWithErrors sampleEnv sampleManager
          "status\tkey\tcommand\nConversion\tc\tCancel" []).2.2 :=
  ⟨by decide,
   (LoadStreamWithErrors_unencodable_key sampleEnv sampleManager []
      "status\tkey\tcommand\nPrecomposition\tCtrl \u0001\tIMEOn\nConversion\tc\tCancel"
      "status\tkey\tcommand\nConversion\tc\tCancel"
      "status\tkey\tcommand" "Precomposition\tCtrl \u0001\tIMEOn" "Precomposition"
      "Ctrl \u0001" "IMEOn" [] ["Conversion\tc\tCancel"] Context.Precomposition
      (CommandCode.precomposition PrecompositionState.Commands.IME_ON)
      (by decide) (by decide) (by decide) (by decide) (by decide) (by decide) (by decide)
      (by decide)).2⟩

/-- C28: when every line after the first is blank (a header alone, or an empty
input), the tables were cleared, and the chords ASCII and Shift encode to two
different keys, the load leaves exactly the baseline rules: one rule in the
Precomposition table, one in the Conversion table, the two rules (generic
printable and Shift) in the Composition table, and empty Direct, Suggestion
and Prediction tables; no error is recorded. -/
theorem LoadStreamWithErrors_header_only (env : Env) (m : KeyMapManager) (ifs : String)
    (errors : List String) (ka ks : Nat)
    (hblank : ∀ line ∈ (getlines ifs).tail, env.ChopReturns line = "")
    (hclear : tables m = (⟨[]⟩, ⟨[]⟩, ⟨[]⟩, ⟨[]⟩, ⟨[]⟩, ⟨[]⟩))
    (hka : GetKey (env.ParseKey "ASCII") = some ka)
    (hks : GetKey (env.ParseKey "Shift") = some ks)
    (hne : ka ≠ ks) :
    tables (LoadStreamWithErrors env m ifs errors).2.1
        = (⟨[]⟩,
           ⟨[(ka, PrecompositionState.Commands.INSERT_CHARACTER)]⟩,
           ⟨if ks < ka then
              [(ks, CompositionState.Commands.INSERT_CHARACTER),
               (ka, CompositionState.Commands.INSERT_CHARACTER)]
            else
              [(ka, CompositionState.Commands.INSERT_CHARACTER),
               (ks, CompositionState.Commands.INSERT_CHARACTER)]⟩,
           ⟨[(ka, ConversionState.Commands.INSERT_CHARACTER)]⟩,
           ⟨[]⟩, ⟨[]⟩)
      ∧ (LoadStreamWithErrors env m ifs errors).2.2 = errors := by
  unfold LoadStreamWithErrors
  rw [foldl_LoadLine_blank env _ hblank]
  simp only [tables, Prod.mk.injEq] at hclear
  obtain ⟨t1, t2, t3, t4, t5, t6⟩ := hclear
  refine ⟨?_, rfl⟩
  simp only [tables, AddBaselineRules, t1, t2, t3, t4, t5, t6, KeyMap.AddRule, hka, hks,
    Map.insert, Prod.mk.injEq, true_and, and_true]
  have hne2 : ks ≠ ka := fun h => hne h.symm
  simp only [hne2, if_false, MapKey.less, decide_eq_true_eq]

/-- Witness for C28: a header line followed by a line feed. -/
theorem LoadStreamWithErrors_header_only_witness :
    (LoadStreamWithErrors sampleEnv sampleManager "status\tkey\tcommand\n"
        []).2.1.keymap_composition_.keymap_
      = [(283467841536, CompositionState.Commands.INSERT_CHARACTER),
         (1125899906842624, CompositionState.Commands.INSERT_CHARACTER)]
    ∧ (LoadStreamWithErrors sampleEnv sampleManager "status\tkey\tcommand\n" []).2.2 = [] :=
  ⟨by decide,
   (LoadStreamWithErrors_header_only sampleEnv sampleManager "status\tkey\tcommand\n" []
      283467841536 1125899906842624 (by decide) rfl (by decide) (by decide) (by decide)).2⟩

/-! ### The migration is one-shot -/

/-- C30: when the custom table text of the configuration is a text written
back by the migration, the rule line DirectInput Hankaku/Zenkaku IMEOn is
chopped and split as written, and the key of Hankaku/Zenkaku is none of the
keys of ON, OFF and EISU, reloading CUSTOM does not migrate again: the
manager is the one LoadStream leaves (no rule is synthesised), the
configuration is unchanged and SetConfig is not called. -/
theorem ReloadWithKeymap_migration_one_shot (env : Env) (m : KeyMapManager) (w : World)
    (original : String) (key_hankaku : Nat)
    (htable : w.config.custom_keymap_table = migratedCustomKeymapTable original)
    (hchop : env.ChopReturns "DirectInput\tHankaku/Zenkaku\tIMEOn"
      = "DirectInput\tHankaku/Zenkaku\tIMEOn")
    (hsplit : env.SplitStringUsing "DirectInput\tHankaku/Zenkaku\tIMEOn" "\t"
      = ["DirectInput", "Hankaku/Zenkaku", "IMEOn"])
    (hkey : env.ToUint64 (env.ParseKey "Hankaku/Zenkaku") = some key_hankaku)
    (hon : key_hankaku ≠ (env.ToUint64 (env.ParseKey "ON")).getD 0)
    (hoff : key_hankaku ≠ (env.ToUint64 (env.ParseKey "OFF")).getD 0)
    (heisu : key_hankaku ≠ (env.ToUint64 (env.ParseKey "EISU")).getD 0) :
    (ReloadWithKeymap env m SessionKeymap.CUSTOM w).2.1
        = (LoadStream env (ClearKeymaps m SessionKeymap.CUSTOM) w.config.custom_keymap_table).2
      ∧ (ReloadWithKeymap env m SessionKeymap.CUSTOM w).2.2.config = w.config
      ∧ (ReloadWithKeymap env m SessionKeymap.CUSTOM w).2.2.SetConfig_calls
        = w.SetConfig_calls := by
  have hne : w.config.custom_keymap_table ≠ "" := by
    rw [htable]
    exact migratedCustomKeymapTable_ne_empty original
  have hrec : recordsIMEOnOffKey env "DirectInput\tHankaku/Zenkaku\tIMEOn" key_hankaku := by
    refine ⟨"DirectInput", "Hankaku/Zenkaku", "IMEOn", ?_, ?_, ?_, Or.inl rfl, hkey⟩
    · rw [hchop]
      decide
    · rw [hchop]
      exact hsplit
    · simp [filteredByBuild]
  have hmem : "DirectInput\tHankaku/Zenkaku\tIMEOn" ∈ (getlines w.config.custom_keymap_table).tail := by
    obtain ⟨rest, hr⟩ := migrated_lines original
    rw [htable, hr]
    exact List.mem_cons_self _ _
  have hin := mem_ime_LoadStream env (ClearKeymaps m SessionKeymap.CUSTOM)
    w.config.custom_keymap_table key_hankaku _ hmem hrec
  rw [ReloadWithKeymap_of_not_same env m _ w (by simp), if_pos rfl, if_neg hne,
    CheckIMEOnOffKeymap_of_other_key env _ _ key_hankaku hin hon hoff heisu]
  exact ⟨rfl, (WriteDebugCopy_config env _ _ w).1, (WriteDebugCopy_config env _ _ w).2⟩

set_option maxRecDepth 20000 in
/-- Witness for C30: the first reload of a custom table writes back the
migrated text; a reload from that text makes no SetConfig call. -/
theorem ReloadWithKeymap_migration_one_shot_witness :
    (ReloadWithKeymap sampleEnv sampleManager SessionKeymap.CUSTOM
        (sampleWorld "status\tkey\tcommand\nComposition\tb\tCancel\n")).2.2.config.custom_keymap_table
      = migratedCustomKeymapTable "status\tkey\tcommand\nComposition\tb\tCancel\n"
    ∧ (ReloadWithKeymap sampleEnv sampleManager SessionKeymap.CUSTOM
        (sampleWorld
          (migratedCustomKeymapTable
            "status\tkey\tcommand\nComposition\tb\tCancel\n"))).2.2.SetConfig_calls
      = [] :=
  ⟨by decide,
   (ReloadWithKeymap_migration_one_shot sampleEnv sampleManager
      (sampleWorld (migratedCustomKeymapTable "status\tkey\tcommand\nComposition\tb\tCancel\n"))
      "status\tkey\tcommand\nComposition\tb\tCancel\n" 201863462912
      rfl (by decide) (by decide) (by decide) (by decide) (by decide) (by decide)).2.2⟩

/-! ### Printable keys after a load -/

/-- C31: when the chord ASCII encodes to the generic-printable Key, then after
LoadStreamWithErrors on any input and from any state every descriptor without
modifiers, without special key and with a code point above 32 is found by
GetCommandPrecomposition, GetCommandComposition and GetCommandConversion (the
command of the rule for its own Key if there is one, INSERT_CHARACTER of the
baseline rule otherwise) and by GetCommandSuggestion and GetCommandPrediction;
GetCommandDirect has no such guarantee: after a load whose lines past the
first are all blank, into an empty Direct table, it finds nothing. -/
theorem LoadStreamWithErrors_printable_found (env : Env) (m : KeyMapManager) (ifs : String)
    (errors : List String) (d : KeyEvent) (c : Nat)
    (hascii : GetKey (env.ParseKey "ASCII") = GetKey ⟨none, none, some env.ASCII, []⟩)
    (hmod : GetModifiers d = 0) (hspecial : d.special_key = none)
    (hcode : d.key_code = some c) (hc : 32 < c) :
    GetCommandPrecomposition env (LoadStreamWithErrors env m ifs errors).2.1 d
        = some (((GetKey d).bind
            (LoadStreamWithErrors env m ifs errors).2.1.keymap_precomposition_.keymap_.find).getD
              PrecompositionState.Commands.INSERT_CHARACTER)
      ∧ GetCommandComposition env (LoadStreamWithErrors env m ifs errors).2.1 d
        = some (((GetKey d).bind
            (LoadStreamWithErrors env m ifs errors).2.1.keymap_composition_.keymap_.find).getD
              CompositionState.Commands.INSERT_CHARACTER)
      ∧ GetCommandConversion env (LoadStreamWithErrors env m ifs errors).2.1 d
        = some (((GetKey d).bind
            (LoadStreamWithErrors env m ifs errors).2.1.keymap_conversion_.keymap_.find).getD
              ConversionState.Commands.INSERT_CHARACTER)
      ∧ (GetCommandSuggestion env (LoadStreamWithErrors env m ifs errors).2.1 d).isSome = true
      ∧ (GetCommandPrediction env (LoadStreamWithErrors env m ifs errors).2.1 d).isSome = true
      ∧ ∀ ifs0 : String, (∀ line ∈ (getlines ifs0).tail, env.ChopReturns line = "") →
          m.keymap_direct_.keymap_ = [] →
          GetCommandDirect env (LoadStreamWithErrors env m ifs0 errors).2.1 d = none := by
  obtain ⟨hp, hcm, hcv⟩ :=
    find_stub_AddBaselineRules env ((getlines ifs).tail.foldl (LoadLine env) (m, errors)).1 hascii
  have e : (LoadStreamWithErrors env m ifs errors).2.1
      = AddBaselineRules env ((getlines ifs).tail.foldl (LoadLine env) (m, errors)).1 := rfl
  rw [e]
  generalize AddBaselineRules env ((getlines ifs).tail.foldl (LoadLine env) (m, errors)).1 = M
    at hp hcm hcv
  have h1 : GetCommandPrecomposition env M d
      = some (((GetKey d).bind M.keymap_precomposition_.keymap_.find).getD
          PrecompositionState.Commands.INSERT_CHARACTER) := by
    obtain ⟨k, hk, hg⟩ := KeyMap.GetCommand_printable env.ASCII M.keymap_precomposition_ d c
      hmod hspecial hcode hc
    rw [GetCommandPrecomposition, hg, hk, Option.some_bind, hp]
    cases M.keymap_precomposition_.keymap_.find k <;> rfl
  have h2 : GetCommandComposition env M d
      = some (((GetKey d).bind M.keymap_composition_.keymap_.find).getD
          CompositionState.Commands.INSERT_CHARACTER) := by
    obtain ⟨k, hk, hg⟩ := KeyMap.GetCommand_printable env.ASCII M.keymap_composition_ d c
      hmod hspecial hcode hc
    rw [GetCommandComposition, hg, hk, Option.some_bind, hcm]
    cases M.keymap_composition_.keymap_.find k <;> rfl
  have h3 : GetCommandConversion env M d
      = some (((GetKey d).bind M.keymap_conversion_.keymap_.find).getD
          ConversionState.Commands.INSERT_CHARACTER) := by
    obtain ⟨k, hk, hg⟩ := KeyMap.GetCommand_printable env.ASCII M.keymap_conversion_ d c
      hmod hspecial hcode hc
    rw [GetCommandConversion, hg, hk, Option.some_bind, hcv]
    cases M.keymap_conversion_.keymap_.find k <;> rfl
  refine ⟨h1, h2, h3, ?_, ?_, ?_⟩
  · have h2c : M.keymap_composition_.GetCommand env.ASCII d
        = some (((GetKey d).bind M.keymap_composition_.keymap_.find).getD
          CompositionState.Commands.INSERT_CHARACTER) := h2
    unfold GetCommandSuggestion
    cases M.keymap_suggestion_.GetCommand env.ASCII d with
    | some command => rfl
    | none => simp only [h2c, Option.isSome_some]
  · have h3c : M.keymap_conversion_.GetCommand env.ASCII d
        = some (((GetKey d).bind M.keymap_conversion_.keymap_.find).getD
          ConversionState.Commands.INSERT_CHARACTER) := h3
    unfold GetCommandPrediction
    cases M.keymap_prediction_.GetCommand env.ASCII d with
    | some command => rfl
    | none => simp only [h3c, Option.isSome_some]
  · intro ifs0 hblank hempty
    have hd : (LoadStreamWithErrors env m ifs0 errors).2.1.keymap_direct_ = m.keymap_direct_ := by
      simp only [LoadStreamWithErrors, foldl_LoadLine_blank env _ hblank, AddBaselineRules]
    simp only [GetCommandDirect, hd, KeyMap.GetCommand, hempty, Map.find]
    cases GetKey d <;> cases MaybeGetKeyStub env.ASCII d <;> rfl

/-- Witness for C31: the letter a after a load that binds it to Cancel in the
Composition context only, and after a load of a header alone. -/
theorem LoadStreamWithErrors_printable_found_witness :
    GetCommandPrecomposition sampleEnv
        (LoadStreamWithErrors sampleEnv sampleManager
          "status\tkey\tcommand\nComposition\ta\tCancel\nDirectInput\tb\tIMEOn\n" []).2.1
        ⟨some 97, none, none, []⟩ = some PrecompositionState.Commands.INSERT_CHARACTER
      ∧ GetCommandComposition sampleEnv
        (LoadStreamWithErrors sampleEnv sampleManager
          "status\tkey\tcommand\nComposition\ta\tCancel\nDirectInput\tb\tIMEOn\n" []).2.1
        ⟨some 97, none, none, []⟩ = some CompositionState.Commands.CANCEL
      ∧ GetCommandDirect sampleEnv
        (LoadStreamWithErrors sampleEnv sampleManager "status\tkey\tcommand\n" []).2.1
        ⟨some 97, none, none, []⟩ = none :=
  have h := LoadStreamWithErrors_printable_found sampleEnv sampleManager
    "status\tkey\tcommand\nComposition\ta\tCancel\nDirectInput\tb\tIMEOn\n" []
    ⟨some 97, none, none, []⟩ 97 (by decide) (by decide) (by decide) (by decide) (by decide)
  ⟨h.1.trans (by decide), h.2.1.trans (by decide),
    h.2.2.2.2.2 "status\tkey\tcommand\n" (by decide) (by decide)⟩

/-! ### A failed reload -/

/-- C32: when ReloadWithKeymap for a profile other than CUSTOM (in particular a
named preset) returns false, the profile is nevertheless recorded as the
current one, and an immediately following ReloadWithKeymap for the same
profile returns true with the manager and the outside state unchanged (no
stream is opened, nothing is loaded) and all six tables empty. -/
theorem ReloadWithKeymap_failure_not_rolled_back (env : Env) (m : KeyMapManager)
    (p : SessionKeymap) (w : World) (hp : p ≠ SessionKeymap.CUSTOM)
    (hfail : (ReloadWithKeymap env m p w).1 = false) :
    (ReloadWithKeymap env m p w).2.1.keymap_ = p
      ∧ ReloadWithKeymap env (ReloadWithKeymap env m p w).2.1 p (ReloadWithKeymap env m p w).2.2
        = (true, (ReloadWithKeymap env m p w).2.1, (ReloadWithKeymap env m p w).2.2)
      ∧ tables (ReloadWithKeymap env (ReloadWithKeymap env m p w).2.1 p
          (ReloadWithKeymap env m p w).2.2).2.1
        = (⟨[]⟩, ⟨[]⟩, ⟨[]⟩, ⟨[]⟩, ⟨[]⟩, ⟨[]⟩) := by
  have hm : (ReloadWithKeymap env m p w).2.1 = ClearKeymaps m p := by
    by_cases h : p = m.keymap_ ∧ p ≠ SessionKeymap.CUSTOM
    · have e : ReloadWithKeymap env m p w = (true, m, w) := by
        unfold ReloadWithKeymap
        rw [if_pos h]
      rw [e] at hfail
      cases hfail
    · rw [ReloadWithKeymap_of_not_same env m p w h, if_neg hp] at hfail ⊢
      by_cases h1 : (LoadFilePtr env (ClearKeymaps m p) (GetKeyMapFileName env p) w).1 = true
      · rw [if_pos h1] at hfail
        cases hfail
      · rw [if_neg h1] at hfail ⊢
        rw [LoadFilePtr_of_false env _ _ _ hfail,
          LoadFilePtr_of_false env _ _ _ (by simpa using h1)]
  have hk : (ReloadWithKeymap env m p w).2.1.keymap_ = p := by rw [hm]; rfl
  have h2 : ReloadWithKeymap env (ReloadWithKeymap env m p w).2.1 p
      (ReloadWithKeymap env m p w).2.2
      = (true, (ReloadWithKeymap env m p w).2.1, (ReloadWithKeymap env m p w).2.2) := by
    generalize (ReloadWithKeymap env m p w).2.2 = w1
    generalize (ReloadWithKeymap env m p w).2.1 = m1 at hk
    unfold ReloadWithKeymap
    rw [if_pos ⟨hk.symm, hp⟩]
  refine ⟨hk, h2, ?_⟩
  rw [h2, hm]
  rfl

/-- Witness for C32: no keymap file can be opened; the first reload of ATOK
tries the ATOK file and the default file and fails, the second succeeds
without a further attempt. -/
theorem ReloadWithKeymap_failure_not_rolled_back_witness :
    (ReloadWithKeymap sampleEnvNoFile sampleManager SessionKeymap.ATOK (sampleWorld "")).1 = false
      ∧ (ReloadWithKeymap sampleEnvNoFile
          (ReloadWithKeymap sampleEnvNoFile sampleManager SessionKeymap.ATOK
            (sampleWorld "")).2.1 SessionKeymap.ATOK
          (ReloadWithKeymap sampleEnvNoFile sampleManager SessionKeymap.ATOK
            (sampleWorld "")).2.2).1 = true
      ∧ (ReloadWithKeymap sampleEnvNoFile
          (ReloadWithKeymap sampleEnvNoFile sampleManager SessionKeymap.ATOK
            (sampleWorld "")).2.1 SessionKeymap.ATOK
          (ReloadWithKeymap sampleEnvNoFile sampleManager SessionKeymap.ATOK
            (sampleWorld "")).2.2).2.2.Open_calls
        = ["system://atok.tsv", "system://ms-ime.tsv"] :=
  have h := ReloadWithKeymap_failure_not_rolled_back sampleEnvNoFile sampleManager
    SessionKeymap.ATOK (sampleWorld "") (by decide) (by decide)
  ⟨by decide, by rw [h.2.1], by rw [h.2.1]; decide⟩

/-! ### The lines of the migration -/

/-- C33: the characters the migration writes into its stream, after a header
without line feed, are the header, the eight rule lines and an empty line;
when ChopReturns leaves these lines as they are, SplitStringUsing splits each
rule line into its three fields and the vocabularies are those of
InitCommandData, the loop of the loader on the eight lines yields exactly the
six tables the eight AddRule calls of the migration yield (each line adds the
rule of the corresponding call: same table, same key event, same command
code), so that the whole load yields those tables with the baseline rules
added, and the error vector is unchanged. -/
theorem LoadStreamWithErrors_migration_lines (env : Env) (m : KeyMapManager)
    (errors : List String) (header : String)
    (hheader : '\n' ∉ header.data)
    (hreg : vocabularies m = vocabularies (InitCommandData env initial))
    (hblank : env.ChopReturns "" = "")
    (hchop : ∀ fields ∈ migrationLineFields,
      env.ChopReturns (ruleLine fields) = ruleLine fields)
    (hsplit : ∀ fields ∈ migrationLineFields,
      env.SplitStringUsing (ruleLine fields) "\t" = [fields.1, fields.2.1, fields.2.2]) :
    getlines (header ++ migratedCustomKeymapTable "")
        = header :: (migrationLineFields.map ruleLine ++ [""])
      ∧ tables ((migrationLineFields.map ruleLine).foldl (LoadLine env) (m, errors)).1
        = tables (AddMigrationRules env m)
      ∧ tables (LoadStreamWithErrors env m (header ++ migratedCustomKeymapTable "") errors).2.1
        = tables (AddBaselineRules env (AddMigrationRules env m))
      ∧ (LoadStreamWithErrors env m (header ++ migratedCustomKeymapTable "") errors).2.2
        = errors := by
  have hlines := getlines_header_migrated header hheader
  obtain ⟨ht, he⟩ := foldl_LoadLine_migration_lines env m errors hreg hchop hsplit
  have hlast : ∀ st, LoadLine env st "" = st := by
    intro st
    unfold LoadLine
    simp only [hblank, true_or, if_true]
  refine ⟨hlines, ht, ?_⟩
  rw [LoadStreamWithErrors_eq env m _ errors header _ hlines]
  simp only [List.foldl_append, List.foldl_cons, List.foldl_nil, hlast]
  exact ⟨AddBaselineRules_tables_congr env _ _ ht, he⟩

set_option maxRecDepth 20000 in
/-- Witness for C33: the eight lines after the usual header in the concrete
environment; the Direct table holds IME_ON for the keys of Hankaku/Zenkaku
and Kanji. -/
theorem LoadStreamWithErrors_migration_lines_witness :
    tables (LoadStreamWithErrors sampleEnv sampleManager
        ("status\tkey\tcommand" ++ migratedCustomKeymapTable "") []).2.1
        = tables (AddBaselineRules sampleEnv (AddMigrationRules sampleEnv sampleManager))
      ∧ (LoadStreamWithErrors sampleEnv sampleManager
        ("status\tkey\tcommand" ++ migratedCustomKeymapTable "") []).2.2 = []
      ∧ (AddMigrationRules sampleEnv sampleManager).keymap_direct_.keymap_
        = [(201863462912, DirectInputState.Commands.IME_ON),
           (206158430208, DirectInputState.Commands.IME_ON)] :=
  ⟨(LoadStreamWithErrors_migration_lines sampleEnv sampleManager [] "status\tkey\tcommand"
      (by decide) rfl (by decide) (by decide) (by decide)).2.2.1,
   (LoadStreamWithErrors_migration_lines sampleEnv sampleManager [] "status\tkey\tcommand"
      (by decide) rfl (by decide) (by decide) (by decide)).2.2.2,
   by decide⟩

end keymap
end mozc
